import Mathlib

/-!
# The JSON-RPC server of the honey node (`src/rpcserver.cpp`)

A shallow embedding of the request dispatcher: request validation
(`JSONRequest::parse`), the command table and `CRPCTable::execute`, the batch
executor (`JSONRPCExecOne`, `JSONRPCExecBatch`) and the HTTP request loop
(`ServiceConnection`, `ErrorReply`, `HTTPAuthorized`).

Conventions of the embedding.

* A C++ function that reads or writes process-wide state takes the state as a `Node`
  and returns an `Exec`: its return value, the state afterwards and the list of
  observable actions it performed (locks taken and released, handler invocations,
  JSON parsing of a body, HTTP replies written to the stream).
* A C++ exception is a value of `Thrown`; a function that may throw returns an `Except`.
* `std::string` is `String`, `std::vector` and `json_spirit::Array` are `List`.
* A value of type `double` in `GetDifficulty` is a `double`: a number of IEEE 754
  binary64, with the results of the operations rounded to nearest, ties to even.
* What the sources include but do not define (the JSON library, `rpcprotocol`, the
  handlers of other translation units) is either a field of `Build` or a definition
  whose doc comment says that it is modelled.
-/

set_option autoImplicit false

namespace json_spirit

/-- The enumeration `json_spirit::Value_type`. -/
inductive Value_type where
  | obj_type | array_type | str_type | bool_type | int_type | real_type | null_type
  deriving DecidableEq, Repr

/-- A JSON value, `json_spirit::Value`. An object is its list of (name, value) pairs in
document order, as `json_spirit::Object` is a vector of `Pair`. The payload of a real
number is the rational it denotes. -/
inductive Value where
  | obj (members : List (String × Value))
  | array (elements : List Value)
  | str (s : String)
  | bool (b : Bool)
  | int (i : Int)
  | real (r : Rat)
  | null

instance : Inhabited Value := ⟨Value.null⟩

/-- The type `json_spirit::Pair`. -/
abbrev Pair := String × Value

/-- The type `json_spirit::Object`. -/
abbrev Object := List Pair

/-- The type `json_spirit::Array`. -/
abbrev Array := List Value

/-- The member function `Value::type()`. -/
def Value.type : Value → Value_type
  | .obj _ => .obj_type
  | .array _ => .array_type
  | .str _ => .str_type
  | .bool _ => .bool_type
  | .int _ => .int_type
  | .real _ => .real_type
  | .null => .null_type

/-- Modelled from the spec: `json_spirit::find_value` belongs to the JSON library, which is
not among the sources. A member that is absent reads as JSON null (the spec treats an
absent `params` or `id` like a null one); of several members of one name the first is
returned. -/
def find_value : Object → String → Value
  | [], _ => Value.null
  | (n, v) :: rest, name => if n = name then v else find_value rest name

/-- Modelled from the spec: `Value::get_int()` of the JSON library. It yields the integer
of an `int_type` value; on every other value the library raises a type-mismatch
exception, which is `none` here. -/
def Value.get_int : Value → Option Int
  | .int i => some i
  | _ => none

end json_spirit

open json_spirit

/-! ## rpcprotocol: error codes, HTTP status codes, reply objects -/

/-- Modelled from the spec: the HTTP status codes of `rpcprotocol.h`, which is not among
the sources; section 6 of the spec lists them by number. -/
def HTTP_OK : Nat := 200

/-- Modelled from the spec: status `400 invalid/unparseable request`. -/
def HTTP_BAD_REQUEST : Nat := 400

/-- Modelled from the spec: status `401 unauthorized`. -/
def HTTP_UNAUTHORIZED : Nat := 401

/-- Modelled from the spec: status `403 forbidden by IP policy`. -/
def HTTP_FORBIDDEN : Nat := 403

/-- Modelled from the spec: status `404 unknown path`. -/
def HTTP_NOT_FOUND : Nat := 404

/-- Modelled from the spec: status `500 internal framing-level failure`. -/
def HTTP_INTERNAL_SERVER_ERROR : Nat := 500

/-- Modelled from the spec: the code of the `invalid request` error kind. The enumeration
`RPCErrorCode` of `rpcprotocol.h` is not among the sources; the numbers are those of the
JSON-RPC 2.0 standard for the standard kinds and small negative numbers for the
application kinds, pairwise distinct. -/
def RPC_INVALID_REQUEST : Int := -32600

/-- Modelled from the spec: the code of the `method not found` error kind. -/
def RPC_METHOD_NOT_FOUND : Int := -32601

/-- Modelled from the spec: the code of the `parse error` kind. -/
def RPC_PARSE_ERROR : Int := -32700

/-- Modelled from the spec: the code of the `internal/miscellaneous error` kind. -/
def RPC_MISC_ERROR : Int := -1

/-- Modelled from the spec: the code of the `forbidden by safe mode` kind. -/
def RPC_FORBIDDEN_BY_SAFE_MODE : Int := -2

/-- Modelled from the spec: the code of the `invalid parameter type` kind. -/
def RPC_TYPE_ERROR : Int := -3

/-- Modelled from the spec: the code of the `invalid parameter value` kind. -/
def RPC_INVALID_PARAMETER : Int := -8

/-- Modelled from the spec: `JSONRPCError` of `rpcprotocol.cpp` builds the structured
error, an object with an integer `code` and a string `message`. -/
def JSONRPCError (code : Int) (message : String) : Object :=
  [("code", Value.int code), ("message", Value.str message)]

/-- Modelled from the spec: `JSONRPCReplyObj` of `rpcprotocol.cpp` builds the response
object with the members `result`, `error` and `id`; a response that carries an error has
a null result. -/
def JSONRPCReplyObj (result error id : Value) : Object :=
  [("result", if error.type ≠ Value_type.null_type then Value.null else result),
   ("error", error),
   ("id", id)]

/-! ## Exceptions, node state and observable actions -/

/-- What a C++ `throw` of this server carries: a `json_spirit::Object` (the structured
error that `throw JSONRPCError(code, message)` raises) or an exception derived from
`std::exception`, of which only the description `what()` is read. These are the two kinds
the `catch` clauses of the dispatcher name. -/
inductive Thrown where
  | object (objError : Object)
  | exception (what : String)

/-- The class `boost::asio::deadline_timer` as far as the server uses it: the pending
asynchronous wait of the timer, if there is one, with the delay in seconds it was set to
and the callback that `RPCRunHandler` was bound to. A callback `std::function<void(void)>`
is known by a number. -/
structure deadline_timer where
  wait : Option (Int × Nat)
  deriving DecidableEq, Repr

/-- The process-wide state the server code reads and writes. Each field stands for one
global or one accessor of another translation unit. -/
structure Node where
  /-- The text `GetWarnings("rpc")` returns. -/
  strWarnings : String := ""
  /-- The value of `GetBoolArg("-disablesafemode", false)`. -/
  fDisableSafeMode : Bool := false
  /-- Whether the pointer `pwalletMain` is non-null. -/
  pwalletMain : Bool := false
  /-- The global `nBestHeight`. -/
  nBestHeight : Int := 0
  /-- Whether `StartShutdown()` has been called. -/
  fRequestShutdown : Bool := false
  /-- The file-static `strRPCUserColonPass`. -/
  strRPCUserColonPass : String := ""
  /-- The configuration entry `mapArgs["-rpcpassword"]`. -/
  rpcpassword : String := ""
  /-- The configuration entries `mapMultiArgs["-rpcallowip"]`. -/
  rpcallowip : List String := []
  /-- The text `hashBestChain.GetHex()` of the global `hashBestChain`. -/
  hashBestChain : String := ""
  /-- Whether the file-static pointer `rpc_io_service` is non-null. -/
  rpc_io_service : Bool := false
  /-- Whether the file-static pointer `rpc_ssl_context` is non-null. -/
  rpc_ssl_context : Bool := false
  /-- The file-static pointer `rpc_worker_group`: `none` when null, else the number of
  threads of the group. -/
  rpc_worker_group : Option Nat := none
  /-- The file-static map `deadlineTimers`. -/
  deadlineTimers : List (String × deadline_timer) := []
  deriving DecidableEq, Repr

/-- An action of the server that is observable from outside the function performing it. -/
inductive Event where
  /-- A critical section was entered: `LOCK(cs)`. -/
  | lock (cs : String)
  /-- A critical section was left (end of the scope of a `LOCK`). -/
  | unlock (cs : String)
  /-- A handler was invoked: `pcmd->actor(params, fHelp)` of the command `name`. -/
  | call (name : String) (params : Array) (fHelp : Bool)
  /-- The text was handed to `json_spirit::read_string`. -/
  | read_string (strRequest : String)
  /-- The reply `HTTPReply(nStatus, strMsg, keepalive)` was written to the stream. -/
  | reply (nStatus : Nat) (strMsg : String) (keepalive : Bool)
  /-- The thread slept: `MilliSleep(n)`. -/
  | MilliSleep (n : Nat)
  /-- The next asynchronous accept was started: `RPCListen(acceptor, context, fUseSSL)`. -/
  | RPCListen
  /-- The connection was closed: `conn->close()`. -/
  | close
  /-- The connection object was released: `delete conn`. -/
  | delete_conn
  /-- The callback `func` was invoked: `func()` in `RPCRunHandler`. -/
  | func (func : Nat)
  /-- The credential cookie was removed: `DeleteAuthCookie()`. -/
  | DeleteAuthCookie
  /-- The reactor was stopped: `rpc_io_service->stop()`. -/
  | io_service_stop
  /-- The worker threads were joined: `rpc_worker_group->join_all()`. -/
  | join_all
  /-- A listening socket was set up for the IPv6 endpoint (`true`) or for the IPv4
  endpoint (`false`): the `try` block that opens, binds and listens was entered. -/
  | bind (ipv6 : Bool)
  /-- An error was shown: `uiInterface.ThreadSafeMessageBox(..)`. -/
  | ThreadSafeMessageBox
  /-- A worker thread was created: `rpc_worker_group->create_thread(..)`. -/
  | create_thread

/-- The outcome of running a piece of server code: what it returned, the node state it
left and the actions it performed, oldest first. -/
structure Exec (α : Type) where
  ret : α
  node : Node
  trace : List Event

/-- The handler type `rpcfn_type`: `Value (*)(const Array& params, bool fHelp)`. A handler
returns a value or throws, and may change the node state either way. -/
abbrev rpcfn_type := Array → Bool → Node → Except Thrown Value × Node

/-- The class `CRPCCommand`: one row of the command table. -/
structure CRPCCommand where
  name : String
  actor : rpcfn_type
  okSafeMode : Bool
  threadSafe : Bool
  reqWallet : Bool
  /-- The C++ symbol of the function `actor` points to. It stands for the value of the
  function pointer where pointers are compared; it is the command name for every row of
  the table but `move`, whose handler is `movecmd`. -/
  symbol : String := name

/-- What the translation unit is compiled with and linked against. -/
structure Build where
  /-- Whether the preprocessor symbol `ENABLE_WALLET` is defined. -/
  ENABLE_WALLET : Bool
  /-- The handler functions, by their C++ symbol (`getblockcount`, `movecmd`, ...). -/
  actor : String → rpcfn_type
  /-- The parser `json_spirit::read_string`; `none` when it returns `false`. -/
  read_string : String → Option Value
  /-- The serialiser `json_spirit::write_string(value, pretty)`. -/
  write_string : Value → Bool → String
  /-- The decoder `DecodeBase64` of `util.cpp`. -/
  DecodeBase64 : String → String

/-! ## The command table -/

/-- The rows of `vRPCCommands` that are compiled in every build. -/
def vRPCCommandsBase (actor : String → rpcfn_type) : List CRPCCommand :=
  [ { name := "help", actor := actor "help", okSafeMode := true, threadSafe := true, reqWallet := false },
    { name := "stop", actor := actor "stop", okSafeMode := true, threadSafe := true, reqWallet := false },
    { name := "getbestblockhash", actor := actor "getbestblockhash", okSafeMode := true, threadSafe := false, reqWallet := false },
    { name := "getblockcount", actor := actor "getblockcount", okSafeMode := true, threadSafe := false, reqWallet := false },
    { name := "getconnectioncount", actor := actor "getconnectioncount", okSafeMode := true, threadSafe := false, reqWallet := false },
    { name := "getpeerinfo", actor := actor "getpeerinfo", okSafeMode := true, threadSafe := false, reqWallet := false },
    { name := "addnode", actor := actor "addnode", okSafeMode := true, threadSafe := true, reqWallet := false },
    { name := "getaddednodeinfo", actor := actor "getaddednodeinfo", okSafeMode := true, threadSafe := true, reqWallet := false },
    { name := "ping", actor := actor "ping", okSafeMode := true, threadSafe := false, reqWallet := false },
    { name := "getnettotals", actor := actor "getnettotals", okSafeMode := true, threadSafe := true, reqWallet := false },
    { name := "getdifficulty", actor := actor "getdifficulty", okSafeMode := true, threadSafe := false, reqWallet := false },
    { name := "getinfo", actor := actor "getinfo", okSafeMode := true, threadSafe := false, reqWallet := false },
    { name := "getrawmempool", actor := actor "getrawmempool", okSafeMode := true, threadSafe := false, reqWallet := false },
    { name := "getblock", actor := actor "getblock", okSafeMode := false, threadSafe := false, reqWallet := false },
    { name := "getblockbynumber", actor := actor "getblockbynumber", okSafeMode := false, threadSafe := false, reqWallet := false },
    { name := "getblockhash", actor := actor "getblockhash", okSafeMode := false, threadSafe := false, reqWallet := false },
    { name := "getrawtransaction", actor := actor "getrawtransaction", okSafeMode := false, threadSafe := false, reqWallet := false },
    { name := "createrawtransaction", actor := actor "createrawtransaction", okSafeMode := false, threadSafe := false, reqWallet := false },
    { name := "decoderawtransaction", actor := actor "decoderawtransaction", okSafeMode := false, threadSafe := false, reqWallet := false },
    { name := "decodescript", actor := actor "decodescript", okSafeMode := false, threadSafe := false, reqWallet := false },
    { name := "signrawtransaction", actor := actor "signrawtransaction", okSafeMode := false, threadSafe := false, reqWallet := false },
    { name := "sendrawtransaction", actor := actor "sendrawtransaction", okSafeMode := false, threadSafe := false, reqWallet := false },
    { name := "getcheckpoint", actor := actor "getcheckpoint", okSafeMode := true, threadSafe := false, reqWallet := false },
    { name := "validateaddress", actor := actor "validateaddress", okSafeMode := true, threadSafe := false, reqWallet := false },
    { name := "validatepubkey", actor := actor "validatepubkey", okSafeMode := true, threadSafe := false, reqWallet := false },
    { name := "verifymessage", actor := actor "verifymessage", okSafeMode := false, threadSafe := false, reqWallet := false } ]

/-- The rows of `vRPCCommands` between `#ifdef ENABLE_WALLET` and `#endif`. -/
def vRPCCommandsWallet (actor : String → rpcfn_type) : List CRPCCommand :=
  [{ name := "getmininginfo", actor := actor "getmininginfo", okSafeMode := true, threadSafe := false, reqWallet := false },
    { name := "getstakinginfo", actor := actor "getstakinginfo", okSafeMode := true, threadSafe := false, reqWallet := false },
    { name := "getnewaddress", actor := actor "getnewaddress", okSafeMode := true, threadSafe := false, reqWallet := true },
    { name := "getnewpubkey", actor := actor "getnewpubkey", okSafeMode := true, threadSafe := false, reqWallet := true },
    { name := "getaccountaddress", actor := actor "getaccountaddress", okSafeMode := true, threadSafe := false, reqWallet := true },
    { name := "setaccount", actor := actor "setaccount", okSafeMode := true, threadSafe := false, reqWallet := true },
    { name := "getaccount", actor := actor "getaccount", okSafeMode := false, threadSafe := false, reqWallet := true },
    { name := "getaddressesbyaccount", actor := actor "getaddressesbyaccount", okSafeMode := true, threadSafe := false, reqWallet := true },
    { name := "sendtoaddress", actor := actor "sendtoaddress", okSafeMode := false, threadSafe := false, reqWallet := true },
    { name := "getreceivedbyaddress", actor := actor "getreceivedbyaddress", okSafeMode := false, threadSafe := false, reqWallet := true },
    { name := "getreceivedbyaccount", actor := actor "getreceivedbyaccount", okSafeMode := false, threadSafe := false, reqWallet := true },
    { name := "listreceivedbyaddress", actor := actor "listreceivedbyaddress", okSafeMode := false, threadSafe := false, reqWallet := true },
    { name := "listreceivedbyaccount", actor := actor "listreceivedbyaccount", okSafeMode := false, threadSafe := false, reqWallet := true },
    { name := "backupwallet", actor := actor "backupwallet", okSafeMode := true, threadSafe := false, reqWallet := true },
    { name := "keypoolrefill", actor := actor "keypoolrefill", okSafeMode := true, threadSafe := false, reqWallet := true },
    { name := "walletpassphrase", actor := actor "walletpassphrase", okSafeMode := true, threadSafe := false, reqWallet := true },
    { name := "walletpassphrasechange", actor := actor "walletpassphrasechange", okSafeMode := false, threadSafe := false, reqWallet := true },
    { name := "walletlock", actor := actor "walletlock", okSafeMode := true, threadSafe := false, reqWallet := true },
    { name := "encryptwallet", actor := actor "encryptwallet", okSafeMode := false, threadSafe := false, reqWallet := true },
    { name := "getbalance", actor := actor "getbalance", okSafeMode := false, threadSafe := false, reqWallet := true },
    { name := "move", actor := actor "movecmd", okSafeMode := false, threadSafe := false, reqWallet := true,
      symbol := "movecmd" },
    { name := "sendfrom", actor := actor "sendfrom", okSafeMode := false, threadSafe := false, reqWallet := true },
    { name := "sendmany", actor := actor "sendmany", okSafeMode := false, threadSafe := false, reqWallet := true },
    { name := "addmultisigaddress", actor := actor "addmultisigaddress", okSafeMode := false, threadSafe := false, reqWallet := true },
    { name := "addredeemscript", actor := actor "addredeemscript", okSafeMode := false, threadSafe := false, reqWallet := true },
    { name := "gettransaction", actor := actor "gettransaction", okSafeMode := false, threadSafe := false, reqWallet := true },
    { name := "listtransactions", actor := actor "listtransactions", okSafeMode := false, threadSafe := false, reqWallet := true },
    { name := "listaddressgroupings", actor := actor "listaddressgroupings", okSafeMode := false, threadSafe := false, reqWallet := true },
    { name := "signmessage", actor := actor "signmessage", okSafeMode := false, threadSafe := false, reqWallet := true },
    { name := "getwork", actor := actor "getwork", okSafeMode := true, threadSafe := false, reqWallet := true },
    { name := "getworkex", actor := actor "getworkex", okSafeMode := true, threadSafe := false, reqWallet := true },
    { name := "listaccounts", actor := actor "listaccounts", okSafeMode := false, threadSafe := false, reqWallet := true },
    { name := "getblocktemplate", actor := actor "getblocktemplate", okSafeMode := true, threadSafe := false, reqWallet := false },
    { name := "submitblock", actor := actor "submitblock", okSafeMode := false, threadSafe := false, reqWallet := false },
    { name := "listsinceblock", actor := actor "listsinceblock", okSafeMode := false, threadSafe := false, reqWallet := true },
    { name := "dumpprivkey", actor := actor "dumpprivkey", okSafeMode := false, threadSafe := false, reqWallet := true },
    { name := "dumpwallet", actor := actor "dumpwallet", okSafeMode := true, threadSafe := false, reqWallet := true },
    { name := "importprivkey", actor := actor "importprivkey", okSafeMode := false, threadSafe := false, reqWallet := true },
    { name := "importwallet", actor := actor "importwallet", okSafeMode := false, threadSafe := false, reqWallet := true },
    { name := "listunspent", actor := actor "listunspent", okSafeMode := false, threadSafe := false, reqWallet := true },
    { name := "settxfee", actor := actor "settxfee", okSafeMode := false, threadSafe := false, reqWallet := true },
    { name := "getsubsidy", actor := actor "getsubsidy", okSafeMode := true, threadSafe := true, reqWallet := false },
    { name := "getstakesubsidy", actor := actor "getstakesubsidy", okSafeMode := true, threadSafe := true, reqWallet := false },
    { name := "reservebalance", actor := actor "reservebalance", okSafeMode := false, threadSafe := true, reqWallet := true },
    { name := "checkwallet", actor := actor "checkwallet", okSafeMode := false, threadSafe := true, reqWallet := true },
    { name := "repairwallet", actor := actor "repairwallet", okSafeMode := false, threadSafe := true, reqWallet := true },
    { name := "resendtx", actor := actor "resendtx", okSafeMode := false, threadSafe := true, reqWallet := true },
    { name := "makekeypair", actor := actor "makekeypair", okSafeMode := false, threadSafe := true, reqWallet := false },
    { name := "checkkernel", actor := actor "checkkernel", okSafeMode := true, threadSafe := false, reqWallet := true } ]

/-- The array `vRPCCommands`, in source order. -/
def vRPCCommands (B : Build) : List CRPCCommand :=
  if B.ENABLE_WALLET then vRPCCommandsBase B.actor ++ vRPCCommandsWallet B.actor
  else vRPCCommandsBase B.actor

/-- The assignment `m[k] = v` on a `std::map<std::string, T>`, kept as a list of bindings
with pairwise different keys: the binding of `k` is replaced, or added when there is none. -/
def map_assign {α : Type} : List (String × α) → String → α → List (String × α)
  | [], k, v => [(k, v)]
  | (k0, v0) :: rest, k, v =>
    if k0 = k then (k, v) :: rest else (k0, v0) :: map_assign rest k v

/-- The lookup `m.find(k)` on a `std::map<std::string, T>`; `none` is `m.end()`. -/
def map_find {α : Type} : List (String × α) → String → Option α
  | [], _ => none
  | (k0, v0) :: rest, k => if k0 = k then some v0 else map_find rest k

/-- The class `CRPCTable`, whose only data member is `mapCommands`. -/
structure CRPCTable where
  mapCommands : List (String × CRPCCommand)

/-- The constructor `CRPCTable::CRPCTable()`: every row of `vRPCCommands`, in order, is
assigned to `mapCommands[pcmd->name]`. -/
def CRPCTable.new (B : Build) : CRPCTable :=
  { mapCommands := (vRPCCommands B).foldl (fun m pcmd => map_assign m pcmd.name pcmd) [] }

/-- The lookup `CRPCTable::operator[]`; `none` is the null pointer. -/
def CRPCTable.get (self : CRPCTable) (name : String) : Option CRPCCommand :=
  map_find self.mapCommands name

/-- The global `tableRPC`. -/
def tableRPC (B : Build) : CRPCTable := CRPCTable.new B

/-! ## Request validation -/

/-- The class `JSONRequest`. -/
structure JSONRequest where
  id : Value
  strMethod : String
  params : Array

/-- The constructor `JSONRequest()`, which sets `id` to null. -/
def JSONRequest.new : JSONRequest :=
  { id := Value.null, strMethod := "", params := [] }

/-- The member function `JSONRequest::parse`. It assigns the members of the request
one after the other, so the request is returned along with the outcome: after a
failure the members assigned before the `throw` keep their new values. -/
def JSONRequest.parse (self : JSONRequest) (valRequest : Value) :
    Except Thrown Unit × JSONRequest :=
  match valRequest with
  | Value.obj request =>
    -- Parse id now so errors from here on will have the id
    let self := { self with id := find_value request "id" }
    let valMethod := find_value request "method"
    match valMethod with
    | Value.null =>
      (.error (.object (JSONRPCError RPC_INVALID_REQUEST "Missing method")), self)
    | Value.str s =>
      let self := { self with strMethod := s }
      let valParams := find_value request "params"
      match valParams with
      | Value.array a => (.ok (), { self with params := a })
      | Value.null => (.ok (), { self with params := [] })
      | _ => (.error (.object (JSONRPCError RPC_INVALID_REQUEST "Params must be an array")), self)
    | _ =>
      (.error (.object (JSONRPCError RPC_INVALID_REQUEST "Method must be a string")), self)
  | _ =>
    (.error (.object (JSONRPCError RPC_INVALID_REQUEST "Invalid Request object")), self)

/-! ## Dispatch -/

/-- The critical sections `CRPCTable::execute` enters before it calls the handler of
`pcmd`, outermost first: none for a thread-safe command, otherwise `cs_main` and, when
there is a wallet, `pwalletMain->cs_wallet` inside it (`LOCK2`). -/
def CRPCTable.execute.locks (B : Build) (pcmd : CRPCCommand) (node : Node) : List String :=
  if pcmd.threadSafe then []
  else if B.ENABLE_WALLET && node.pwalletMain then ["cs_main", "cs_wallet"]
  else ["cs_main"]

/-- The member function `CRPCTable::execute`. -/
def CRPCTable.execute (B : Build) (strMethod : String) (params : Array) (node : Node) :
    Exec (Except Thrown Value) :=
  -- Find method
  match (tableRPC B).get strMethod with
  | none =>
    ⟨.error (.object (JSONRPCError RPC_METHOD_NOT_FOUND "Method not found")), node, []⟩
  | some pcmd =>
    if B.ENABLE_WALLET && pcmd.reqWallet && !node.pwalletMain then
      ⟨.error (.object (JSONRPCError RPC_METHOD_NOT_FOUND "Method not found (disabled)")),
        node, []⟩
    else
      -- Observe safe mode
      let strWarning := node.strWarnings
      if strWarning ≠ "" && !node.fDisableSafeMode && !pcmd.okSafeMode then
        ⟨.error (.object (JSONRPCError RPC_FORBIDDEN_BY_SAFE_MODE ("Safe mode: " ++ strWarning))),
          node, []⟩
      else
        -- Execute
        let held := CRPCTable.execute.locks B pcmd node
        let r := pcmd.actor params false node
        let trace := held.map Event.lock ++ [Event.call pcmd.name params false]
          ++ held.reverse.map Event.unlock
        match r.1 with
        | .ok result => ⟨.ok result, r.2, trace⟩
        | .error (.object objError) => ⟨.error (.object objError), r.2, trace⟩
        | .error (.exception what) =>
          ⟨.error (.object (JSONRPCError RPC_MISC_ERROR what)), r.2, trace⟩

/-- The function `JSONRPCExecOne`. -/
def JSONRPCExecOne (B : Build) (req : Value) (node : Node) : Exec Object :=
  let jreq := JSONRequest.new
  match jreq.parse req with
  | (.ok (), jreq) =>
    let e := CRPCTable.execute B jreq.strMethod jreq.params node
    match e.ret with
    | .ok result => ⟨JSONRPCReplyObj result Value.null jreq.id, e.node, e.trace⟩
    | .error (.object objError) =>
      ⟨JSONRPCReplyObj Value.null (Value.obj objError) jreq.id, e.node, e.trace⟩
    | .error (.exception what) =>
      ⟨JSONRPCReplyObj Value.null (Value.obj (JSONRPCError RPC_PARSE_ERROR what)) jreq.id,
        e.node, e.trace⟩
  | (.error (.object objError), jreq) =>
    ⟨JSONRPCReplyObj Value.null (Value.obj objError) jreq.id, node, []⟩
  | (.error (.exception what), jreq) =>
    ⟨JSONRPCReplyObj Value.null (Value.obj (JSONRPCError RPC_PARSE_ERROR what)) jreq.id,
      node, []⟩

/-- The loop of `JSONRPCExecBatch`: the array `ret` after the requests `vReq` have been
executed in order, each in the node state its predecessor left. -/
def JSONRPCExecBatch.ret (B : Build) : Array → Node → Exec Array
  | [], node => ⟨[], node, []⟩
  | req :: rest, node =>
    let one := JSONRPCExecOne B req node
    let more := JSONRPCExecBatch.ret B rest one.node
    ⟨Value.obj one.ret :: more.ret, more.node, one.trace ++ more.trace⟩

/-- The function `JSONRPCExecBatch`. -/
def JSONRPCExecBatch (B : Build) (vReq : Array) (node : Node) : Exec String :=
  let r := JSONRPCExecBatch.ret B vReq node
  ⟨B.write_string (Value.array r.ret) false ++ "\n", r.node, r.trace⟩

/-! ## The HTTP request loop -/

/-- Modelled from the spec: `JSONRPCReply` of `rpcprotocol.cpp`, the serialised response
object followed by a newline. -/
def JSONRPCReply (B : Build) (result error id : Value) : String :=
  B.write_string (Value.obj (JSONRPCReplyObj result error id)) false ++ "\n"

/-- The member function `std::string::substr(pos, n)` for `pos` within the string. -/
def substr (s : String) (pos n : Nat) : String :=
  ⟨(s.data.drop pos).take n⟩

/-- The member function `std::string::substr(pos)`: the rest of the string from `pos`. -/
def substrFrom (s : String) (pos : Nat) : String :=
  ⟨s.data.drop pos⟩

/-- The predicate `std::isspace` of the classic locale. -/
def isspace (c : Char) : Bool :=
  c = ' ' || c = '\t' || c = '\n' || c = '\x0b' || c = '\x0c' || c = '\r'

/-- The algorithm `boost::trim`: leading and trailing white space is removed. -/
def trim (s : String) : String :=
  ⟨((s.data.dropWhile isspace).reverse.dropWhile isspace).reverse⟩

/-- Modelled from the spec: `TimingResistantEqual`, which is not among the sources, is a
byte-wise comparison that does not stop at the first mismatch: the differences of the
lengths and of all byte pairs are accumulated, and the strings are equal when nothing
was accumulated. -/
def TimingResistantEqual (a b : String) : Bool :=
  if b.data.length = 0 then a.data.length = 0
  else
    let accumulator := a.data.length ^^^ b.data.length
    let accumulator := (List.range a.data.length).foldl
      (fun acc i => acc ||| ((a.data.getD i ' ').toNat
        ^^^ (b.data.getD (i % b.data.length) ' ').toNat)) accumulator
    accumulator = 0

/-- The read `m[k]` of a `std::map<std::string, std::string>`: the value bound to `k`, or
the empty string, which `operator[]` binds to a key that was absent. -/
def map_index (m : List (String × String)) (k : String) : String :=
  (map_find m k).getD ""

/-- The function `HTTPAuthorized`. -/
def HTTPAuthorized (B : Build) (mapHeaders : List (String × String)) (node : Node) : Bool :=
  let strAuth := map_index mapHeaders "authorization"
  if substr strAuth 0 6 ≠ "Basic " then false
  else
    let strUserPass64 := trim (substrFrom strAuth 6)
    let strUserPass := B.DecodeBase64 strUserPass64
    TimingResistantEqual strUserPass node.strRPCUserColonPass

/-- The function `ErrorReply`: the reply it writes to the stream. It is `none` when
`find_value(objError, "code").get_int()` raises the type-mismatch exception of the JSON
library, in which case nothing is written. -/
def ErrorReply (B : Build) (objError : Object) (id : Value) : Option (List Event) :=
  -- Send error reply from json-rpc error object
  match (find_value objError "code").get_int with
  | none => none
  | some code =>
    let nStatus :=
      if code = RPC_INVALID_REQUEST then HTTP_BAD_REQUEST
      else if code = RPC_METHOD_NOT_FOUND then HTTP_NOT_FOUND
      else HTTP_INTERNAL_SERVER_ERROR
    let strReply := JSONRPCReply B Value.null (Value.obj objError) id
    some [Event.reply nStatus strReply false]

/-- What one read of the HTTP framing layer yields (`ReadHTTPRequestLine` and
`ReadHTTPMessage`): the method, the URI, the headers with lower-case names, the body. -/
structure HTTPRequest where
  strMethod : String
  strURI : String
  mapHeaders : List (String × String)
  strRequest : String

/-- How one pass through the body of the `while` loop of `ServiceConnection` ends. -/
inductive LoopFlow where
  /-- The end of the body was reached with `fRun` still set: the loop reads on. -/
  | next
  /-- The loop was left, by `break` or because `fRun` was cleared. -/
  | stop
  /-- An exception left `ServiceConnection` (raised inside a `catch` clause). -/
  | raised
  deriving DecidableEq, Repr

/-- The value of `fRun` in the loop body of `ServiceConnection` once the `Connection`
header was looked at: cleared by `Connection: close`. -/
def ServiceConnection.fRun (req : HTTPRequest) : Bool :=
  !(map_index req.mapHeaders "connection" == "close")

/-- The `try` block in the loop body of `ServiceConnection`, for the request body
`strRequest`: its outcome together with the request `jreq`, which the `catch` clauses
read after a failure. -/
def ServiceConnection.tryBlock (B : Build) (fRun : Bool) (strRequest : String) (node : Node) :
    Exec (Except Thrown Unit × JSONRequest) :=
  let jreq := JSONRequest.new
  -- Parse request
  match B.read_string strRequest with
  | none =>
    ⟨(.error (.object (JSONRPCError RPC_PARSE_ERROR "Parse error")), jreq), node,
      [Event.read_string strRequest]⟩
  | some valRequest =>
    match valRequest with
    | Value.obj _ =>
      -- singleton request
      match jreq.parse valRequest with
      | (.error t, jreq) => ⟨(.error t, jreq), node, [Event.read_string strRequest]⟩
      | (.ok (), jreq) =>
        let e := CRPCTable.execute B jreq.strMethod jreq.params node
        match e.ret with
        | .error t => ⟨(.error t, jreq), e.node, Event.read_string strRequest :: e.trace⟩
        | .ok result =>
          -- Send reply
          let strReply := JSONRPCReply B result Value.null jreq.id
          ⟨(.ok (), jreq), e.node,
            Event.read_string strRequest :: e.trace ++ [Event.reply HTTP_OK strReply fRun]⟩
    | Value.array vReq =>
      -- array of requests
      let b := JSONRPCExecBatch B vReq node
      ⟨(.ok (), jreq), b.node,
        Event.read_string strRequest :: b.trace ++ [Event.reply HTTP_OK b.ret fRun]⟩
    | _ =>
      ⟨(.error (.object (JSONRPCError RPC_PARSE_ERROR "Top-level object parse error")), jreq),
        node, [Event.read_string strRequest]⟩

/-- The body of the `while` loop of `ServiceConnection` for one request that was read
from the stream. -/
def ServiceConnection.body (B : Build) (req : HTTPRequest) (node : Node) : Exec LoopFlow :=
  if req.strURI ≠ "/" then
    ⟨LoopFlow.stop, node, [Event.reply HTTP_NOT_FOUND "" false]⟩
  -- Check authorization
  else if (map_find req.mapHeaders "authorization").isNone then
    ⟨LoopFlow.stop, node, [Event.reply HTTP_UNAUTHORIZED "" false]⟩
  else if !HTTPAuthorized B req.mapHeaders node then
    ⟨LoopFlow.stop, node,
      (if node.rpcpassword.data.length < 20 then [Event.MilliSleep 250] else [])
        ++ [Event.reply HTTP_UNAUTHORIZED "" false]⟩
  else
    let fRun := ServiceConnection.fRun req
    let t := ServiceConnection.tryBlock B fRun req.strRequest node
    match t.ret with
    | (.ok (), _) => ⟨if fRun then LoopFlow.next else LoopFlow.stop, t.node, t.trace⟩
    | (.error (.object objError), jreq) =>
      match ErrorReply B objError jreq.id with
      | some written => ⟨LoopFlow.stop, t.node, t.trace ++ written⟩
      | none => ⟨LoopFlow.raised, t.node, t.trace⟩
    | (.error (.exception what), jreq) =>
      match ErrorReply B (JSONRPCError RPC_PARSE_ERROR what) jreq.id with
      | some written => ⟨LoopFlow.stop, t.node, t.trace ++ written⟩
      | none => ⟨LoopFlow.raised, t.node, t.trace⟩

/-- The function `ServiceConnection`, run on the requests that can be read from the
connection, in order; when they are used up `ReadHTTPRequestLine` fails and the loop is
left. -/
def ServiceConnection (B : Build) : List HTTPRequest → Node → Exec LoopFlow
  | [], node => ⟨LoopFlow.stop, node, []⟩
  | req :: rest, node =>
    let b := ServiceConnection.body B req node
    match b.ret with
    | LoopFlow.next =>
      let more := ServiceConnection B rest b.node
      ⟨more.ret, more.node, b.trace ++ more.trace⟩
    | flow => ⟨flow, b.node, b.trace⟩

/-- The replies among the actions of a trace, in the order they were written. -/
def replies : List Event → List (Nat × String × Bool)
  | [] => []
  | Event.reply nStatus strMsg keepalive :: rest => (nStatus, strMsg, keepalive) :: replies rest
  | _ :: rest => replies rest

/-- The handler invocations among the actions of a trace, in order. -/
def calls : List Event → List (String × Array × Bool)
  | [] => []
  | Event.call name params fHelp :: rest => (name, params, fHelp) :: calls rest
  | _ :: rest => calls rest

/-! ## Two handlers (`getblockcount` of `rpcblockchain.cpp`, `stop`) and an example build -/

/-- The handler `getblockcount`. -/
def getblockcount : rpcfn_type := fun params fHelp node =>
  if fHelp || params.length ≠ 0 then
    (.error (.exception
      "getblockcount\nReturns the number of blocks in the longest block chain."), node)
  else
    (.ok (Value.int node.nBestHeight), node)

/-- The handler `stop`. -/
def stop : rpcfn_type := fun params fHelp node =>
  -- Accept the deprecated and ignored 'detach' boolean argument
  if fHelp || params.length > 1 then
    (.error (.exception "stop\nStop Honey server."), node)
  else
    -- Shutdown will take long enough that the response should get back
    (.ok (Value.str "Honey server stopping"), { node with fRequestShutdown := true })

/-- Handlers for worked examples: `getblockcount` and `stop` are the ones above; `ping`
stands for a handler of another translation unit that has no result to report and
returns `Value::null`; every other symbol is a handler that only throws. -/
def exampleActor (symbol : String) : rpcfn_type :=
  if symbol = "getblockcount" then getblockcount
  else if symbol = "stop" then stop
  else if symbol = "ping" then fun _ _ node => (.ok Value.null, node)
  else fun _ _ node => (.error (.exception "not available"), node)

/-- The request object with the members `method`, `params` (empty) and `id` 1. -/
def exampleRequest (method : String) : Value :=
  Value.obj [("method", Value.str method), ("params", Value.array []), ("id", Value.int 1)]

/-- The JSON text of `exampleRequest method`. -/
def exampleText (method : String) : String :=
  "\x7b\"method\":\"" ++ method ++ "\",\"params\":[],\"id\":1\x7d"

/-- A wallet-enabled build for worked examples. Its JSON reader knows the texts of three
single requests, of one batch and of the number 5, and rejects every other text; its
writer produces a fixed text, and its base64 decoder knows the encoding of `user:pass`. -/
def exampleBuild : Build :=
  { ENABLE_WALLET := true
    actor := exampleActor
    read_string := fun s =>
      if s = exampleText "getblockcount" then some (exampleRequest "getblockcount")
      else if s = exampleText "ping" then some (exampleRequest "ping")
      else if s = exampleText "nosuchmethod" then some (exampleRequest "nosuchmethod")
      else if s = "[" ++ exampleText "nosuchmethod" ++ "]" then
        some (Value.array [exampleRequest "nosuchmethod"])
      else if s = "5" then some (Value.int 5)
      else none
    write_string := fun _ _ => "json"
    DecodeBase64 := fun s => if s = "dXNlcjpwYXNz" then "user:pass" else "" }

/-- An authenticated `POST /` with the given body, for a node whose credential is
`user:pass`. -/
def exampleHTTPRequest (strRequest : String) : HTTPRequest :=
  { strMethod := "POST"
    strURI := "/"
    mapHeaders := [("authorization", "Basic dXNlcjpwYXNz")]
    strRequest := strRequest }

/-- A node without wallet whose credential is `user:pass` and whose best height is 7. -/
def exampleNode : Node :=
  { strRPCUserColonPass := "user:pass", rpcpassword := "pass", nBestHeight := 7 }

/-- The node `exampleNode` with an active warning; `fDisableSafeMode` tells whether the
node was started with `-disablesafemode`. -/
def exampleNodeWarning (fDisableSafeMode : Bool) : Node :=
  { exampleNode with strWarnings := "checkpoint is too old",
                     fDisableSafeMode := fDisableSafeMode }

/-- An authenticated request to the path "/": one that passes the three checks at the
head of the loop body of `ServiceConnection` (the URI, the presence of an
`Authorization` header, `HTTPAuthorized`). -/
def ServiceConnection.authenticated (B : Build) (req : HTTPRequest) (node : Node) : Bool :=
  req.strURI = "/" && (map_find req.mapHeaders "authorization").isSome
    && HTTPAuthorized B req.mapHeaders node

/-! ## Peer addresses and the accept handler -/

/-- The class `boost::asio::ip::address_v4`: the four bytes of the address in network
order. -/
structure address_v4 where
  b0 : Nat
  b1 : Nat
  b2 : Nat
  b3 : Nat
  deriving DecidableEq, Repr

/-- The class `boost::asio::ip::address_v6`: the sixteen bytes of the address in network
order and the scope id. -/
structure address_v6 where
  bytes : List Nat
  scope_id : Nat
  deriving DecidableEq, Repr

/-- The class `boost::asio::ip::address`, an IPv4 or an IPv6 address; its `operator==`
compares the version and then the addresses, which is the derived equality. -/
inductive address where
  | v4 (a : address_v4)
  | v6 (a : address_v6)
  deriving DecidableEq, Repr

/-- Every byte of the address is below 256, and an IPv6 address has sixteen of them. -/
def address.wellFormed : address → Bool
  | .v4 a => decide (a.b0 < 256) && decide (a.b1 < 256) && decide (a.b2 < 256)
      && decide (a.b3 < 256)
  | .v6 a => decide (a.bytes.length = 16) && a.bytes.all (fun b => decide (b < 256))

/-- The member function `address_v4::to_ulong()`: the address in host byte order. -/
def address_v4.to_ulong (a : address_v4) : Nat :=
  ((a.b0 * 256 + a.b1) * 256 + a.b2) * 256 + a.b3

/-- The constant `address_v4::loopback()`, 127.0.0.1. -/
def address_v4.loopback : address_v4 := { b0 := 127, b1 := 0, b2 := 0, b3 := 1 }

/-- The constant `address_v6::loopback()`, ::1. -/
def address_v6.loopback : address_v6 :=
  { bytes := [0, 0, 0, 0, 0, 0, 0, 0, 0, 0, 0, 0, 0, 0, 0, 1], scope_id := 0 }

/-- The member function `address_v6::is_v4_mapped()`: the address is ::ffff:a.b.c.d. -/
def address_v6.is_v4_mapped (a : address_v6) : Bool :=
  (a.bytes.take 10).all (fun b => b = 0) && a.bytes.getD 10 0 = 0xff && a.bytes.getD 11 0 = 0xff

/-- The member function `address_v6::is_v4_compatible()`: the address is ::a.b.c.d, but
neither :: nor ::1. -/
def address_v6.is_v4_compatible (a : address_v6) : Bool :=
  (a.bytes.take 12).all (fun b => b = 0)
    && !(a.bytes.getD 12 0 = 0 && a.bytes.getD 13 0 = 0 && a.bytes.getD 14 0 = 0
      && (a.bytes.getD 15 0 = 0 || a.bytes.getD 15 0 = 1))

/-- The member function `address_v6::to_v4()` for an address that is IPv4-mapped or
IPv4-compatible: its last four bytes. -/
def address_v6.to_v4 (a : address_v6) : address_v4 :=
  { b0 := a.bytes.getD 12 0, b1 := a.bytes.getD 13 0, b2 := a.bytes.getD 14 0,
    b3 := a.bytes.getD 15 0 }

/-- The part of `ClientAllowed` that follows the normalisation of the address: the
loopback tests and the search through the `-rpcallowip` patterns. `WildcardMatch` is
the function of `util.cpp`, `to_string` the member function `address::to_string()`. -/
def ClientAllowed.check (WildcardMatch : String → String → Bool)
    (to_string : address → String) (node : Node) (addr : address) : Bool :=
  if addr = address.v4 address_v4.loopback
      || addr = address.v6 address_v6.loopback
      || (match addr with
          -- Check whether IPv4 addresses match 127.0.0.0/8 (loopback subnet)
          | .v4 a => a.to_ulong &&& 0xff000000 = 0x7f000000
          | .v6 _ => false) then
    true
  else
    let strAddress := to_string addr
    node.rpcallowip.any (fun strAllow => WildcardMatch strAddress strAllow)

/-- The function `ClientAllowed`. -/
def ClientAllowed (WildcardMatch : String → String → Bool) (to_string : address → String)
    (node : Node) (addr : address) : Bool :=
  match addr with
  | .v6 a =>
    -- Make sure that IPv4-compatible and IPv4-mapped IPv6 addresses are treated as IPv4
    if a.is_v4_compatible || a.is_v4_mapped then
      ClientAllowed WildcardMatch to_string node (.v4 a.to_v4)
    else ClientAllowed.check WildcardMatch to_string node (.v6 a)
  | .v4 a => ClientAllowed.check WildcardMatch to_string node (.v4 a)
termination_by (match addr with | .v6 _ => 1 | .v4 _ => 0)

/-- The class `boost::system::error_code` as far as `RPCAcceptHandler` tests it. -/
inductive error_code where
  | success
  | operation_aborted
  | other
  deriving DecidableEq, Repr

/-- The function `RPCAcceptHandler`, for a connection on which the requests `incoming`
can be read. `is_open` is `acceptor->is_open()`; `tcp_conn` is the peer address of the
connection when the `dynamic_cast` to the TCP connection type succeeds, and `none` when
it yields the null pointer. The result is `LoopFlow.raised` when an exception left
`ServiceConnection`, and `LoopFlow.stop` when the handler returned. -/
def RPCAcceptHandler (B : Build) (WildcardMatch : String → String → Bool)
    (to_string : address → String) (is_open : Bool) (fUseSSL : Bool)
    (tcp_conn : Option address) (incoming : List HTTPRequest) (error : error_code)
    (node : Node) : Exec LoopFlow :=
  -- Immediately start accepting new connections, except when we're cancelled or our
  -- socket is closed.
  let listen : List Event :=
    if error ≠ error_code.operation_aborted && is_open then [Event.RPCListen] else []
  if error ≠ error_code.success then
    ⟨LoopFlow.stop, node, listen ++ [Event.delete_conn]⟩
  -- Restrict callers by IP.
  else if (match tcp_conn with
      | some peer => !ClientAllowed WildcardMatch to_string node peer
      | none => false) then
    -- Only send a 403 if we're not using SSL to prevent a DoS during the SSL handshake.
    ⟨LoopFlow.stop, node,
      listen ++ (if !fUseSSL then [Event.reply HTTP_FORBIDDEN "" false] else [])
        ++ [Event.delete_conn]⟩
  else
    let s := ServiceConnection B incoming node
    match s.ret with
    | LoopFlow.raised => ⟨LoopFlow.raised, s.node, listen ++ s.trace⟩
    | _ => ⟨LoopFlow.stop, s.node, listen ++ s.trace ++ [Event.close, Event.delete_conn]⟩

/-- The address 127.0.0.1 as IPv4-mapped IPv6 address, ::ffff:127.0.0.1. -/
def exampleMappedLoopback : address :=
  address.v6 { bytes := [0, 0, 0, 0, 0, 0, 0, 0, 0, 0, 0xff, 0xff, 127, 0, 0, 1], scope_id := 0 }

/-- The address 192.168.1.7, which is not a loopback address. -/
def examplePeer : address := address.v4 { b0 := 192, b1 := 168, b2 := 1, b3 := 7 }

/-- A stand-in for `address::to_string()` that knows the text of `examplePeer`. -/
def exampleToString (addr : address) : String :=
  if addr = examplePeer then "192.168.1.7" else "other"

/-- A stand-in for `WildcardMatch` that knows one pattern, `192.168.1.*`, and the one
address text it is tried on in the examples. -/
def exampleWildcardMatch (str mask : String) : Bool :=
  str = mask || (mask = "192.168.1.*" && str = "192.168.1.7")

/-! ## Help -/

/-- The comparison `operator<` of `std::string`: lexicographic on the characters. -/
def string_less.go : List Char → List Char → Bool
  | [], [] => false
  | [], _ :: _ => true
  | _ :: _, [] => false
  | a :: as, b :: bs =>
    if a.toNat < b.toNat then true
    else if b.toNat < a.toNat then false
    else string_less.go as bs

/-- The comparison `operator<` of `std::string`. -/
def string_less (a b : String) : Bool := string_less.go a.data b.data

/-- The bindings of a `std::map<std::string, T>` in the order an iterator visits them:
ascending keys. -/
def map_iterate {α : Type} (m : List (String × α)) : List (String × α) :=
  m.insertionSort (fun x y => string_less y.1 x.1 = false)

/-- The test `s.find(needle) != std::string::npos`. -/
def string_contains (s needle : String) : Bool :=
  s.data.tails.any (fun t => needle.data.isPrefixOf t)

/-- The loop of `CRPCTable::help` over the commands that the iterator has yet to visit:
`strRet` is the text collected so far, `setDone` the handlers called so far. The outcome
is the text after the loop, or the exception that left the loop: the `catch` clause
takes `std::exception` only. -/
def CRPCTable.help.loop (B : Build) (strCommand : String) :
    List (String × CRPCCommand) → String → List String → Node → Exec (Except Thrown String)
  | [], strRet, _, node => ⟨.ok strRet, node, []⟩
  | (strMethod, pcmd) :: rest, strRet, setDone, node =>
    -- We already filter duplicates, but these deprecated screw up the sort order
    if string_contains strMethod "label" then
      CRPCTable.help.loop B strCommand rest strRet setDone node
    else if strCommand ≠ "" && strMethod ≠ strCommand then
      CRPCTable.help.loop B strCommand rest strRet setDone node
    else if B.ENABLE_WALLET && pcmd.reqWallet && !node.pwalletMain then
      CRPCTable.help.loop B strCommand rest strRet setDone node
    else if setDone.contains pcmd.symbol then
      CRPCTable.help.loop B strCommand rest strRet setDone node
    else
      let r := pcmd.actor [] true node
      match r.1 with
      | .ok _ =>
        let more := CRPCTable.help.loop B strCommand rest strRet (pcmd.symbol :: setDone) r.2
        ⟨more.ret, more.node, Event.call pcmd.name [] true :: more.trace⟩
      | .error (.exception what) =>
        -- Help text is returned in an exception
        let strHelp :=
          if strCommand = "" then String.mk (what.data.takeWhile (fun c => c ≠ '\n'))
          else what
        let more := CRPCTable.help.loop B strCommand rest (strRet ++ strHelp ++ "\n")
          (pcmd.symbol :: setDone) r.2
        ⟨more.ret, more.node, Event.call pcmd.name [] true :: more.trace⟩
      | .error (.object objError) =>
        ⟨.error (.object objError), r.2, [Event.call pcmd.name [] true]⟩

/-- The member function `CRPCTable::help`. -/
def CRPCTable.help (B : Build) (strCommand : String) (node : Node) :
    Exec (Except Thrown String) :=
  let l := CRPCTable.help.loop B strCommand (map_iterate (tableRPC B).mapCommands) "" [] node
  match l.ret with
  | .ok strRet =>
    let strRet := if strRet = "" then "help: unknown command: " ++ strCommand ++ "\n" else strRet
    ⟨.ok (substr strRet 0 (strRet.data.length - 1)), l.node, l.trace⟩
  | .error t => ⟨.error t, l.node, l.trace⟩

/-! ## Locks -/

/-- The critical sections the running thread holds after the actions of a trace, given
the ones it held before, innermost first: `lock` enters one, `unlock` leaves it. -/
def locks_held : List Event → List String → List String
  | [], held => held
  | Event.lock cs :: rest, held => locks_held rest (cs :: held)
  | Event.unlock cs :: rest, held => locks_held rest (held.erase cs)
  | _ :: rest, held => locks_held rest held

/-- The critical sections the running thread holds at each handler invocation of a
trace, in the order of the invocations, given the ones it held before the trace. -/
def locks_at_calls : List Event → List String → List (List String)
  | [], _ => []
  | Event.lock cs :: rest, held => locks_at_calls rest (cs :: held)
  | Event.unlock cs :: rest, held => locks_at_calls rest (held.erase cs)
  | Event.call _ _ _ :: rest, held => held :: locks_at_calls rest held
  | _ :: rest, held => locks_at_calls rest held

/-! ## Parameter checking helpers -/

/-- The function `RPCTypeCheck` for a parameter array. The list of expected types is
walked along the parameters: the walk ends when either runs out, and throws at the first
parameter whose type is neither the expected one nor, with `fAllowNull`, null.
`Value_type_name` is the table of type names of the JSON library. -/
def RPCTypeCheck (Value_type_name : Value_type → String) :
    Array → List Value_type → Bool → Except Thrown Unit
  | [], _, _ => .ok ()
  | _ :: _, [], _ => .ok ()
  | v :: params, t :: typesExpected, fAllowNull =>
    if !(v.type = t || (fAllowNull && v.type = Value_type.null_type)) then
      let err := "Expected type " ++ Value_type_name t ++ ", got " ++ Value_type_name v.type
      .error (.object (JSONRPCError RPC_TYPE_ERROR err))
    else RPCTypeCheck Value_type_name params typesExpected fAllowNull

/-- The function `ParseHashV`. `IsHex` is the test of `util.cpp`, `SetHex` the number
that `uint256::SetHex` reads from the text. -/
def ParseHashV (IsHex : String → Bool) (SetHex : String → Nat) (v : Value)
    (strName : String) : Except Thrown Nat :=
  let strHex := match v with
    | Value.str s => s
    | _ => ""
  if !IsHex strHex then -- Note: IsHex("") is false
    .error (.object (JSONRPCError RPC_INVALID_PARAMETER
      (strName ++ " must be hexadecimal std::string (not '" ++ strHex ++ "')")))
  else .ok (SetHex strHex)

/-- The function `ParseHashO`. -/
def ParseHashO (IsHex : String → Bool) (SetHex : String → Nat) (o : Object)
    (strKey : String) : Except Thrown Nat :=
  ParseHashV IsHex SetHex (find_value o strKey) strKey

/-- The function `ParseHexV`. `ParseHex` is the decoder of `util.cpp`, which yields the
bytes. -/
def ParseHexV (IsHex : String → Bool) (ParseHex : String → List Nat) (v : Value)
    (strName : String) : Except Thrown (List Nat) :=
  let strHex := match v with
    | Value.str s => s
    | _ => ""
  if !IsHex strHex then
    .error (.object (JSONRPCError RPC_INVALID_PARAMETER
      (strName ++ " must be hexadecimal std::string (not '" ++ strHex ++ "')")))
  else .ok (ParseHex strHex)

/-- The function `ParseHexO`. -/
def ParseHexO (IsHex : String → Bool) (ParseHex : String → List Nat) (o : Object)
    (strKey : String) : Except Thrown (List Nat) :=
  ParseHexV IsHex ParseHex (find_value o strKey) strKey

/-- Modelled from the spec: `Value::get_real()` of the JSON library reads a number, an
integer included, as a real; for every other value it raises the type-mismatch
exception, which is `none` here. -/
def json_spirit.Value.get_real : Value → Option Rat
  | Value.real r => some r
  | Value.int i => some (i : Rat)
  | _ => none

/-- The inline function `MoneyRange` of `main.h`: `nValue >= 0 && nValue <= MAX_MONEY`,
for the constant `MAX_MONEY` of that header. -/
def MoneyRange (MAX_MONEY : Int) (nValue : Int) : Bool :=
  decide (0 ≤ nValue) && decide (nValue ≤ MAX_MONEY)

/-- The function `AmountFromValue`. `MAX_MONEY` is the constant of `main.h`;
`toSatoshi dAmount` is the result of `roundint64(dAmount * COIN)` in the arithmetic of
`double`; `what` is the description of the exception `get_real` raises. The comparisons
of the amount with 0.0 and with `MAX_MONEY` are made on the number the value denotes. -/
def AmountFromValue (MAX_MONEY : Int) (toSatoshi : Rat → Int) (what : String)
    (value : Value) : Except Thrown Int :=
  match value.get_real with
  | none => .error (.exception what)
  | some dAmount =>
    if dAmount ≤ 0 ∨ dAmount > (MAX_MONEY : Rat) then
      .error (.object (JSONRPCError RPC_TYPE_ERROR "Invalid amount"))
    else
      let nAmount := toSatoshi dAmount
      if !MoneyRange MAX_MONEY nAmount then
        .error (.object (JSONRPCError RPC_TYPE_ERROR "Invalid amount"))
      else .ok nAmount

/-- A stand-in for the table `Value_type_name` of the JSON library. -/
def exampleTypeName : Value_type → String
  | .obj_type => "obj"
  | .array_type => "array"
  | .str_type => "str"
  | .bool_type => "bool"
  | .int_type => "int"
  | .real_type => "real"
  | .null_type => "null"

/-- A stand-in for `IsHex`: a non-empty text of an even number of characters, all of them
hexadecimal digits. -/
def exampleIsHex (s : String) : Bool :=
  s.data.all (fun c => c.isDigit || ('a' ≤ c && c ≤ 'f') || ('A' ≤ c && c ≤ 'F'))
    && decide (0 < s.data.length) && decide (s.data.length % 2 = 0)

/-- A stand-in for `roundint64(dAmount * COIN)` with `COIN` 100000000: rounding to the
nearest integer, halves away from zero. -/
def exampleToSatoshi (dAmount : Rat) : Int :=
  let d := dAmount * 100000000
  if 0 < d then Int.floor (d + 1 / 2) else Int.ceil (d - 1 / 2)

/-! ## The handlers of `rpcserver.cpp` and `rpcblockchain.cpp` -/

/-- The handler `help`. `what` is the description of the exception that `get_str`
raises when the parameter is no string. The handler invocations that `CRPCTable::help`
makes are part of this handler's run and do not show in the trace of the dispatcher. -/
def help (B : Build) (what : String) : rpcfn_type := fun params fHelp node =>
  if fHelp || params.length > 1 then
    (.error (.exception "help [command]\nList commands, or get help for a command."), node)
  else
    match params with
    | Value.str strCommand :: _ =>
      let h := CRPCTable.help B strCommand node
      match h.ret with
      | .ok strRet => (.ok (Value.str strRet), h.node)
      | .error t => (.error t, h.node)
    | _ :: _ => (.error (.exception what), node)
    | [] =>
      let h := CRPCTable.help B "" node
      match h.ret with
      | .ok strRet => (.ok (Value.str strRet), h.node)
      | .error t => (.error t, h.node)

/-- The handler `getbestblockhash`. -/
def getbestblockhash : rpcfn_type := fun params fHelp node =>
  if fHelp || params.length ≠ 0 then
    (.error (.exception
      "getbestblockhash\nReturns the hash of the best block in the longest block chain."),
      node)
  else
    (.ok (Value.str node.hashBestChain), node)

/-- The handler `getdifficulty`; `body` is what it does past the check of its
arguments, which depends on the block index. -/
def getdifficulty (body : Array → Node → Except Thrown Value × Node) : rpcfn_type :=
  fun params fHelp node =>
  if fHelp || params.length ≠ 0 then
    (.error (.exception
      "getdifficulty\nReturns the difficulty as a multiple of the minimum difficulty."),
      node)
  else body params node

/-- The handler `getrawmempool`; `body` is what it does past the check of its
arguments, which depends on the memory pool. -/
def getrawmempool (body : Array → Node → Except Thrown Value × Node) : rpcfn_type :=
  fun params fHelp node =>
  if fHelp || params.length ≠ 0 then
    (.error (.exception "getrawmempool\nReturns all transaction ids in memory pool."), node)
  else body params node

/-- The handler `getblockhash`; `body` is what it does past the check of its
arguments. -/
def getblockhash (body : Array → Node → Except Thrown Value × Node) : rpcfn_type :=
  fun params fHelp node =>
  if fHelp || params.length ≠ 1 then
    (.error (.exception
      "getblockhash <index>\nReturns hash of block in best-block-chain at <index>."), node)
  else body params node

/-- The handler `getblock`; `body` is what it does past the check of its arguments. -/
def getblock (body : Array → Node → Except Thrown Value × Node) : rpcfn_type :=
  fun params fHelp node =>
  if fHelp || params.length < 1 || params.length > 2 then
    (.error (.exception
      ("getblock <hash> [txinfo]\n"
        ++ "txinfo optional to print more detailed tx info\n"
        ++ "Returns details of a block with given block-hash.")), node)
  else body params node

/-- The handler `getblockbynumber`; `body` is what it does past the check of its
arguments. -/
def getblockbynumber (body : Array → Node → Except Thrown Value × Node) : rpcfn_type :=
  fun params fHelp node =>
  if fHelp || params.length < 1 || params.length > 2 then
    (.error (.exception
      ("getblockbynumber <number> [txinfo]\n"
        ++ "txinfo optional to print more detailed tx info\n"
        ++ "Returns details of a block with given block-number.")), node)
  else body params node

/-- The handler `getcheckpoint`; `body` is what it does past the check of its
arguments, which depends on the checkpoints. -/
def getcheckpoint (body : Array → Node → Except Thrown Value × Node) : rpcfn_type :=
  fun params fHelp node =>
  if fHelp || params.length ≠ 0 then
    (.error (.exception "getcheckpoint\nShow info of synchronized checkpoint.\n"), node)
  else body params node

/-! ## Scheduled tasks and the life cycle of the server -/

/-- The function `RPCRunHandler`, with `err` telling whether the error code of the wait
is set: the actions it performs. -/
def RPCRunHandler (err : Bool) (func : Nat) : List Event :=
  if !err then [Event.func func] else []

/-- The function `RPCRunLater`. It is `none` when the assertion
`rpc_io_service != nullptr` fails. Setting the expiry of a timer with `expires_from_now`
cancels its pending wait, whose handler `RPCRunHandler` is then invoked with the error
`operation_aborted`; `async_wait` starts the new wait. -/
def RPCRunLater (name : String) (func : Nat) (nSeconds : Int) (node : Node) :
    Option (Exec Unit) :=
  if !node.rpc_io_service then none
  else
    let timers :=
      if (map_find node.deadlineTimers name).isNone then
        map_assign node.deadlineTimers name { wait := none }
      else node.deadlineTimers
    let cancelled :=
      match map_find timers name with
      | some { wait := some (_, superseded) } => RPCRunHandler true superseded
      | _ => []
    let timers := map_assign timers name { wait := some (nSeconds, func) }
    some ⟨(), { node with deadlineTimers := timers }, cancelled⟩

/-- A sequence of calls of `RPCRunLater`, each given by name, callback and delay. -/
def RPCRunLater.sequence : List (String × Nat × Int) → Node → Option (Exec Unit)
  | [], node => some ⟨(), node, []⟩
  | (name, func, nSeconds) :: rest, node =>
    match RPCRunLater name func nSeconds node with
    | none => none
    | some first =>
      match RPCRunLater.sequence rest first.node with
      | none => none
      | some more => some ⟨(), more.node, first.trace ++ more.trace⟩

/-- The expiry of the timer registered under `name`: when it has a pending wait, the
reactor invokes the handler bound to it, `RPCRunHandler`, without error, and the wait is
over. -/
def deadline_timer.expire (name : String) (node : Node) : Exec Unit :=
  match map_find node.deadlineTimers name with
  | some { wait := some (_, func) } =>
    ⟨(), { node with deadlineTimers := map_assign node.deadlineTimers name { wait := none } },
      RPCRunHandler false func⟩
  | _ => ⟨(), node, []⟩

/-- The function `StopRPCThreads`. The timers that `deadlineTimers.clear()` destroys have
their waits cancelled; `RPCRunHandler` does nothing for a cancelled wait. -/
def StopRPCThreads (node : Node) : Exec Unit :=
  if !node.rpc_io_service then ⟨(), node, []⟩
  else
    ⟨(), { node with deadlineTimers := [], rpc_worker_group := none,
                     rpc_ssl_context := false, rpc_io_service := false },
      [Event.DeleteAuthCookie, Event.io_service_stop]
        ++ (if node.rpc_worker_group.isSome then [Event.join_all] else [])⟩

/-- What the environment answers to `StartRPCThreads`. -/
structure StartRPCThreads.Env where
  /-- The credential `GenerateAuthCookie` stores, `none` when it returns false. -/
  GenerateAuthCookie : Option String
  /-- The configuration entry `mapArgs["-rpcuser"]`. -/
  rpcuser : String
  /-- Whether `mapArgs.count("-rpcallowip")` is zero: the value of `loopback`. -/
  loopback : Bool
  /-- Whether the first `try` block (open, set options, bind and listen on the IPv6
  endpoint, `RPCListen`) runs to its end without `system_error`. -/
  bind6 : Bool
  /-- Whether setting the option `v6_only` stored an error in `v6_only_error`. -/
  v6_only_error : Bool
  /-- Whether the body of the second `try` block (the same on the IPv4 endpoint) runs to
  its end without `system_error`, when it is entered. -/
  bind4 : Bool
  /-- The value of `GetArg("-rpcthreads", 4)`. -/
  rpcthreads : Int
  /-- The value of `GetBoolArg("-rpcssl", false)`. -/
  fUseSSL : Bool := false
  /-- The call `rpc_ssl_context->set_options(..)`: the description of the `system_error` it
  throws, or its return. -/
  set_options : Except String Unit := .ok ()
  /-- The computation of `pathCertFile` and the call `fs::exists(pathCertFile)`: the
  description of the exception thrown, or the value of `fs::exists`. -/
  pathCertFile_exists : Except String Bool := .ok false
  /-- The call `rpc_ssl_context->use_certificate_chain_file(..)`: the description of the
  `system_error` it throws, or its return. -/
  use_certificate_chain_file : Except String Unit := .ok ()
  /-- The computation of `pathPKFile` and the call `fs::exists(pathPKFile)`: the
  description of the exception thrown, or the value of `fs::exists`. -/
  pathPKFile_exists : Except String Bool := .ok false
  /-- The call `rpc_ssl_context->use_private_key_file(..)`: the description of the
  `system_error` it throws, or its return. -/
  use_private_key_file : Except String Unit := .ok ()

/-- The set-up of the TLS context in `StartRPCThreads`, the block `if (fUseSSL) { .. }`,
which stands outside the two `try` blocks: `.ok ()` when it runs to its end, and else the
exception that leaves it. A file that does not exist is logged and skipped;
`SSL_CTX_set_cipher_list` is a C function and throws nothing. -/
def StartRPCThreads.ssl (env : StartRPCThreads.Env) : Except Thrown Unit :=
  if env.fUseSSL then
    match env.set_options with
    | .error what => .error (.exception what)
    | .ok () =>
      let certificate : Except Thrown Unit :=
        match env.pathCertFile_exists with
        | .error what => .error (.exception what)
        | .ok false => .ok ()
        | .ok true =>
          match env.use_certificate_chain_file with
          | .error what => .error (.exception what)
          | .ok () => .ok ()
      match certificate with
      | .error thrown => .error thrown
      | .ok () =>
        match env.pathPKFile_exists with
        | .error what => .error (.exception what)
        | .ok false => .ok ()
        | .ok true =>
          match env.use_private_key_file with
          | .error what => .error (.exception what)
          | .ok () => .ok ()
  else .ok ()

/-- The function `StartRPCThreads`. It is `none` when the assertion
`rpc_io_service == nullptr` fails; the outcome is `.ok ()` when the function returns and
the exception when one leaves it. -/
def StartRPCThreads (env : StartRPCThreads.Env) (node : Node) :
    Option (Exec (Except Thrown Unit)) :=
  let credential :=
    if node.rpcpassword = "" then env.GenerateAuthCookie
    else some (env.rpcuser ++ ":" ++ node.rpcpassword)
  match credential with
  | none =>
    some ⟨.ok (), { node with fRequestShutdown := true }, [Event.ThreadSafeMessageBox]⟩
  | some strRPCUserColonPass =>
    if node.rpc_io_service then none
    else
      let node := { node with strRPCUserColonPass := strRPCUserColonPass,
                              rpc_io_service := true, rpc_ssl_context := true }
      match StartRPCThreads.ssl env with
      | .error thrown => some ⟨.error thrown, node, []⟩
      | .ok () =>
        -- Try a dual IPv6/IPv4 socket, falling back to separate IPv4 and IPv6 sockets
        let loopback := env.loopback
        let first := Event.bind true :: (if env.bind6 then [Event.RPCListen] else [])
        let fListening := env.bind6
        -- If dual IPv6/IPv4 failed (or we're opening loopback interfaces only), open IPv4
        -- separately
        let attempt := !fListening || loopback || env.v6_only_error
        let second :=
          if attempt then Event.bind false :: (if env.bind4 then [Event.RPCListen] else [])
          else []
        let fListening := fListening || (attempt && env.bind4)
        if !fListening then
          some ⟨.ok (), { node with fRequestShutdown := true },
            first ++ second ++ [Event.ThreadSafeMessageBox]⟩
        else
          some ⟨.ok (), { node with rpc_worker_group := some env.rpcthreads.toNat },
            first ++ second ++ List.replicate env.rpcthreads.toNat Event.create_thread⟩

/-- A started server with two worker threads and one scheduled task. -/
def exampleStartedNode : Node :=
  { rpc_io_service := true, rpc_ssl_context := true, rpc_worker_group := some 2,
    deadlineTimers := [("lockwallet", ⟨some (60, 0)⟩)] }

/-- A started server with nothing scheduled. -/
def exampleRunningNode : Node :=
  { rpc_io_service := true, rpc_ssl_context := true, rpc_worker_group := some 4 }

/-- Three calls of `RPCRunLater`: the name `lockwallet` is registered with callback 1 and
a delay of 60 seconds, then another name, then `lockwallet` again with callback 3 and a
delay of 10 seconds. -/
def exampleCalls : List (String × Nat × Int) :=
  [("lockwallet", 1, 60), ("keypoolrefill", 2, 5), ("lockwallet", 3, 10)]

/-- A usage text for worked examples: a first line with the command name and a second
line. -/
def exampleUsage (name : String) : String :=
  name ++ " [arguments]\nWhat " ++ name ++ " does."

/-- Handlers for worked examples that throw the usage text of their command; the handler
`movecmd` is the one of the command `move`. -/
def exampleDescribeActor (symbol : String) : rpcfn_type := fun _ _ node =>
  (.error (.exception (exampleUsage (if symbol = "movecmd" then "move" else symbol))), node)

/-- The build `exampleBuild` with the handlers `exampleDescribeActor`. -/
def exampleDescribeBuild : Build :=
  { exampleBuild with actor := exampleDescribeActor }

/-! ## The client: conversion of command-line arguments (`rpcclient.cpp`) -/

/-- The array `vRPCConvertParams`, in source order: the method whose parameters want
conversion and the 0-based index of the parameter to convert. -/
def vRPCConvertParams : List (String × Int) :=
  [ ("stop", 0), ("getaddednodeinfo", 0), ("sendtoaddress", 1), ("settxfee", 0),
    ("getreceivedbyaddress", 1), ("getreceivedbyaccount", 1), ("listreceivedbyaddress", 0),
    ("listreceivedbyaddress", 1), ("listreceivedbyaccount", 0), ("listreceivedbyaccount", 1),
    ("getbalance", 1), ("getblock", 1), ("getblockbynumber", 0), ("getblockbynumber", 1),
    ("getblockhash", 0), ("move", 2), ("move", 3), ("sendfrom", 2), ("sendfrom", 3),
    ("listtransactions", 1), ("listtransactions", 2), ("listaccounts", 0),
    ("walletpassphrase", 1), ("walletpassphrase", 2), ("getblocktemplate", 0),
    ("listsinceblock", 1), ("sendmany", 1), ("sendmany", 2), ("reservebalance", 0),
    ("reservebalance", 1), ("addmultisigaddress", 0), ("addmultisigaddress", 1),
    ("listunspent", 0), ("listunspent", 1), ("listunspent", 2), ("getrawtransaction", 1),
    ("createrawtransaction", 0), ("createrawtransaction", 1), ("signrawtransaction", 1),
    ("signrawtransaction", 2), ("keypoolrefill", 0), ("importprivkey", 2), ("checkkernel", 0),
    ("checkkernel", 1) ]

/-- The class `CRPCConvertTable`, whose only data member is the set `members`, kept as a
list without repetition. -/
structure CRPCConvertTable where
  members : List (String × Int)

/-- The constructor `CRPCConvertTable::CRPCConvertTable()`: every row of
`vRPCConvertParams` is inserted into the set, which takes an element it does not hold
yet. -/
def CRPCConvertTable.new : CRPCConvertTable :=
  { members := vRPCConvertParams.foldl (fun m p => if m.contains p then m else m ++ [p]) [] }

/-- The member function `CRPCConvertTable::convert`. -/
def CRPCConvertTable.convert (self : CRPCConvertTable) (method : String) (idx : Int) : Bool :=
  self.members.count (method, idx) > 0

/-- The global `rpcCvtTable`. -/
def rpcCvtTable : CRPCConvertTable := CRPCConvertTable.new

/-- The conversion of an `unsigned int` to the `int` parameter of `convert`: the value
itself below 2^31, and the value less 2^32 from there on. -/
def int_of_unsigned (idx : Nat) : Int :=
  if idx % 2 ^ 32 < 2 ^ 31 then (idx % 2 ^ 32 : Nat) else (idx % 2 ^ 32 : Nat) - 2 ^ 32

/-- The loop of `RPCConvertValues` from position `idx` on: `rest` holds the strings from
that position, `params` the values pushed so far. `read_string` is the parser of the JSON
library, `none` when it returns `false`. The counter `idx` is an `unsigned int`; the
definition follows the code for vectors of fewer than 2^32 strings, on which the counter
does not wrap. -/
def RPCConvertValues.loop (read_string : String → Option Value) (strMethod : String) :
    Nat → List String → Array → Except Thrown Array
  | _, [], params => .ok params
  | idx, strVal :: rest, params =>
    -- insert string value directly
    if !rpcCvtTable.convert strMethod (int_of_unsigned idx) then
      RPCConvertValues.loop read_string strMethod (idx + 1) rest (params ++ [Value.str strVal])
    -- parse string as JSON, insert bool/number/object/etc. value
    else
      match read_string strVal with
      | none => .error (.exception ("Error parsing JSON:" ++ strVal))
      | some jVal =>
        RPCConvertValues.loop read_string strMethod (idx + 1) rest (params ++ [jVal])

/-- The function `RPCConvertValues`. -/
def RPCConvertValues (read_string : String → Option Value) (strMethod : String)
    (strParams : List String) : Except Thrown Array :=
  RPCConvertValues.loop read_string strMethod 0 strParams []

/-! ## The block index and the handlers that walk it (`rpcblockchain.cpp`) -/

/-- Modelled from the spec: `Value::get_bool()` of the JSON library. It yields the
boolean of a `bool_type` value; on every other value the library raises a type-mismatch
exception, which is `none` here. -/
def json_spirit.Value.get_bool : Value → Option Bool
  | .bool b => some b
  | _ => none

/-- The class `CBlockIndex` as far as the handlers read it. A pointer to a block index is
a number, the null pointer is `none`, and a hash is known by its text `GetHex()`. -/
structure CBlockIndex where
  /-- The hash `*phashBlock`. -/
  phashBlock : String
  pprev : Option Nat
  nHeight : Int
  nBits : Nat := 0
  deriving DecidableEq, Repr

/-- The state of the block chain that the handlers read, and the functions of other
translation units that they call. -/
structure BlockIndex where
  /-- The block index a pointer points to; `none` for a pointer that points to none. -/
  deref : Nat → Option CBlockIndex
  /-- The map `mapBlockIndex`; `none` is the null pointer that `operator[]` yields for a
  hash that has no entry. -/
  mapBlockIndex : String → Option Nat
  /-- The function `FindBlockByHeight` of `main.cpp`. -/
  FindBlockByHeight : Int → Option Nat
  /-- The calls `block.ReadFromDisk(pblockindex, true)` and then
  `blockToJSON(block, pblockindex, fPrintTransactionDetail)`. -/
  blockToJSON : Nat → Bool → Value
  /-- The description of the exception that `get_int` and `get_bool` raise on a value of
  another type. -/
  what : Value → String

/-- How the loop `while (pblockindex->nHeight > nHeight) pblockindex = pblockindex->pprev;`
ends. -/
inductive Walk where
  /-- The loop is left with this value of `pblockindex`. -/
  | found (pblockindex : Nat)
  /-- A pointer that is null, or points to no block index, is dereferenced. -/
  | null
  /-- The loop has not ended within the number of tests of its condition that was
  allowed. -/
  | running
  deriving DecidableEq, Repr

/-- The loop `while (pblockindex->nHeight > nHeight) pblockindex = pblockindex->pprev;` of
`getblockbynumber`, with a bound on the number of times its condition may be tested. -/
def getblockbynumber.walk (deref : Nat → Option CBlockIndex) (nHeight : Int) :
    Nat → Option Nat → Walk
  | _, none => Walk.null
  | 0, some _ => Walk.running
  | fuel + 1, some pblockindex =>
    match deref pblockindex with
    | none => Walk.null
    | some index =>
      if index.nHeight > nHeight then getblockbynumber.walk deref nHeight fuel index.pprev
      else Walk.found pblockindex

/-- The handler `getblockbynumber` past the check of its arguments, for a parameter array
that passed it; `fuel` bounds the loop. It is `none` when the loop does not end within
the bound or a pointer that is null, or points to no block index, is dereferenced. -/
def getblockbynumber.body (E : BlockIndex) (fuel : Nat) (params : Array) (node : Node) :
    Option (Except Thrown Value × Node) :=
  match params with
  | [] => none
  | number :: txinfo =>
    match number.get_int with
    | none => some (.error (.exception (E.what number)), node)
    | some nHeight =>
      if nHeight < 0 || nHeight > node.nBestHeight then
        some (.error (.exception "Block number out of range."), node)
      else
        match getblockbynumber.walk E.deref nHeight fuel (E.mapBlockIndex node.hashBestChain) with
        | Walk.found pblockindex =>
          match E.deref pblockindex with
          | none => none
          | some index =>
            let hash := index.phashBlock
            match E.mapBlockIndex hash with
            | none => none
            | some pblockindex =>
              match txinfo with
              | [] => some (.ok (E.blockToJSON pblockindex false), node)
              | flag :: _ =>
                match flag.get_bool with
                | none => some (.error (.exception (E.what flag)), node)
                | some fPrintTransactionDetail =>
                  some (.ok (E.blockToJSON pblockindex fPrintTransactionDetail), node)
        | _ => none

/-- The handler `getblockhash` past the check of its arguments, for a parameter array
that passed it. It is `none` when the pointer that `FindBlockByHeight` returns is null or
points to no block index. -/
def getblockhash.body (E : BlockIndex) (params : Array) (node : Node) :
    Option (Except Thrown Value × Node) :=
  match params with
  | [] => none
  | index :: _ =>
    match index.get_int with
    | none => some (.error (.exception (E.what index)), node)
    | some nHeight =>
      if nHeight < 0 || nHeight > node.nBestHeight then
        some (.error (.exception "Block number out of range."), node)
      else
        match E.FindBlockByHeight nHeight with
        | none => none
        | some pblockindex =>
          match E.deref pblockindex with
          | none => none
          | some index => some (.ok (Value.str index.phashBlock), node)

/-- Modelled from the spec: a best chain whose block indexes are linked through `pprev`
with heights decreasing by exactly one, from `height` at the block index `pblockindex`
down to 0 at the genesis block. -/
def chain_linked (deref : Nat → Option CBlockIndex) : Nat → Nat → Bool
  | 0, pblockindex =>
    match deref pblockindex with
    | none => false
    | some index => index.nHeight == 0
  | height + 1, pblockindex =>
    match deref pblockindex with
    | none => false
    | some index =>
      index.nHeight == (height + 1 : Nat)
        && (match index.pprev with
            | none => false
            | some pprev => chain_linked deref height pprev)

/-- A chain of four block indexes at the addresses 100 to 103, with the heights 0 to 3,
for worked examples. -/
def exampleBlockIndex : BlockIndex :=
  { deref := fun p =>
      if p = 100 then some { phashBlock := "00aa", pprev := none, nHeight := 0 }
      else if p = 101 then some { phashBlock := "00bb", pprev := some 100, nHeight := 1 }
      else if p = 102 then some { phashBlock := "00cc", pprev := some 101, nHeight := 2 }
      else if p = 103 then some { phashBlock := "00dd", pprev := some 102, nHeight := 3 }
      else none
    mapBlockIndex := fun hash =>
      if hash = "00aa" then some 100 else if hash = "00bb" then some 101
      else if hash = "00cc" then some 102 else if hash = "00dd" then some 103 else none
    FindBlockByHeight := fun nHeight =>
      if nHeight = 0 then some 100 else if nHeight = 1 then some 101
      else if nHeight = 2 then some 102 else if nHeight = 3 then some 103 else none
    blockToJSON := fun pblockindex _ => Value.int pblockindex
    what := fun _ => "value type mismatch" }

/-- A node whose best block is the top of `exampleBlockIndex`. -/
def exampleChainNode : Node :=
  { nBestHeight := 3, hashBestChain := "00dd" }

/-! ## Numbers of type `double` -/

/-- The values of type `double` that `GetDifficulty` computes with: the finite ones that
are not negative, each known by the rational number it stands for, positive infinity, and
not-a-number. -/
inductive double where
  | finite (value : Rat)
  | infinity
  | nan
  deriving DecidableEq, Repr

/-- The integer nearest to a rational number; of two that are equally near, the even
one. -/
def round_half_even (x : Rat) : Int :=
  let f := ⌊x⌋
  if x - f < 1 / 2 then f
  else if 1 / 2 < x - f then f + 1
  else if f % 2 = 0 then f else f + 1

/-- The `double` that an arithmetic operation of IEEE 754 binary64 delivers, in the
default rounding mode (to nearest, ties to even), when its exact result is the rational
`x`, which is not negative. A number from 2^e up to 2^(e+1) is rounded to a multiple of
2^(e-52), where e is not taken below -1022 (below 2^-1022 the numbers are subnormal,
multiples of 2^-1074); what rounds to 2^1024 overflows to infinity. -/
def double.round (x : Rat) : double :=
  if x = 0 then double.finite 0
  else
    let e := max (Int.log 2 x) (-1022)
    let ulp : Rat := 2 ^ (e - 52)
    let y := round_half_even (x / ulp) * ulp
    if (2 : Rat) ^ (1024 : Int) ≤ y then double.infinity else double.finite y

/-- The product `a * b` of two values of type `double` that are not negative. -/
def double.mul : double → double → double
  | .finite x, .finite y => double.round (x * y)
  | .finite x, .infinity => if x = 0 then double.nan else double.infinity
  | .infinity, .finite y => if y = 0 then double.nan else double.infinity
  | .infinity, .infinity => double.infinity
  | _, _ => double.nan

/-- The quotient `a / b` of two values of type `double` that are not negative. -/
def double.div : double → double → double
  | .finite x, .finite y =>
    if y = 0 then (if x = 0 then double.nan else double.infinity) else double.round (x / y)
  | .finite _, .infinity => double.finite 0
  | .infinity, .finite _ => double.infinity
  | _, _ => double.nan

/-! ## Difficulty (`GetDifficulty` of `rpcblockchain.cpp`) -/

/-- The loop `while (nShift < 29) { dDiff *= 256.0; nShift++; }` of `GetDifficulty`: the
values of `dDiff` and `nShift` after it, and the number of times its body ran. -/
def GetDifficulty.raise (dDiff : double) (nShift : Int) : double × Int × Nat :=
  if nShift < 29 then
    let r := GetDifficulty.raise (double.mul dDiff (double.finite 256)) (nShift + 1)
    (r.1, r.2.1, r.2.2 + 1)
  else (dDiff, nShift, 0)
termination_by (29 - nShift).toNat
decreasing_by omega

/-- The loop `while (nShift > 29) { dDiff /= 256.0; nShift--; }` of `GetDifficulty`: the
values of `dDiff` and `nShift` after it, and the number of times its body ran. -/
def GetDifficulty.lower (dDiff : double) (nShift : Int) : double × Int × Nat :=
  if nShift > 29 then
    let r := GetDifficulty.lower (double.div dDiff (double.finite 256)) (nShift - 1)
    (r.1, r.2.1, r.2.2 + 1)
  else (dDiff, nShift, 0)
termination_by (nShift - 29).toNat
decreasing_by omega

/-- The function `GetDifficulty` from the point where `blockindex` is not null, for the
block index it points to. The two conversions `(double)0x0000ffff` and
`(double)(blockindex->nBits & 0x00ffffff)` are of integers below 2^24 and exact. -/
def GetDifficulty.of (blockindex : CBlockIndex) : double :=
  let nShift : Int := (((blockindex.nBits >>> 24) &&& 0xff : Nat) : Int)
  let dDiff : double :=
    double.div (double.finite (0x0000ffff : Nat))
      (double.finite ((blockindex.nBits &&& 0x00ffffff : Nat) : Rat))
  let raised := GetDifficulty.raise dDiff nShift
  let lowered := GetDifficulty.lower raised.1 raised.2.1
  lowered.1

/-- The function `GetDifficulty`. `pindexBest` is the global of that name and
`GetLastBlockIndex` the function of `main.cpp`. It is `none` when a pointer that is null,
or points to no block index, is dereferenced. Floating point number that is a multiple of
the minimum difficulty, minimum difficulty = 1.0. -/
def GetDifficulty (E : BlockIndex) (pindexBest : Option Nat)
    (GetLastBlockIndex : Nat → Bool → Option Nat) (blockindex : Option Nat) : Option double :=
  match blockindex with
  | none =>
    match pindexBest with
    | none => some (double.finite 1)
    | some best =>
      match GetLastBlockIndex best false with
      | none => none
      | some last => (E.deref last).map GetDifficulty.of
  | some given => (E.deref given).map GetDifficulty.of

/-- A block index at address 7 whose compact target is `0x1c00ffff`, for worked
examples. -/
def exampleTargetIndex : BlockIndex :=
  { exampleBlockIndex with
    deref := fun p =>
      if p = 7 then
        some { phashBlock := "00ee", pprev := none, nHeight := 0, nBits := 0x1c00ffff }
      else none }

/-- A block index at address 7 whose compact target is `0x1b0404cb`, for worked
examples. -/
def exampleRoundedIndex : BlockIndex :=
  { exampleBlockIndex with
    deref := fun p =>
      if p = 7 then
        some { phashBlock := "00ff", pprev := none, nHeight := 0, nBits := 0x1b0404cb }
      else none }

/-! ## The client: credentials (`CallRPC` of `rpcclient.cpp`) -/

/-- The part of `CallRPC` that finds the credentials to use: the value of
`strRPCUserColonPass`, from the client's `mapArgs["-rpcuser"]` and
`mapArgs["-rpcpassword"]`. `GetAuthCookie` is the credential the function of that name
stores, `none` when it returns false, and `what` the text of the exception thrown
then. -/
def CallRPC.strRPCUserColonPass (rpcuser rpcpassword : String) (GetAuthCookie : Option String)
    (what : String) : Except Thrown String :=
  if rpcpassword = "" then
    -- Try fall back to cookie-based authentication if no password is provided
    match GetAuthCookie with
    | none => .error (.exception what)
    | some cookie => .ok cookie
  else .ok (rpcuser ++ ":" ++ rpcpassword)

/-- The part of `CallRPC` for HTTP basic authentication: the map `mapRequestHeaders`.
`EncodeBase64` is the encoder of `util.cpp`. -/
def CallRPC.mapRequestHeaders (EncodeBase64 : String → String) (strRPCUserColonPass : String) :
    List (String × String) :=
  map_assign [] "Authorization" ("Basic " ++ EncodeBase64 strRPCUserColonPass)

/-- An encoder for worked examples that knows the encoding of `user:pass`. -/
def exampleEncodeBase64 (s : String) : String :=
  if s = "user:pass" then "dXNlcjpwYXNz" else ""

/-- An environment of `StartRPCThreads` with the user name `user`, in which both sockets
are bound. -/
def exampleUserEnv : StartRPCThreads.Env :=
  { GenerateAuthCookie := none, rpcuser := "user", loopback := true,
    bind6 := true, v6_only_error := false, bind4 := true, rpcthreads := 4 }

/-- A node that is configured with the password `pass` and not started. -/
def examplePasswordNode : Node :=
  { rpcpassword := "pass" }

theorem find_value_of_absent (o : Object) (name : String) (h : ∀ p ∈ o, p.1 ≠ name) :
    find_value o name = Value.null := by
  induction o with
  | nil => rfl
  | cons p rest ih =>
    obtain ⟨n, v⟩ := p
    have hn : n ≠ name := h (n, v) (List.mem_cons_self _ _)
    have hrest : ∀ q ∈ rest, q.1 ≠ name := fun q hq => h q (List.mem_cons_of_mem _ hq)
    simp [find_value, hn, ih hrest]

theorem find_value_code_JSONRPCError (code : Int) (message : String) :
    find_value (JSONRPCError code message) "code" = Value.int code := by
  simp [JSONRPCError, find_value]

theorem find_value_message_JSONRPCError (code : Int) (message : String) :
    find_value (JSONRPCError code message) "message" = Value.str message := by
  simp [JSONRPCError, find_value]

theorem find_value_result_JSONRPCReplyObj (result error id : Value) :
    find_value (JSONRPCReplyObj result error id) "result"
      = if error.type ≠ Value_type.null_type then Value.null else result := by
  simp [JSONRPCReplyObj, find_value]

theorem find_value_error_JSONRPCReplyObj (result error id : Value) :
    find_value (JSONRPCReplyObj result error id) "error" = error := by
  simp [JSONRPCReplyObj, find_value]

theorem find_value_id_JSONRPCReplyObj (result error id : Value) :
    find_value (JSONRPCReplyObj result error id) "id" = id := by
  simp [JSONRPCReplyObj, find_value]

/-- Whatever the outcome, `parse` of a request object leaves the `id` member of the
object in `jreq.id`. -/
theorem parse_id_of_obj (self : JSONRequest) (members : Object) :
    (self.parse (Value.obj members)).2.id = find_value members "id" := by
  unfold JSONRequest.parse
  simp only
  split
  · rfl
  · split <;> rfl
  · rfl

/-- An error raised by `parse` is a structured error with the code `RPC_INVALID_REQUEST`. -/
theorem parse_error_code (self : JSONRequest) (valRequest : Value) (t : Thrown)
    (h : (self.parse valRequest).1 = .error t) :
    ∃ message, t = .object (JSONRPCError RPC_INVALID_REQUEST message) := by
  unfold JSONRequest.parse at h
  split at h
  · simp only at h
    split at h
    · exact ⟨_, (Except.error.inj h).symm⟩
    · split at h
      · exact absurd h (by simp)
      · exact absurd h (by simp)
      · exact ⟨_, (Except.error.inj h).symm⟩
    · exact ⟨_, (Except.error.inj h).symm⟩
  · exact ⟨_, (Except.error.inj h).symm⟩

/-- The outcome of `JSONRPCExecOne` never fails to be a response object; it is computed
from the outcome of `parse` and, when that succeeds, of `execute`. -/
theorem JSONRPCExecOne_of_parse_error (B : Build) (req : Value) (node : Node)
    (objError : Object) (h : (JSONRequest.new.parse req).1 = .error (.object objError)) :
    JSONRPCExecOne B req node
      = ⟨JSONRPCReplyObj Value.null (Value.obj objError) (JSONRequest.new.parse req).2.id,
          node, []⟩ := by
  rcases hp : JSONRequest.new.parse req with ⟨r, jreq⟩
  rw [hp] at h
  simp only at h
  subst h
  simp only [JSONRPCExecOne, hp]

/-- When the `method` member is not a string, `parse` of a request object fails with one
of two errors of code `RPC_INVALID_REQUEST`, whatever the request held before. -/
theorem parse_of_method_not_str (members : Object)
    (h : (find_value members "method").type ≠ Value_type.str_type) :
    ∃ message, ∀ self : JSONRequest,
      (self.parse (Value.obj members)).1
        = .error (.object (JSONRPCError RPC_INVALID_REQUEST message)) := by
  cases hm : find_value members "method" with
  | null => exact ⟨"Missing method", fun self => by simp [JSONRequest.parse, hm]⟩
  | str s => rw [hm] at h; exact absurd rfl h
  | obj _ => exact ⟨"Method must be a string", fun self => by simp [JSONRequest.parse, hm]⟩
  | array _ => exact ⟨"Method must be a string", fun self => by simp [JSONRequest.parse, hm]⟩
  | bool _ => exact ⟨"Method must be a string", fun self => by simp [JSONRequest.parse, hm]⟩
  | int _ => exact ⟨"Method must be a string", fun self => by simp [JSONRequest.parse, hm]⟩
  | real _ => exact ⟨"Method must be a string", fun self => by simp [JSONRequest.parse, hm]⟩

/-- The response of `JSONRPCExecOne` to a request object carries the `id` member of the
object. -/
theorem JSONRPCExecOne_id_of_obj (B : Build) (members : Object) (node : Node) :
    find_value (JSONRPCExecOne B (Value.obj members) node).ret "id"
      = find_value members "id" := by
  have hid := parse_id_of_obj JSONRequest.new members
  unfold JSONRPCExecOne
  simp only
  split
  · next jreq hp =>
    rw [hp] at hid
    simp only at hid
    split <;> simp [find_value_id_JSONRPCReplyObj, hid]
  · next objError jreq hp =>
    rw [hp] at hid
    simp [find_value_id_JSONRPCReplyObj] at hid ⊢
    exact hid
  · next what jreq hp =>
    rw [hp] at hid
    simp [find_value_id_JSONRPCReplyObj] at hid ⊢
    exact hid

/-! ## Request validation: the claims -/

/-- C1: for every request object whose `method` member is absent or null, or present
but not a string, whatever its other members, `JSONRequest::parse` fails with a
structured error of code `RPC_INVALID_REQUEST`, and `JSONRPCExecOne` returns a response
whose `error` is that error and whose `result` is null. -/
theorem C1_method_not_string_is_invalid_request (B : Build) (members : Object) (node : Node)
    (h : (∀ p ∈ members, p.1 ≠ "method")
      ∨ (find_value members "method").type ≠ Value_type.str_type) :
    ∃ objError : Object,
      (∀ self : JSONRequest,
        (self.parse (Value.obj members)).1 = .error (.object objError))
      ∧ find_value objError "code" = Value.int RPC_INVALID_REQUEST
      ∧ find_value (JSONRPCExecOne B (Value.obj members) node).ret "error" = Value.obj objError
      ∧ find_value (JSONRPCExecOne B (Value.obj members) node).ret "result" = Value.null := by
  have hty : (find_value members "method").type ≠ Value_type.str_type := by
    rcases h with habsent | hty
    · rw [find_value_of_absent members "method" habsent]
      decide
    · exact hty
  obtain ⟨message, hparse⟩ := parse_of_method_not_str members hty
  refine ⟨JSONRPCError RPC_INVALID_REQUEST message, hparse,
    find_value_code_JSONRPCError _ _, ?_, ?_⟩
  · rw [JSONRPCExecOne_of_parse_error B _ node _ (hparse JSONRequest.new)]
    exact find_value_error_JSONRPCReplyObj _ _ _
  · rw [JSONRPCExecOne_of_parse_error B _ node _ (hparse JSONRequest.new)]
    simp [find_value_result_JSONRPCReplyObj, Value.type]

/-- C1 at the request with the members `id` 5 and `params` [] and no `method`. -/
theorem C1_method_not_string_is_invalid_request_witness :
    ∃ objError : Object,
      (∀ self : JSONRequest,
        (self.parse (Value.obj [("id", Value.int 5), ("params", Value.array [])])).1
          = .error (.object objError))
      ∧ find_value objError "code" = Value.int RPC_INVALID_REQUEST
      ∧ find_value (JSONRPCExecOne exampleBuild
          (Value.obj [("id", Value.int 5), ("params", Value.array [])]) exampleNode).ret "error"
          = Value.obj objError
      ∧ find_value (JSONRPCExecOne exampleBuild
          (Value.obj [("id", Value.int 5), ("params", Value.array [])]) exampleNode).ret "result"
          = Value.null :=
  C1_method_not_string_is_invalid_request exampleBuild
    [("id", Value.int 5), ("params", Value.array [])] exampleNode
    (Or.inl (by decide))

/-- C2: for every request object whose `method` is a string, `JSONRequest::parse`
succeeds with the elements of `params` in order when `params` is an array, succeeds with
empty params when `params` is absent or null, and fails with a structured error of code
`RPC_INVALID_REQUEST` for every other kind of `params`. -/
theorem C2_params_array_or_absent (self : JSONRequest) (members : Object) (m : String)
    (h : find_value members "method" = Value.str m) :
    (∀ a : Array, find_value members "params" = Value.array a →
      self.parse (Value.obj members)
        = (.ok (), { id := find_value members "id", strMethod := m, params := a }))
    ∧ ((∀ p ∈ members, p.1 ≠ "params") ∨ find_value members "params" = Value.null →
      self.parse (Value.obj members)
        = (.ok (), { id := find_value members "id", strMethod := m, params := [] }))
    ∧ ((find_value members "params").type ≠ Value_type.array_type →
       (find_value members "params").type ≠ Value_type.null_type →
      ∃ objError : Object,
        (self.parse (Value.obj members)).1 = .error (.object objError)
        ∧ find_value objError "code" = Value.int RPC_INVALID_REQUEST) := by
  refine ⟨?_, ?_, ?_⟩
  · intro a ha
    simp [JSONRequest.parse, h, ha]
  · intro hp
    have hnull : find_value members "params" = Value.null := by
      rcases hp with habsent | hnull
      · exact find_value_of_absent members "params" habsent
      · exact hnull
    simp [JSONRequest.parse, h, hnull]
  · intro harr hnull
    refine ⟨JSONRPCError RPC_INVALID_REQUEST "Params must be an array", ?_,
      find_value_code_JSONRPCError _ _⟩
    cases hp : find_value members "params" with
    | array a => rw [hp] at harr; exact absurd rfl harr
    | null => rw [hp] at hnull; exact absurd rfl hnull
    | obj _ => simp [JSONRequest.parse, h, hp]
    | str _ => simp [JSONRequest.parse, h, hp]
    | bool _ => simp [JSONRequest.parse, h, hp]
    | int _ => simp [JSONRequest.parse, h, hp]
    | real _ => simp [JSONRequest.parse, h, hp]

/-- C2 at the request with `method` "getblockhash" and `params` [5]. -/
theorem C2_params_array_or_absent_witness :
    JSONRequest.new.parse
        (Value.obj [("method", Value.str "getblockhash"), ("params", Value.array [Value.int 5])])
      = (.ok (), { id := Value.null, strMethod := "getblockhash", params := [Value.int 5] }) :=
  (C2_params_array_or_absent JSONRequest.new
    [("method", Value.str "getblockhash"), ("params", Value.array [Value.int 5])]
    "getblockhash" (by simp [find_value])).1 [Value.int 5] (by simp [find_value])

/-- C3: for every request object, the response built by `JSONRPCExecOne` carries in
`id` the `id` member of the request unchanged, whatever its JSON type, and null when the
request has no such member; this holds for every outcome of validation and of the
handler. -/
theorem C3_id_echoed (B : Build) (members : Object) (node : Node) :
    find_value (JSONRPCExecOne B (Value.obj members) node).ret "id" = find_value members "id"
    ∧ ((∀ p ∈ members, p.1 ≠ "id") →
      find_value (JSONRPCExecOne B (Value.obj members) node).ret "id" = Value.null) :=
  ⟨JSONRPCExecOne_id_of_obj B members node,
    fun habsent => (JSONRPCExecOne_id_of_obj B members node).trans
      (find_value_of_absent members "id" habsent)⟩

/-- C3 at a request without `id` member. -/
theorem C3_id_echoed_witness :
    find_value (JSONRPCExecOne exampleBuild
      (Value.obj [("method", Value.str "getblockcount")]) exampleNode).ret "id" = Value.null :=
  (C3_id_echoed exampleBuild [("method", Value.str "getblockcount")] exampleNode).2
    (by decide)

/-! ## Batches -/

theorem JSONRPCExecBatch_ret_length (B : Build) (vReq : Array) (node : Node) :
    (JSONRPCExecBatch.ret B vReq node).ret.length = vReq.length := by
  induction vReq generalizing node with
  | nil => rfl
  | cons req rest ih => simp [JSONRPCExecBatch.ret, ih]

/-- Executing a batch that is the concatenation of two is executing the first and then,
in the state it left, the second. -/
theorem JSONRPCExecBatch_ret_append (B : Build) (xs ys : Array) (node : Node) :
    JSONRPCExecBatch.ret B (xs ++ ys) node
      = ⟨(JSONRPCExecBatch.ret B xs node).ret
            ++ (JSONRPCExecBatch.ret B ys (JSONRPCExecBatch.ret B xs node).node).ret,
          (JSONRPCExecBatch.ret B ys (JSONRPCExecBatch.ret B xs node).node).node,
          (JSONRPCExecBatch.ret B xs node).trace
            ++ (JSONRPCExecBatch.ret B ys (JSONRPCExecBatch.ret B xs node).node).trace⟩ := by
  induction xs generalizing node with
  | nil => simp [JSONRPCExecBatch.ret]
  | cons req rest ih => simp [JSONRPCExecBatch.ret, ih]

theorem JSONRPCExecBatch_ret_singleton (B : Build) (req : Value) (node : Node) :
    JSONRPCExecBatch.ret B [req] node
      = ⟨[Value.obj (JSONRPCExecOne B req node).ret], (JSONRPCExecOne B req node).node,
          (JSONRPCExecOne B req node).trace⟩ := by
  simp [JSONRPCExecBatch.ret]

/-- A request that validates and whose command returns a value gets a response with that
value as result and a null error. -/
theorem JSONRPCExecOne_of_success (B : Build) (req : Value) (node : Node) (jreq : JSONRequest)
    (result : Value) (hp : JSONRequest.new.parse req = (.ok (), jreq))
    (he : (CRPCTable.execute B jreq.strMethod jreq.params node).ret = .ok result) :
    (JSONRPCExecOne B req node).ret = JSONRPCReplyObj result Value.null jreq.id := by
  simp only [JSONRPCExecOne, hp, he]

/-- C4: for every array of K requests, `JSONRPCExecBatch` serialises an array of exactly
K responses; the i-th response is the object `JSONRPCExecOne` returns for the i-th
element, run in the state the elements before it left and after their actions, so the
elements are executed in array order and none is skipped whatever the outcome of the
others; the response of a request object carries that request's id, and an element that
validates and whose command returns a value gets that value with a null error. -/
theorem C4_batch_elementwise (B : Build) (vReq : Array) (node : Node) :
    (JSONRPCExecBatch B vReq node).ret
        = B.write_string (Value.array (JSONRPCExecBatch.ret B vReq node).ret) false ++ "\n"
    ∧ (JSONRPCExecBatch.ret B vReq node).ret.length = vReq.length
    ∧ ∀ (i : Nat) (hi : i < vReq.length),
        (JSONRPCExecBatch.ret B vReq node).ret[i]?
          = some (Value.obj (JSONRPCExecOne B vReq[i]
              (JSONRPCExecBatch.ret B (vReq.take i) node).node).ret)
        ∧ JSONRPCExecBatch.ret B (vReq.take (i + 1)) node
          = ⟨(JSONRPCExecBatch.ret B (vReq.take i) node).ret
                ++ [Value.obj (JSONRPCExecOne B vReq[i]
                      (JSONRPCExecBatch.ret B (vReq.take i) node).node).ret],
              (JSONRPCExecOne B vReq[i] (JSONRPCExecBatch.ret B (vReq.take i) node).node).node,
              (JSONRPCExecBatch.ret B (vReq.take i) node).trace
                ++ (JSONRPCExecOne B vReq[i]
                      (JSONRPCExecBatch.ret B (vReq.take i) node).node).trace⟩
        ∧ (∀ members : Object, vReq[i] = Value.obj members →
            find_value (JSONRPCExecOne B vReq[i]
              (JSONRPCExecBatch.ret B (vReq.take i) node).node).ret "id"
              = find_value members "id")
        ∧ (∀ (jreq : JSONRequest) (result : Value),
            JSONRequest.new.parse vReq[i] = (.ok (), jreq) →
            (CRPCTable.execute B jreq.strMethod jreq.params
              (JSONRPCExecBatch.ret B (vReq.take i) node).node).ret = .ok result →
            (JSONRPCExecOne B vReq[i] (JSONRPCExecBatch.ret B (vReq.take i) node).node).ret
              = JSONRPCReplyObj result Value.null jreq.id) := by
  refine ⟨rfl, JSONRPCExecBatch_ret_length B vReq node, ?_⟩
  intro i hi
  have hsplit : vReq = vReq.take i ++ vReq[i] :: vReq.drop (i + 1) := by
    rw [← List.drop_eq_getElem_cons hi, List.take_append_drop]
  have htake : vReq.take (i + 1) = vReq.take i ++ [vReq[i]] := by
    rw [List.take_succ, List.getElem?_eq_getElem hi]
    rfl
  have hlen : (JSONRPCExecBatch.ret B (vReq.take i) node).ret.length = i := by
    rw [JSONRPCExecBatch_ret_length, List.length_take]
    omega
  refine ⟨?_, ?_, ?_, ?_⟩
  · conv_lhs => rw [hsplit]
    rw [JSONRPCExecBatch_ret_append]
    simp only [JSONRPCExecBatch.ret]
    rw [List.getElem?_append_right (by omega), hlen]
    simp
  · rw [htake, JSONRPCExecBatch_ret_append, JSONRPCExecBatch_ret_singleton]
  · intro members hm
    rw [hm]
    exact JSONRPCExecOne_id_of_obj B members _
  · intro jreq result hp he
    exact JSONRPCExecOne_of_success B _ _ jreq result hp he

/-- C4 at the batch of a value that is no request object followed by a `getblockcount`
request: the second response is the normal one, with the height and a null error. -/
theorem C4_batch_elementwise_witness :
    (1 < [Value.int 3, exampleRequest "getblockcount"].length)
    ∧ (JSONRPCExecBatch.ret exampleBuild [Value.int 3, exampleRequest "getblockcount"]
        exampleNode).ret[1]?
      = some (Value.obj [("result", Value.int 7), ("error", Value.null), ("id", Value.int 1)]) :=
  ⟨by decide,
    ((C4_batch_elementwise exampleBuild [Value.int 3, exampleRequest "getblockcount"]
      exampleNode).2.2 1 (by decide)).1⟩

/-! ## Traces -/

theorem replies_append (xs ys : List Event) :
    replies (xs ++ ys) = replies xs ++ replies ys := by
  induction xs with
  | nil => rfl
  | cons ev rest ih => cases ev <;> simp [replies, ih]

theorem replies_map_lock (held : List String) : replies (held.map Event.lock) = [] := by
  induction held with
  | nil => rfl
  | cons cs rest ih => simp [replies, ih]

theorem replies_map_unlock (held : List String) : replies (held.map Event.unlock) = [] := by
  induction held with
  | nil => rfl
  | cons cs rest ih => simp [replies, ih]

/-- The dispatcher `execute` writes no reply. -/
theorem replies_execute (B : Build) (strMethod : String) (params : Array) (node : Node) :
    replies (CRPCTable.execute B strMethod params node).trace = [] := by
  unfold CRPCTable.execute
  split
  · rfl
  · split
    · rfl
    · simp only
      split
      · rfl
      · split <;>
          simp [replies_append, replies_map_lock, replies_map_unlock, replies,
            -List.map_reverse]

/-- The dispatcher `execute` fails with structured errors only. -/
theorem execute_ret_ne_exception (B : Build) (strMethod : String) (params : Array)
    (node : Node) (what : String) :
    (CRPCTable.execute B strMethod params node).ret ≠ .error (.exception what) := by
  unfold CRPCTable.execute
  split
  · simp
  · split
    · simp
    · simp only
      split
      · simp
      · split <;> simp

/-! ## One pass through the request loop -/

theorem authenticated_iff (B : Build) (req : HTTPRequest) (node : Node) :
    ServiceConnection.authenticated B req node = true
      ↔ req.strURI = "/" ∧ (map_find req.mapHeaders "authorization").isNone = false
        ∧ HTTPAuthorized B req.mapHeaders node = true := by
  simp [ServiceConnection.authenticated, and_assoc]

/-- An authenticated batch is answered with status 200 and the serialised responses. -/
theorem body_batch (B : Build) (req : HTTPRequest) (node : Node) (vReq : Array)
    (hauth : ServiceConnection.authenticated B req node = true)
    (hread : B.read_string req.strRequest = some (Value.array vReq)) :
    ServiceConnection.body B req node
      = ⟨if ServiceConnection.fRun req then LoopFlow.next else LoopFlow.stop,
          (JSONRPCExecBatch B vReq node).node,
          Event.read_string req.strRequest :: (JSONRPCExecBatch B vReq node).trace
            ++ [Event.reply HTTP_OK (JSONRPCExecBatch B vReq node).ret
                  (ServiceConnection.fRun req)]⟩ := by
  obtain ⟨huri, hpresent, hok⟩ := (authenticated_iff B req node).1 hauth
  simp [ServiceConnection.body, ServiceConnection.tryBlock, huri, hpresent, hok, hread]

/-- An authenticated single request that validates and whose command returns a value is
answered with status 200 and the serialised response. -/
theorem body_single_success (B : Build) (req : HTTPRequest) (node : Node) (members : Object)
    (jreq : JSONRequest) (result : Value)
    (hauth : ServiceConnection.authenticated B req node = true)
    (hread : B.read_string req.strRequest = some (Value.obj members))
    (hp : JSONRequest.new.parse (Value.obj members) = (.ok (), jreq))
    (he : (CRPCTable.execute B jreq.strMethod jreq.params node).ret = .ok result) :
    ServiceConnection.body B req node
      = ⟨if ServiceConnection.fRun req then LoopFlow.next else LoopFlow.stop,
          (CRPCTable.execute B jreq.strMethod jreq.params node).node,
          Event.read_string req.strRequest
            :: (CRPCTable.execute B jreq.strMethod jreq.params node).trace
            ++ [Event.reply HTTP_OK (JSONRPCReply B result Value.null jreq.id)
                  (ServiceConnection.fRun req)]⟩ := by
  obtain ⟨huri, hpresent, hok⟩ := (authenticated_iff B req node).1 hauth
  simp [ServiceConnection.body, ServiceConnection.tryBlock, huri, hpresent, hok, hread, hp, he]

/-- An authenticated single request that does not validate is answered by `ErrorReply`
with status 400, and the loop is left. -/
theorem body_single_parse_error (B : Build) (req : HTTPRequest) (node : Node)
    (members : Object) (jreq : JSONRequest) (t : Thrown)
    (hauth : ServiceConnection.authenticated B req node = true)
    (hread : B.read_string req.strRequest = some (Value.obj members))
    (hp : JSONRequest.new.parse (Value.obj members) = (.error t, jreq)) :
    ∃ message, t = .object (JSONRPCError RPC_INVALID_REQUEST message)
      ∧ ServiceConnection.body B req node
        = ⟨LoopFlow.stop, node,
            [Event.read_string req.strRequest,
             Event.reply HTTP_BAD_REQUEST
               (JSONRPCReply B Value.null
                 (Value.obj (JSONRPCError RPC_INVALID_REQUEST message)) jreq.id) false]⟩ := by
  obtain ⟨huri, hpresent, hok⟩ := (authenticated_iff B req node).1 hauth
  obtain ⟨message, ht⟩ := parse_error_code JSONRequest.new (Value.obj members) t (by rw [hp])
  subst ht
  refine ⟨message, rfl, ?_⟩
  simp [ServiceConnection.body, ServiceConnection.tryBlock, huri, hpresent, hok, hread, hp,
    ErrorReply, find_value_code_JSONRPCError, Value.get_int]

/-- An authenticated single request whose command fails is answered by `ErrorReply`, and
the loop is left; nothing is written when the error object has no integer `code`. -/
theorem body_single_execute_error (B : Build) (req : HTTPRequest) (node : Node)
    (members : Object) (jreq : JSONRequest) (objError : Object)
    (hauth : ServiceConnection.authenticated B req node = true)
    (hread : B.read_string req.strRequest = some (Value.obj members))
    (hp : JSONRequest.new.parse (Value.obj members) = (.ok (), jreq))
    (he : (CRPCTable.execute B jreq.strMethod jreq.params node).ret
      = .error (.object objError)) :
    ServiceConnection.body B req node
      = match ErrorReply B objError jreq.id with
        | some written =>
          ⟨LoopFlow.stop, (CRPCTable.execute B jreq.strMethod jreq.params node).node,
            Event.read_string req.strRequest
              :: (CRPCTable.execute B jreq.strMethod jreq.params node).trace ++ written⟩
        | none =>
          ⟨LoopFlow.raised, (CRPCTable.execute B jreq.strMethod jreq.params node).node,
            Event.read_string req.strRequest
              :: (CRPCTable.execute B jreq.strMethod jreq.params node).trace⟩ := by
  obtain ⟨huri, hpresent, hok⟩ := (authenticated_iff B req node).1 hauth
  simp only [ServiceConnection.body, ServiceConnection.tryBlock, huri, hpresent, hok, hread, hp,
    he]
  simp

/-! ## The shape of a response -/

/-- The members `result` and `error` of the response of `JSONRPCExecOne`: a null error
with the value of the command after a success, a null result with the error object after
a failure. -/
theorem JSONRPCExecOne_result_error (B : Build) (req : Value) (node : Node) :
    (∃ jreq result, JSONRequest.new.parse req = (.ok (), jreq)
        ∧ (CRPCTable.execute B jreq.strMethod jreq.params node).ret = .ok result
        ∧ find_value (JSONRPCExecOne B req node).ret "result" = result
        ∧ find_value (JSONRPCExecOne B req node).ret "error" = Value.null)
    ∨ ((∀ jreq result, ¬ (JSONRequest.new.parse req = (.ok (), jreq)
          ∧ (CRPCTable.execute B jreq.strMethod jreq.params node).ret = .ok result))
        ∧ find_value (JSONRPCExecOne B req node).ret "result" = Value.null
        ∧ ∃ objError, find_value (JSONRPCExecOne B req node).ret "error"
            = Value.obj objError) := by
  rcases hp : JSONRequest.new.parse req with ⟨r, jreq⟩
  cases r with
  | error t =>
    right
    obtain ⟨message, ht⟩ := parse_error_code JSONRequest.new req t (by rw [hp])
    subst ht
    refine ⟨fun jreq2 result h => by simp at h, ?_, ?_⟩
    · simp [JSONRPCExecOne, hp, find_value_result_JSONRPCReplyObj, Value.type]
    · exact ⟨JSONRPCError RPC_INVALID_REQUEST message,
        by simp [JSONRPCExecOne, hp, find_value_error_JSONRPCReplyObj]⟩
  | ok u =>
    cases he : (CRPCTable.execute B jreq.strMethod jreq.params node).ret with
    | ok result =>
      left
      refine ⟨jreq, result, rfl, he, ?_, ?_⟩
      · simp [JSONRPCExecOne, hp, he, find_value_result_JSONRPCReplyObj, Value.type]
      · simp [JSONRPCExecOne, hp, he, find_value_error_JSONRPCReplyObj]
    | error t =>
      right
      refine ⟨fun jreq2 result h => ?_, ?_, ?_⟩
      · obtain ⟨h1, h2⟩ := h
        have hj : jreq = jreq2 := (Prod.mk.inj h1).2
        subst hj
        rw [he] at h2
        exact absurd h2 (by simp)
      · cases t <;>
          simp [JSONRPCExecOne, hp, he, find_value_result_JSONRPCReplyObj, Value.type]
      · cases t with
        | object objError =>
          exact ⟨objError, by simp [JSONRPCExecOne, hp, he, find_value_error_JSONRPCReplyObj]⟩
        | exception what =>
          exact ⟨JSONRPCError RPC_PARSE_ERROR what,
            by simp [JSONRPCExecOne, hp, he, find_value_error_JSONRPCReplyObj]⟩

/-- C5, counterexample: the command `ping`, whose handler returns `Value::null`, gets a
response in which `result` and `error` are both null, so not exactly one is non-null. -/
theorem C5_result_and_error_both_null :
    find_value (JSONRPCExecOne exampleBuild (exampleRequest "ping") exampleNode).ret "result"
        = Value.null
    ∧ find_value (JSONRPCExecOne exampleBuild (exampleRequest "ping") exampleNode).ret "error"
        = Value.null :=
  ⟨rfl, rfl⟩

/-- C5, amended: every response of `JSONRPCExecOne`, and every reply of the single-request
path of `ServiceConnection` to an authenticated request, has at most one of `result` and
`error` non-null; both are null exactly when the request validated and its command
returned JSON null. -/
theorem C5_at_most_one_of_result_error (B : Build) (node : Node) :
    (∀ req : Value,
      (find_value (JSONRPCExecOne B req node).ret "result" = Value.null
        ∨ find_value (JSONRPCExecOne B req node).ret "error" = Value.null)
      ∧ ((find_value (JSONRPCExecOne B req node).ret "result" = Value.null
          ∧ find_value (JSONRPCExecOne B req node).ret "error" = Value.null)
        ↔ ∃ jreq, JSONRequest.new.parse req = (.ok (), jreq)
            ∧ (CRPCTable.execute B jreq.strMethod jreq.params node).ret = .ok Value.null))
    ∧ (∀ (req : HTTPRequest) (members : Object),
        ServiceConnection.authenticated B req node = true →
        B.read_string req.strRequest = some (Value.obj members) →
        ∀ r ∈ replies (ServiceConnection.body B req node).trace,
          ∃ result error id : Value,
            r.2.1 = JSONRPCReply B result error id
            ∧ (result = Value.null ∨ error = Value.null)
            ∧ ((result = Value.null ∧ error = Value.null)
              ↔ ∃ jreq, JSONRequest.new.parse (Value.obj members) = (.ok (), jreq)
                  ∧ (CRPCTable.execute B jreq.strMethod jreq.params node).ret
                      = .ok Value.null)) := by
  refine ⟨fun req => ?_, fun req members hauth hread r hr => ?_⟩
  · rcases JSONRPCExecOne_result_error B req node with
      ⟨jreq, result, hp, he, hres, herr⟩ | ⟨hno, hres, objError, herr⟩
    · refine ⟨Or.inr herr, ?_, ?_⟩
      · rintro ⟨h1, -⟩
        exact ⟨jreq, hp, by rw [he, ← hres, h1]⟩
      · rintro ⟨jreq2, hp2, he2⟩
        have hj : jreq = jreq2 := (Prod.mk.inj (hp.symm.trans hp2)).2
        subst hj
        rw [he] at he2
        have hnull : result = Value.null := Except.ok.inj he2
        exact ⟨by rw [hres, hnull], herr⟩
    · refine ⟨Or.inl hres, ?_, ?_⟩
      · rintro ⟨-, h2⟩
        rw [herr] at h2
        exact absurd h2 (by simp)
      · rintro ⟨jreq2, hp2, he2⟩
        exact absurd ⟨hp2, he2⟩ (hno jreq2 Value.null)
  · rcases hp : JSONRequest.new.parse (Value.obj members) with ⟨p, jreq⟩
    cases p with
    | error t =>
      obtain ⟨message, -, hbody⟩ :=
        body_single_parse_error B req node members jreq t hauth hread hp
      rw [hbody] at hr
      simp [replies] at hr
      subst hr
      exact ⟨Value.null, Value.obj (JSONRPCError RPC_INVALID_REQUEST message), jreq.id, rfl,
        Or.inl rfl, by simp⟩
    | ok u =>
      cases he : (CRPCTable.execute B jreq.strMethod jreq.params node).ret with
      | ok result =>
        rw [body_single_success B req node members jreq result hauth hread hp he] at hr
        simp [replies, replies_append, replies_execute] at hr
        subst hr
        refine ⟨result, Value.null, jreq.id, rfl, Or.inr rfl, ?_, ?_⟩
        · rintro ⟨h1, -⟩
          exact ⟨jreq, rfl, by rw [he, h1]⟩
        · rintro ⟨jreq2, hp2, he2⟩
          have hj : jreq = jreq2 := (Prod.mk.inj hp2).2
          subst hj
          rw [he] at he2
          exact ⟨Except.ok.inj he2, rfl⟩
      | error t =>
        cases t with
        | exception what => exact absurd he (execute_ret_ne_exception B _ _ _ what)
        | object objError =>
          rw [body_single_execute_error B req node members jreq objError hauth hread hp he]
            at hr
          unfold ErrorReply at hr
          cases hc : (find_value objError "code").get_int with
          | none =>
            rw [hc] at hr
            simp [replies, replies_append, replies_execute] at hr
          | some code =>
            rw [hc] at hr
            simp [replies, replies_append, replies_execute] at hr
            subst hr
            refine ⟨Value.null, Value.obj objError, jreq.id, rfl, Or.inl rfl, ?_, ?_⟩
            · rintro ⟨-, h2⟩
              exact absurd h2 (by simp)
            · rintro ⟨jreq2, hp2, he2⟩
              have hj : jreq = jreq2 := (Prod.mk.inj hp2).2
              subst hj
              rw [he] at he2
              exact absurd he2 (by simp)

/-- C5, amended, at the authenticated single request `getblockcount`: the one reply
carries a response with a null error. -/
theorem C5_at_most_one_of_result_error_witness :
    ServiceConnection.authenticated exampleBuild (exampleHTTPRequest (exampleText "getblockcount"))
        exampleNode = true
    ∧ ∃ result error id : Value,
        "json\n" = JSONRPCReply exampleBuild result error id
        ∧ (result = Value.null ∨ error = Value.null)
        ∧ ((result = Value.null ∧ error = Value.null)
          ↔ ∃ jreq, JSONRequest.new.parse (exampleRequest "getblockcount") = (.ok (), jreq)
              ∧ (CRPCTable.execute exampleBuild jreq.strMethod jreq.params exampleNode).ret
                  = .ok Value.null) :=
  ⟨by decide,
    (C5_at_most_one_of_result_error exampleBuild exampleNode).2
      (exampleHTTPRequest (exampleText "getblockcount")) [("method", Value.str "getblockcount"),
        ("params", Value.array []), ("id", Value.int 1)]
      (by decide) rfl (200, "json\n", true) (by decide)⟩

/-! ## The command table -/

theorem map_find_map_assign {α : Type} (m : List (String × α)) (k : String) (v : α)
    (k2 : String) :
    map_find (map_assign m k v) k2 = if k = k2 then some v else map_find m k2 := by
  induction m with
  | nil => simp [map_assign, map_find]
  | cons p rest ih =>
    obtain ⟨k0, v0⟩ := p
    by_cases h0 : k0 = k
    · subst h0
      by_cases h2 : k0 = k2 <;> simp [map_assign, map_find, h2]
    · by_cases h2 : k0 = k2
      · subst h2
        have hk : ¬ k = k0 := fun h => h0 h.symm
        simp [map_assign, map_find, h0, hk]
      · simp [map_assign, map_find, h0, h2, ih]

/-- A binding found in a map that was filled from a list of commands is either a binding
of the map before, or one of the commands, bound to its own name. -/
theorem map_find_foldl_assign (cmds : List CRPCCommand) (m : List (String × CRPCCommand))
    (name : String) (pcmd : CRPCCommand)
    (h : map_find (cmds.foldl (fun m pcmd => map_assign m pcmd.name pcmd) m) name = some pcmd) :
    map_find m name = some pcmd ∨ (pcmd ∈ cmds ∧ pcmd.name = name) := by
  induction cmds generalizing m with
  | nil => exact Or.inl h
  | cons c rest ih =>
    rcases ih (map_assign m c.name c) h with h1 | ⟨hmem, hname⟩
    · rw [map_find_map_assign] at h1
      by_cases hc : c.name = name
      · rw [if_pos hc] at h1
        have hcp : c = pcmd := Option.some.inj h1
        subst hcp
        exact Or.inr ⟨List.mem_cons_self _ _, hc⟩
      · rw [if_neg hc] at h1
        exact Or.inl h1
    · exact Or.inr ⟨List.mem_cons_of_mem _ hmem, hname⟩

/-- A command found in `tableRPC` is a row of `vRPCCommands` with the name looked up. -/
theorem tableRPC_get_mem (B : Build) (name : String) (pcmd : CRPCCommand)
    (h : (tableRPC B).get name = some pcmd) :
    pcmd ∈ vRPCCommands B ∧ pcmd.name = name := by
  rcases map_find_foldl_assign (vRPCCommands B) [] name pcmd h with h0 | h1
  · simp [map_find] at h0
  · exact h1

/-- No row that is compiled in every build requires the wallet. -/
theorem vRPCCommandsBase_reqWallet (actor : String → rpcfn_type) :
    ∀ c ∈ vRPCCommandsBase actor, c.reqWallet = false := by
  simp [vRPCCommandsBase]

/-- In a build without `ENABLE_WALLET` no command of the table requires the wallet. -/
theorem tableRPC_reqWallet_of_not_ENABLE_WALLET (B : Build) (name : String)
    (pcmd : CRPCCommand) (hB : B.ENABLE_WALLET = false)
    (h : (tableRPC B).get name = some pcmd) : pcmd.reqWallet = false := by
  have hmem := (tableRPC_get_mem B name pcmd h).1
  simp only [vRPCCommands, hB] at hmem
  exact vRPCCommandsBase_reqWallet B.actor pcmd (by simpa using hmem)

/-- What `execute` does for a registered command once both gates are passed. -/
theorem execute_of_gates_passed (B : Build) (strMethod : String) (params : Array)
    (node : Node) (pcmd : CRPCCommand)
    (hget : (tableRPC B).get strMethod = some pcmd)
    (hcap : pcmd.reqWallet = true → node.pwalletMain = true)
    (hsafe : node.strWarnings = "" ∨ node.fDisableSafeMode = true ∨ pcmd.okSafeMode = true) :
    CRPCTable.execute B strMethod params node
      = match (pcmd.actor params false node).1 with
        | .ok result =>
          ⟨.ok result, (pcmd.actor params false node).2,
            (CRPCTable.execute.locks B pcmd node).map Event.lock
              ++ [Event.call pcmd.name params false]
              ++ (CRPCTable.execute.locks B pcmd node).reverse.map Event.unlock⟩
        | .error (.object objError) =>
          ⟨.error (.object objError), (pcmd.actor params false node).2,
            (CRPCTable.execute.locks B pcmd node).map Event.lock
              ++ [Event.call pcmd.name params false]
              ++ (CRPCTable.execute.locks B pcmd node).reverse.map Event.unlock⟩
        | .error (.exception what) =>
          ⟨.error (.object (JSONRPCError RPC_MISC_ERROR what)),
            (pcmd.actor params false node).2,
            (CRPCTable.execute.locks B pcmd node).map Event.lock
              ++ [Event.call pcmd.name params false]
              ++ (CRPCTable.execute.locks B pcmd node).reverse.map Event.unlock⟩ := by
  have hgate : (B.ENABLE_WALLET && pcmd.reqWallet && !node.pwalletMain) = false := by
    cases hr : pcmd.reqWallet with
    | false => simp
    | true => simp [hcap hr]
  have hmode : (decide (node.strWarnings ≠ "") && !node.fDisableSafeMode
      && !pcmd.okSafeMode) = false := by
    rcases hsafe with h | h | h <;> simp [h]
  simp only [CRPCTable.execute, hget, hgate, hmode, Bool.false_eq_true, if_false]

/-- The handler invocations in the trace of a call made under the locks `held`. -/
theorem calls_locked_call (held : List String) (name : String) (params : Array)
    (fHelp : Bool) :
    calls (held.map Event.lock ++ [Event.call name params fHelp]
      ++ held.reverse.map Event.unlock) = [(name, params, fHelp)] := by
  have hlock : ∀ (l : List String) (rest : List Event),
      calls (l.map Event.lock ++ rest) = calls rest := by
    intro l rest
    induction l with
    | nil => rfl
    | cons cs tl ih => simpa [calls] using ih
  have hunlock : ∀ l : List String, calls (l.map Event.unlock) = [] := by
    intro l
    induction l with
    | nil => rfl
    | cons cs tl ih => simpa [calls] using ih
  rw [List.append_assoc, hlock]
  simp [calls, hunlock, -List.map_reverse]

/-! ## Dispatch: the claims -/

/-- C6: `CRPCTable::execute` fails with code `RPC_METHOD_NOT_FOUND` for a name that is
not in the command table, and with the same code for a registered command that requires
the wallet while there is no wallet; in both cases no handler is invoked: no action is
performed and the node state is unchanged. -/
theorem C6_method_not_found (B : Build) (strMethod : String) (params : Array) (node : Node) :
    ((tableRPC B).get strMethod = none →
      CRPCTable.execute B strMethod params node
        = ⟨.error (.object (JSONRPCError RPC_METHOD_NOT_FOUND "Method not found")), node, []⟩
      ∧ find_value (JSONRPCError RPC_METHOD_NOT_FOUND "Method not found") "code"
          = Value.int RPC_METHOD_NOT_FOUND)
    ∧ (∀ pcmd : CRPCCommand, (tableRPC B).get strMethod = some pcmd →
        pcmd.reqWallet = true → node.pwalletMain = false →
        ∃ objError : Object,
          (CRPCTable.execute B strMethod params node).ret = .error (.object objError)
          ∧ find_value objError "code" = Value.int RPC_METHOD_NOT_FOUND
          ∧ (CRPCTable.execute B strMethod params node).node = node
          ∧ (CRPCTable.execute B strMethod params node).trace = []) := by
  refine ⟨fun hnone => ⟨?_, find_value_code_JSONRPCError _ _⟩, fun pcmd hget hreq hwallet => ?_⟩
  · simp [CRPCTable.execute, hnone]
  · have hB : B.ENABLE_WALLET = true := by
      cases hE : B.ENABLE_WALLET with
      | true => rfl
      | false =>
        have := tableRPC_reqWallet_of_not_ENABLE_WALLET B strMethod pcmd hE hget
        rw [hreq] at this
        exact absurd this (by simp)
    refine ⟨JSONRPCError RPC_METHOD_NOT_FOUND "Method not found (disabled)", ?_,
      find_value_code_JSONRPCError _ _, ?_, ?_⟩ <;>
      simp [CRPCTable.execute, hget, hB, hreq, hwallet]

/-- C6 at the unregistered name `nosuchmethod` and at `getbalance`, which requires the
wallet, on a node without wallet. -/
theorem C6_method_not_found_witness :
    (tableRPC exampleBuild).get "nosuchmethod" = none
    ∧ CRPCTable.execute exampleBuild "nosuchmethod" [] exampleNode
        = ⟨.error (.object (JSONRPCError RPC_METHOD_NOT_FOUND "Method not found")),
            exampleNode, []⟩
    ∧ ∃ objError : Object,
        (CRPCTable.execute exampleBuild "getbalance" [] exampleNode).ret
            = .error (.object objError)
        ∧ find_value objError "code" = Value.int RPC_METHOD_NOT_FOUND
        ∧ (CRPCTable.execute exampleBuild "getbalance" [] exampleNode).node = exampleNode
        ∧ (CRPCTable.execute exampleBuild "getbalance" [] exampleNode).trace = [] :=
  ⟨rfl,
    ((C6_method_not_found exampleBuild "nosuchmethod" [] exampleNode).1 rfl).1,
    (C6_method_not_found exampleBuild "getbalance" [] exampleNode).2
      { name := "getbalance", actor := exampleActor "getbalance", okSafeMode := false,
        threadSafe := false, reqWallet := true } rfl rfl rfl⟩

/-- C7, counterexample: on a node without wallet the error for `getbalance`, which
requires the wallet, has the message "Method not found (disabled)", the error for the
unregistered `nosuchmethod` the message "Method not found"; the two errors differ. -/
theorem C7_messages_differ :
    (CRPCTable.execute exampleBuild "getbalance" [] exampleNode).ret
        = .error (.object (JSONRPCError RPC_METHOD_NOT_FOUND "Method not found (disabled)"))
    ∧ (CRPCTable.execute exampleBuild "nosuchmethod" [] exampleNode).ret
        = .error (.object (JSONRPCError RPC_METHOD_NOT_FOUND "Method not found"))
    ∧ find_value (JSONRPCError RPC_METHOD_NOT_FOUND "Method not found (disabled)") "message"
        ≠ find_value (JSONRPCError RPC_METHOD_NOT_FOUND "Method not found") "message" := by
  refine ⟨rfl, rfl, ?_⟩
  rw [find_value_message_JSONRPCError, find_value_message_JSONRPCError]
  intro h
  exact absurd (Value.str.inj h) (by decide)

/-- C7, amended: the error `execute` returns for a command that requires the wallet
while there is no wallet has the same code, `RPC_METHOD_NOT_FOUND`, as the error for a
name that is not registered; the message of the first is "Method not found (disabled)",
that of the second "Method not found". -/
theorem C7_same_code_for_disabled_and_unknown (B : Build) (params1 params2 : Array)
    (node : Node) (disabled unknown : String) (pcmd : CRPCCommand)
    (hget : (tableRPC B).get disabled = some pcmd) (hreq : pcmd.reqWallet = true)
    (hwallet : node.pwalletMain = false) (hnone : (tableRPC B).get unknown = none) :
    ∃ e1 e2 : Object,
      (CRPCTable.execute B disabled params1 node).ret = .error (.object e1)
      ∧ (CRPCTable.execute B unknown params2 node).ret = .error (.object e2)
      ∧ find_value e1 "code" = find_value e2 "code"
      ∧ find_value e1 "code" = Value.int RPC_METHOD_NOT_FOUND
      ∧ find_value e1 "message" = Value.str "Method not found (disabled)"
      ∧ find_value e2 "message" = Value.str "Method not found" := by
  have hB : B.ENABLE_WALLET = true := by
    cases hE : B.ENABLE_WALLET with
    | true => rfl
    | false =>
      have := tableRPC_reqWallet_of_not_ENABLE_WALLET B disabled pcmd hE hget
      rw [hreq] at this
      exact absurd this (by simp)
  refine ⟨JSONRPCError RPC_METHOD_NOT_FOUND "Method not found (disabled)",
    JSONRPCError RPC_METHOD_NOT_FOUND "Method not found", ?_, ?_, ?_, ?_, ?_, ?_⟩
  · simp [CRPCTable.execute, hget, hB, hreq, hwallet]
  · simp [CRPCTable.execute, hnone]
  · rw [find_value_code_JSONRPCError, find_value_code_JSONRPCError]
  · exact find_value_code_JSONRPCError _ _
  · exact find_value_message_JSONRPCError _ _
  · exact find_value_message_JSONRPCError _ _

/-- C7, amended, at `getbalance` and `nosuchmethod` on a node without wallet. -/
theorem C7_same_code_for_disabled_and_unknown_witness :
    ((tableRPC exampleBuild).get "nosuchmethod" = none ∧ exampleNode.pwalletMain = false)
    ∧ ∃ e1 e2 : Object,
      (CRPCTable.execute exampleBuild "getbalance" [] exampleNode).ret = .error (.object e1)
      ∧ (CRPCTable.execute exampleBuild "nosuchmethod" [] exampleNode).ret
          = .error (.object e2)
      ∧ find_value e1 "code" = find_value e2 "code"
      ∧ find_value e1 "code" = Value.int RPC_METHOD_NOT_FOUND
      ∧ find_value e1 "message" = Value.str "Method not found (disabled)"
      ∧ find_value e2 "message" = Value.str "Method not found" :=
  ⟨⟨rfl, rfl⟩,
    C7_same_code_for_disabled_and_unknown exampleBuild [] [] exampleNode "getbalance"
      "nosuchmethod"
      { name := "getbalance", actor := exampleActor "getbalance", okSafeMode := false,
        threadSafe := false, reqWallet := true } rfl rfl rfl rfl⟩

/-- C8, counterexample: with an active warning on a node started with
`-disablesafemode`, `execute` of `getblock`, which is not safe-mode-exempt, does invoke
the handler, under `cs_main`. -/
theorem C8_disablesafemode_invokes_handler :
    (exampleNodeWarning true).strWarnings ≠ ""
    ∧ (CRPCTable.execute exampleBuild "getblock" [] (exampleNodeWarning true)).trace
        = [Event.lock "cs_main", Event.call "getblock" [] false, Event.unlock "cs_main"] :=
  ⟨by decide, rfl⟩

/-- C8, amended: for every registered command that is not safe-mode-exempt and whose
capability requirement is satisfied, whenever the warning text is non-empty and the node
was not started with `-disablesafemode`, `execute` fails with code
`RPC_FORBIDDEN_BY_SAFE_MODE` and the message "Safe mode: " followed by the warning text,
and the handler is not invoked: no action is performed and the node state is unchanged. -/
theorem C8_forbidden_by_safe_mode (B : Build) (strMethod : String) (params : Array)
    (node : Node) (pcmd : CRPCCommand)
    (hget : (tableRPC B).get strMethod = some pcmd)
    (hexempt : pcmd.okSafeMode = false)
    (hcap : pcmd.reqWallet = true → node.pwalletMain = true)
    (hwarn : node.strWarnings ≠ "")
    (hdis : node.fDisableSafeMode = false) :
    CRPCTable.execute B strMethod params node
      = ⟨.error (.object (JSONRPCError RPC_FORBIDDEN_BY_SAFE_MODE
            ("Safe mode: " ++ node.strWarnings))), node, []⟩
    ∧ find_value (JSONRPCError RPC_FORBIDDEN_BY_SAFE_MODE
          ("Safe mode: " ++ node.strWarnings)) "code" = Value.int RPC_FORBIDDEN_BY_SAFE_MODE
    ∧ find_value (JSONRPCError RPC_FORBIDDEN_BY_SAFE_MODE
          ("Safe mode: " ++ node.strWarnings)) "message"
        = Value.str ("Safe mode: " ++ node.strWarnings) := by
  refine ⟨?_, find_value_code_JSONRPCError _ _, find_value_message_JSONRPCError _ _⟩
  have hgate : (B.ENABLE_WALLET && pcmd.reqWallet && !node.pwalletMain) = false := by
    cases hr : pcmd.reqWallet with
    | false => simp
    | true => simp [hcap hr]
  simp [CRPCTable.execute, hget, hgate, hexempt, hwarn, hdis]

/-- C8, amended, at `getblock` on a node with an active warning that was started
without `-disablesafemode`. -/
theorem C8_forbidden_by_safe_mode_witness :
    ((exampleNodeWarning false).strWarnings ≠ ""
      ∧ (exampleNodeWarning false).fDisableSafeMode = false)
    ∧ CRPCTable.execute exampleBuild "getblock" [] (exampleNodeWarning false)
      = ⟨.error (.object (JSONRPCError RPC_FORBIDDEN_BY_SAFE_MODE
            "Safe mode: checkpoint is too old")), exampleNodeWarning false, []⟩ :=
  ⟨⟨by decide, rfl⟩,
    (C8_forbidden_by_safe_mode exampleBuild "getblock" [] (exampleNodeWarning false)
      { name := "getblock", actor := exampleActor "getblock", okSafeMode := false,
        threadSafe := false, reqWallet := false } rfl rfl (fun h => by simp at h)
      (by decide) rfl).1⟩

/-- C9: for every registered command that passes the capability gate and the safe-mode
gate, `execute` invokes the handler once, in normal mode; it returns the value the
handler returns, fails with the very error object the handler throws, and turns any
other exception of the handler, with description `d`, into the structured error of code
`RPC_MISC_ERROR` and message `d`; the node state is the one the handler left. Whatever
its arguments, `execute` never fails with anything but a structured error. -/
theorem C9_handler_outcome (B : Build) (strMethod : String) (params : Array) (node : Node)
    (pcmd : CRPCCommand)
    (hget : (tableRPC B).get strMethod = some pcmd)
    (hcap : pcmd.reqWallet = true → node.pwalletMain = true)
    (hsafe : node.strWarnings = "" ∨ node.fDisableSafeMode = true ∨ pcmd.okSafeMode = true) :
    (∀ (v : Value) (node2 : Node), pcmd.actor params false node = (.ok v, node2) →
      (CRPCTable.execute B strMethod params node).ret = .ok v
      ∧ (CRPCTable.execute B strMethod params node).node = node2)
    ∧ (∀ (objError : Object) (node2 : Node),
        pcmd.actor params false node = (.error (.object objError), node2) →
      (CRPCTable.execute B strMethod params node).ret = .error (.object objError)
      ∧ (CRPCTable.execute B strMethod params node).node = node2)
    ∧ (∀ (d : String) (node2 : Node),
        pcmd.actor params false node = (.error (.exception d), node2) →
      (CRPCTable.execute B strMethod params node).ret
          = .error (.object (JSONRPCError RPC_MISC_ERROR d))
      ∧ find_value (JSONRPCError RPC_MISC_ERROR d) "code" = Value.int RPC_MISC_ERROR
      ∧ find_value (JSONRPCError RPC_MISC_ERROR d) "message" = Value.str d
      ∧ (CRPCTable.execute B strMethod params node).node = node2)
    ∧ calls (CRPCTable.execute B strMethod params node).trace = [(pcmd.name, params, false)]
    ∧ (∀ (B2 : Build) (strMethod2 : String) (params2 : Array) (node3 : Node) (what : String),
        (CRPCTable.execute B2 strMethod2 params2 node3).ret ≠ .error (.exception what)) := by
  have hexec := execute_of_gates_passed B strMethod params node pcmd hget hcap hsafe
  refine ⟨fun v node2 h => ?_, fun objError node2 h => ?_, fun d node2 h => ?_, ?_,
    fun B2 strMethod2 params2 node3 what => execute_ret_ne_exception B2 _ _ _ what⟩
  · rw [hexec, h]
    exact ⟨rfl, rfl⟩
  · rw [hexec, h]
    exact ⟨rfl, rfl⟩
  · rw [hexec, h]
    exact ⟨rfl, find_value_code_JSONRPCError _ _, find_value_message_JSONRPCError _ _, rfl⟩
  · rw [hexec]
    split <;> exact calls_locked_call _ _ _ _

/-- C9 at `getblockcount` on a node of height 7 without warning: the handler returns 7
and so does `execute`. -/
theorem C9_handler_outcome_witness :
    (tableRPC exampleBuild).get "getblockcount"
        = some { name := "getblockcount", actor := exampleActor "getblockcount",
                 okSafeMode := true, threadSafe := false, reqWallet := false }
    ∧ (CRPCTable.execute exampleBuild "getblockcount" [] exampleNode).ret
        = .ok (Value.int 7)
    ∧ (CRPCTable.execute exampleBuild "getblockcount" [] exampleNode).node = exampleNode :=
  ⟨rfl,
    (C9_handler_outcome exampleBuild "getblockcount" [] exampleNode
      { name := "getblockcount", actor := exampleActor "getblockcount",
        okSafeMode := true, threadSafe := false, reqWallet := false }
      rfl (fun h => by simp at h) (Or.inl rfl)).1 (Value.int 7) exampleNode rfl⟩

/-- The batch executor writes no reply while it runs the requests. -/
theorem replies_JSONRPCExecOne (B : Build) (req : Value) (node : Node) :
    replies (JSONRPCExecOne B req node).trace = [] := by
  unfold JSONRPCExecOne
  simp only
  split
  · split <;> exact replies_execute B _ _ _
  · rfl
  · rfl

theorem replies_JSONRPCExecBatch_ret (B : Build) (vReq : Array) (node : Node) :
    replies (JSONRPCExecBatch.ret B vReq node).trace = [] := by
  induction vReq generalizing node with
  | nil => rfl
  | cons r rest ih =>
    simp only [JSONRPCExecBatch.ret, replies_append, ih, List.append_nil]
    exact replies_JSONRPCExecOne B r node

/-! ## HTTP status of a JSON-RPC exchange -/

/-- C10, counterexample: the authenticated single request for the unregistered method
`nosuchmethod`, a well-formed request object, is answered with HTTP status 404, not 200,
and with keep-alive off. -/
theorem C10_unknown_method_status_404 :
    ServiceConnection.authenticated exampleBuild
        (exampleHTTPRequest (exampleText "nosuchmethod")) exampleNode = true
    ∧ exampleBuild.read_string (exampleText "nosuchmethod")
        = some (exampleRequest "nosuchmethod")
    ∧ replies (ServiceConnection.body exampleBuild
          (exampleHTTPRequest (exampleText "nosuchmethod")) exampleNode).trace
        = [(404, JSONRPCReply exampleBuild Value.null
              (Value.obj (JSONRPCError RPC_METHOD_NOT_FOUND "Method not found"))
              (Value.int 1), false)] :=
  ⟨by decide, rfl, rfl⟩

/-- C10, amended: an authenticated request to "/" whose body is a batch array is answered
with status 200 whatever the outcomes of its elements; one whose body is a single
request object is answered with status 200 when the request validates and its command
returns a value; when the command of a validated single request fails with a structured
error of integer code `code`, the one reply is written by `ErrorReply` with keep-alive
off and status 400 for `RPC_INVALID_REQUEST`, 404 for `RPC_METHOD_NOT_FOUND` and 500 for
every other code, never 200, and the loop is left. -/
theorem C10_status_of_exchange (B : Build) (req : HTTPRequest) (node : Node)
    (hauth : ServiceConnection.authenticated B req node = true) :
    (∀ vReq : Array, B.read_string req.strRequest = some (Value.array vReq) →
      replies (ServiceConnection.body B req node).trace
        = [(HTTP_OK, (JSONRPCExecBatch B vReq node).ret, ServiceConnection.fRun req)])
    ∧ (∀ (members : Object) (jreq : JSONRequest) (result : Value),
        B.read_string req.strRequest = some (Value.obj members) →
        JSONRequest.new.parse (Value.obj members) = (.ok (), jreq) →
        (CRPCTable.execute B jreq.strMethod jreq.params node).ret = .ok result →
        replies (ServiceConnection.body B req node).trace
          = [(HTTP_OK, JSONRPCReply B result Value.null jreq.id, ServiceConnection.fRun req)])
    ∧ (∀ (members : Object) (jreq : JSONRequest) (objError : Object) (code : Int),
        B.read_string req.strRequest = some (Value.obj members) →
        JSONRequest.new.parse (Value.obj members) = (.ok (), jreq) →
        (CRPCTable.execute B jreq.strMethod jreq.params node).ret
          = .error (.object objError) →
        find_value objError "code" = Value.int code →
        replies (ServiceConnection.body B req node).trace
          = [(if code = RPC_INVALID_REQUEST then HTTP_BAD_REQUEST
              else if code = RPC_METHOD_NOT_FOUND then HTTP_NOT_FOUND
              else HTTP_INTERNAL_SERVER_ERROR,
              JSONRPCReply B Value.null (Value.obj objError) jreq.id, false)]
        ∧ (if code = RPC_INVALID_REQUEST then HTTP_BAD_REQUEST
              else if code = RPC_METHOD_NOT_FOUND then HTTP_NOT_FOUND
              else HTTP_INTERNAL_SERVER_ERROR) ≠ HTTP_OK
        ∧ (ServiceConnection.body B req node).ret = LoopFlow.stop) := by
  refine ⟨fun vReq hread => ?_, fun members jreq result hread hp he => ?_,
    fun members jreq objError code hread hp he hcode => ?_⟩
  · rw [body_batch B req node vReq hauth hread]
    have hb : replies (JSONRPCExecBatch B vReq node).trace = [] :=
      replies_JSONRPCExecBatch_ret B vReq node
    simp [replies, replies_append, hb]
  · rw [body_single_success B req node members jreq result hauth hread hp he]
    simp [replies, replies_append, replies_execute]
  · rw [body_single_execute_error B req node members jreq objError hauth hread hp he]
    have hER : ErrorReply B objError jreq.id
        = some [Event.reply (if code = RPC_INVALID_REQUEST then HTTP_BAD_REQUEST
              else if code = RPC_METHOD_NOT_FOUND then HTTP_NOT_FOUND
              else HTTP_INTERNAL_SERVER_ERROR)
            (JSONRPCReply B Value.null (Value.obj objError) jreq.id) false] := by
      simp [ErrorReply, hcode, Value.get_int]
    rw [hER]
    refine ⟨by simp [replies, replies_append, replies_execute], ?_, rfl⟩
    split
    · decide
    · split <;> decide

/-- C10, amended, at the authenticated single request `getblockcount`: one reply, with
status 200 and keep-alive on. -/
theorem C10_status_of_exchange_witness :
    ServiceConnection.authenticated exampleBuild
        (exampleHTTPRequest (exampleText "getblockcount")) exampleNode = true
    ∧ replies (ServiceConnection.body exampleBuild
          (exampleHTTPRequest (exampleText "getblockcount")) exampleNode).trace
        = [(200, JSONRPCReply exampleBuild (Value.int 7) Value.null (Value.int 1), true)] :=
  ⟨by decide,
    (C10_status_of_exchange exampleBuild (exampleHTTPRequest (exampleText "getblockcount"))
      exampleNode (by decide)).2.1
      [("method", Value.str "getblockcount"), ("params", Value.array []), ("id", Value.int 1)]
      { id := Value.int 1, strMethod := "getblockcount", params := [] } (Value.int 7)
      rfl rfl rfl⟩

/-! ## Framing errors and the end of the request loop -/

/-- A request object that is invalid (its `method` is not a string, or its `params` is
neither an array nor null) makes `parse` fail with code `RPC_INVALID_REQUEST`. -/
theorem parse_fails_of_invalid (members : Object)
    (h : (find_value members "method").type ≠ Value_type.str_type
      ∨ ((find_value members "params").type ≠ Value_type.array_type
        ∧ (find_value members "params").type ≠ Value_type.null_type)) :
    ∃ message jreq, JSONRequest.new.parse (Value.obj members)
      = (.error (.object (JSONRPCError RPC_INVALID_REQUEST message)), jreq) := by
  have hfail : ∃ t, (JSONRequest.new.parse (Value.obj members)).1 = .error t := by
    by_cases hm : (find_value members "method").type = Value_type.str_type
    · rcases h with h | ⟨harr, hnull⟩
      · exact absurd hm h
      · have hstr : ∃ s, find_value members "method" = Value.str s := by
          cases hmv : find_value members "method" <;> rw [hmv] at hm <;>
            first
              | exact ⟨_, rfl⟩
              | exact absurd hm (by simp [Value.type])
        obtain ⟨s, hmv⟩ := hstr
        refine ⟨.object (JSONRPCError RPC_INVALID_REQUEST "Params must be an array"), ?_⟩
        cases hp : find_value members "params" with
        | array a => rw [hp] at harr; exact absurd rfl harr
        | null => rw [hp] at hnull; exact absurd rfl hnull
        | obj _ => simp [JSONRequest.parse, hmv, hp]
        | str _ => simp [JSONRequest.parse, hmv, hp]
        | bool _ => simp [JSONRequest.parse, hmv, hp]
        | int _ => simp [JSONRequest.parse, hmv, hp]
        | real _ => simp [JSONRequest.parse, hmv, hp]
    · obtain ⟨message, hparse⟩ := parse_of_method_not_str members hm
      exact ⟨_, hparse JSONRequest.new⟩
  obtain ⟨t, ht⟩ := hfail
  obtain ⟨message, hmsg⟩ := parse_error_code JSONRequest.new (Value.obj members) t ht
  subst hmsg
  refine ⟨message, (JSONRequest.new.parse (Value.obj members)).2, ?_⟩
  rw [← ht]

/-- An authenticated request whose body is no JSON text is answered by `ErrorReply` for
the error `RPC_PARSE_ERROR`, with status 500. -/
theorem body_unparseable (B : Build) (req : HTTPRequest) (node : Node)
    (hauth : ServiceConnection.authenticated B req node = true)
    (hread : B.read_string req.strRequest = none) :
    ServiceConnection.body B req node
      = ⟨LoopFlow.stop, node,
          [Event.read_string req.strRequest,
           Event.reply HTTP_INTERNAL_SERVER_ERROR
             (JSONRPCReply B Value.null
               (Value.obj (JSONRPCError RPC_PARSE_ERROR "Parse error")) Value.null) false]⟩ := by
  obtain ⟨huri, hpresent, hok⟩ := (authenticated_iff B req node).1 hauth
  simp [ServiceConnection.body, ServiceConnection.tryBlock, huri, hpresent, hok, hread,
    ErrorReply, find_value_code_JSONRPCError, Value.get_int, JSONRequest.new]
  decide

/-- An authenticated request whose body is a JSON value other than an object or an array
is answered by `ErrorReply` for the error `RPC_PARSE_ERROR`, with status 500. -/
theorem body_top_level_shape (B : Build) (req : HTTPRequest) (node : Node) (v : Value)
    (hauth : ServiceConnection.authenticated B req node = true)
    (hread : B.read_string req.strRequest = some v)
    (hobj : v.type ≠ Value_type.obj_type) (harr : v.type ≠ Value_type.array_type) :
    ServiceConnection.body B req node
      = ⟨LoopFlow.stop, node,
          [Event.read_string req.strRequest,
           Event.reply HTTP_INTERNAL_SERVER_ERROR
             (JSONRPCReply B Value.null
               (Value.obj (JSONRPCError RPC_PARSE_ERROR "Top-level object parse error"))
               Value.null) false]⟩ := by
  obtain ⟨huri, hpresent, hok⟩ := (authenticated_iff B req node).1 hauth
  have hstatus : (if RPC_PARSE_ERROR = RPC_INVALID_REQUEST then HTTP_BAD_REQUEST
      else if RPC_PARSE_ERROR = RPC_METHOD_NOT_FOUND then HTTP_NOT_FOUND
      else HTTP_INTERNAL_SERVER_ERROR) = HTTP_INTERNAL_SERVER_ERROR := by decide
  cases v with
  | obj _ => exact absurd rfl hobj
  | array _ => exact absurd rfl harr
  | str _ =>
    simp [ServiceConnection.body, ServiceConnection.tryBlock, huri, hpresent, hok, hread,
      ErrorReply, find_value_code_JSONRPCError, Value.get_int, JSONRequest.new, hstatus]
  | bool _ =>
    simp [ServiceConnection.body, ServiceConnection.tryBlock, huri, hpresent, hok, hread,
      ErrorReply, find_value_code_JSONRPCError, Value.get_int, JSONRequest.new, hstatus]
  | int _ =>
    simp [ServiceConnection.body, ServiceConnection.tryBlock, huri, hpresent, hok, hread,
      ErrorReply, find_value_code_JSONRPCError, Value.get_int, JSONRequest.new, hstatus]
  | real _ =>
    simp [ServiceConnection.body, ServiceConnection.tryBlock, huri, hpresent, hok, hread,
      ErrorReply, find_value_code_JSONRPCError, Value.get_int, JSONRequest.new, hstatus]
  | null =>
    simp [ServiceConnection.body, ServiceConnection.tryBlock, huri, hpresent, hok, hread,
      ErrorReply, find_value_code_JSONRPCError, Value.get_int, JSONRequest.new, hstatus]

/-- C11, counterexample: the authenticated request whose body `not json` cannot be parsed
is answered with HTTP status 500, not 400. -/
theorem C11_unparseable_status_500 :
    ServiceConnection.authenticated exampleBuild (exampleHTTPRequest "not json") exampleNode
        = true
    ∧ exampleBuild.read_string "not json" = none
    ∧ replies (ServiceConnection.body exampleBuild (exampleHTTPRequest "not json")
          exampleNode).trace
        = [(500, JSONRPCReply exampleBuild Value.null
              (Value.obj (JSONRPCError RPC_PARSE_ERROR "Parse error")) Value.null, false)] :=
  ⟨by decide, rfl, rfl⟩

/-- C11, amended: an authenticated request to "/" whose body cannot be parsed as JSON, or
whose top-level JSON value is neither an object nor an array, is answered by `ErrorReply`
for the error `RPC_PARSE_ERROR`, with HTTP status 500; one whose single request object is
invalid (its `method` is not a string, or its `params` is neither an array nor null) is
answered with HTTP status 400. In each case there is one reply, its keep-alive is off and
the loop is left. -/
theorem C11_status_of_framing_error (B : Build) (req : HTTPRequest) (node : Node)
    (hauth : ServiceConnection.authenticated B req node = true) :
    (B.read_string req.strRequest = none →
      (ServiceConnection.body B req node).ret = LoopFlow.stop
      ∧ replies (ServiceConnection.body B req node).trace
        = [(HTTP_INTERNAL_SERVER_ERROR,
            JSONRPCReply B Value.null
              (Value.obj (JSONRPCError RPC_PARSE_ERROR "Parse error")) Value.null, false)])
    ∧ (∀ v : Value, B.read_string req.strRequest = some v →
        v.type ≠ Value_type.obj_type → v.type ≠ Value_type.array_type →
      (ServiceConnection.body B req node).ret = LoopFlow.stop
      ∧ replies (ServiceConnection.body B req node).trace
        = [(HTTP_INTERNAL_SERVER_ERROR,
            JSONRPCReply B Value.null
              (Value.obj (JSONRPCError RPC_PARSE_ERROR "Top-level object parse error"))
              Value.null, false)])
    ∧ (∀ members : Object, B.read_string req.strRequest = some (Value.obj members) →
        ((find_value members "method").type ≠ Value_type.str_type
          ∨ ((find_value members "params").type ≠ Value_type.array_type
            ∧ (find_value members "params").type ≠ Value_type.null_type)) →
      (ServiceConnection.body B req node).ret = LoopFlow.stop
      ∧ ∃ message : String,
          replies (ServiceConnection.body B req node).trace
            = [(HTTP_BAD_REQUEST,
                JSONRPCReply B Value.null
                  (Value.obj (JSONRPCError RPC_INVALID_REQUEST message))
                  (find_value members "id"), false)]) := by
  refine ⟨fun hread => ?_, fun v hread hobj harr => ?_, fun members hread hinvalid => ?_⟩
  · rw [body_unparseable B req node hauth hread]
    exact ⟨rfl, rfl⟩
  · rw [body_top_level_shape B req node v hauth hread hobj harr]
    exact ⟨rfl, rfl⟩
  · obtain ⟨message, jreq, hp⟩ := parse_fails_of_invalid members hinvalid
    obtain ⟨message2, ht, hbody⟩ :=
      body_single_parse_error B req node members jreq _ hauth hread hp
    have hid : jreq.id = find_value members "id" := by
      have := parse_id_of_obj JSONRequest.new members
      rw [hp] at this
      exact this
    rw [hbody, hid]
    exact ⟨rfl, message2, rfl⟩

/-- C11, amended, at the authenticated request whose body is the JSON number 5. -/
theorem C11_status_of_framing_error_witness :
    ServiceConnection.authenticated exampleBuild (exampleHTTPRequest "5") exampleNode = true
    ∧ replies (ServiceConnection.body exampleBuild (exampleHTTPRequest "5") exampleNode).trace
        = [(500, JSONRPCReply exampleBuild Value.null
              (Value.obj (JSONRPCError RPC_PARSE_ERROR "Top-level object parse error"))
              Value.null, false)] :=
  ⟨by decide,
    ((C11_status_of_framing_error exampleBuild (exampleHTTPRequest "5") exampleNode
      (by decide)).2.1 (Value.int 5) rfl (by decide) (by decide)).2⟩

/-- What `ServiceConnection` does with a connection whose first request makes the loop
body end in anything but `next`: it is what the body does, and no other request of the
connection is looked at. -/
theorem ServiceConnection_of_body_not_next (B : Build) (req : HTTPRequest)
    (rest : List HTTPRequest) (node : Node)
    (h : (ServiceConnection.body B req node).ret ≠ LoopFlow.next) :
    ServiceConnection B (req :: rest) node = ServiceConnection.body B req node := by
  unfold ServiceConnection
  cases hb : ServiceConnection.body B req node with
  | mk ret n tr =>
    rw [hb] at h
    cases ret with
    | next => exact absurd rfl h
    | stop => rfl
    | raised => rfl

/-- C12: a request to "/" that has no `Authorization` header, or whose header is rejected
by `HTTPAuthorized`, is answered with status 401 and keep-alive off; the only other
action can be the sleep before the reply, so the body is not parsed and no handler is
invoked whatever the body is; the node state is unchanged and no further request of the
connection is serviced. -/
theorem C12_unauthorized (B : Build) (req : HTTPRequest) (rest : List HTTPRequest)
    (node : Node) (huri : req.strURI = "/")
    (hrej : (map_find req.mapHeaders "authorization").isNone = true
      ∨ HTTPAuthorized B req.mapHeaders node = false) :
    ∃ sleep : List Event, (sleep = [] ∨ sleep = [Event.MilliSleep 250])
      ∧ ServiceConnection B (req :: rest) node
        = ⟨LoopFlow.stop, node, sleep ++ [Event.reply HTTP_UNAUTHORIZED "" false]⟩ := by
  have hbody : ∃ sleep : List Event, (sleep = [] ∨ sleep = [Event.MilliSleep 250])
      ∧ ServiceConnection.body B req node
        = ⟨LoopFlow.stop, node, sleep ++ [Event.reply HTTP_UNAUTHORIZED "" false]⟩ := by
    by_cases hnone : (map_find req.mapHeaders "authorization").isNone = true
    · exact ⟨[], Or.inl rfl, by simp [ServiceConnection.body, huri, hnone]⟩
    · have hauth : HTTPAuthorized B req.mapHeaders node = false := by
        rcases hrej with h | h
        · exact absurd h hnone
        · exact h
      by_cases hlen : node.rpcpassword.length < 20
      · exact ⟨[Event.MilliSleep 250], Or.inr rfl,
          by simp [ServiceConnection.body, huri, hnone, hauth, hlen]⟩
      · exact ⟨[], Or.inl rfl, by simp [ServiceConnection.body, huri, hnone, hauth, hlen]⟩
  obtain ⟨sleep, hsleep, hb⟩ := hbody
  refine ⟨sleep, hsleep, ?_⟩
  rw [ServiceConnection_of_body_not_next B req rest node (by rw [hb]; simp), hb]

/-- C12 at a connection whose first request carries a wrong credential and the text of a
`stop` request, followed by a second request. -/
theorem C12_unauthorized_witness :
    HTTPAuthorized exampleBuild [("authorization", "Basic d3Jvbmc=")] exampleNode = false
    ∧ ∃ sleep : List Event, (sleep = [] ∨ sleep = [Event.MilliSleep 250])
      ∧ ServiceConnection exampleBuild
          [{ strMethod := "POST", strURI := "/",
             mapHeaders := [("authorization", "Basic d3Jvbmc=")],
             strRequest := exampleText "stop" },
           exampleHTTPRequest (exampleText "getblockcount")] exampleNode
        = ⟨LoopFlow.stop, exampleNode, sleep ++ [Event.reply HTTP_UNAUTHORIZED "" false]⟩ :=
  ⟨by decide,
    C12_unauthorized exampleBuild
      { strMethod := "POST", strURI := "/",
        mapHeaders := [("authorization", "Basic d3Jvbmc=")],
        strRequest := exampleText "stop" }
      [exampleHTTPRequest (exampleText "getblockcount")] exampleNode rfl
      (Or.inr (by decide))⟩

/-- C15: a request whose URI is not "/" is answered with status 404 and keep-alive off,
and that is the only action: the headers are not examined, the body is not parsed, no
handler is invoked, the node state is unchanged and no further request of the connection
is serviced. -/
theorem C15_unknown_path (B : Build) (req : HTTPRequest) (rest : List HTTPRequest)
    (node : Node) (huri : req.strURI ≠ "/") :
    ServiceConnection B (req :: rest) node
      = ⟨LoopFlow.stop, node, [Event.reply HTTP_NOT_FOUND "" false]⟩ := by
  have hb : ServiceConnection.body B req node
      = ⟨LoopFlow.stop, node, [Event.reply HTTP_NOT_FOUND "" false]⟩ := by
    simp [ServiceConnection.body, huri]
  rw [ServiceConnection_of_body_not_next B req rest node (by rw [hb]; simp), hb]

/-- C15 at an authenticated `getblockcount` request sent to the path `/wallet`. -/
theorem C15_unknown_path_witness :
    ("/wallet" ≠ "/")
    ∧ ServiceConnection exampleBuild
        [{ exampleHTTPRequest (exampleText "getblockcount") with strURI := "/wallet" },
         exampleHTTPRequest (exampleText "getblockcount")] exampleNode
      = ⟨LoopFlow.stop, exampleNode, [Event.reply HTTP_NOT_FOUND "" false]⟩ :=
  ⟨by decide,
    C15_unknown_path exampleBuild
      { exampleHTTPRequest (exampleText "getblockcount") with strURI := "/wallet" }
      [exampleHTTPRequest (exampleText "getblockcount")] exampleNode (by decide)⟩

/-! ## Keep-alive -/

/-- The loop body for an authenticated request, in terms of its `try` block. -/
theorem body_of_authenticated (B : Build) (req : HTTPRequest) (node : Node)
    (hauth : ServiceConnection.authenticated B req node = true) :
    ServiceConnection.body B req node
      = match (ServiceConnection.tryBlock B (ServiceConnection.fRun req)
            req.strRequest node).ret with
        | (.ok (), _) =>
          ⟨if ServiceConnection.fRun req then LoopFlow.next else LoopFlow.stop,
            (ServiceConnection.tryBlock B (ServiceConnection.fRun req)
              req.strRequest node).node,
            (ServiceConnection.tryBlock B (ServiceConnection.fRun req)
              req.strRequest node).trace⟩
        | (.error (.object objError), jreq) =>
          match ErrorReply B objError jreq.id with
          | some written =>
            ⟨LoopFlow.stop,
              (ServiceConnection.tryBlock B (ServiceConnection.fRun req)
                req.strRequest node).node,
              (ServiceConnection.tryBlock B (ServiceConnection.fRun req)
                req.strRequest node).trace ++ written⟩
          | none =>
            ⟨LoopFlow.raised,
              (ServiceConnection.tryBlock B (ServiceConnection.fRun req)
                req.strRequest node).node,
              (ServiceConnection.tryBlock B (ServiceConnection.fRun req)
                req.strRequest node).trace⟩
        | (.error (.exception what), jreq) =>
          match ErrorReply B (JSONRPCError RPC_PARSE_ERROR what) jreq.id with
          | some written =>
            ⟨LoopFlow.stop,
              (ServiceConnection.tryBlock B (ServiceConnection.fRun req)
                req.strRequest node).node,
              (ServiceConnection.tryBlock B (ServiceConnection.fRun req)
                req.strRequest node).trace ++ written⟩
          | none =>
            ⟨LoopFlow.raised,
              (ServiceConnection.tryBlock B (ServiceConnection.fRun req)
                req.strRequest node).node,
              (ServiceConnection.tryBlock B (ServiceConnection.fRun req)
                req.strRequest node).trace⟩ := by
  obtain ⟨huri, hpresent, hok⟩ := (authenticated_iff B req node).1 hauth
  simp only [ServiceConnection.body, huri, hpresent, hok]
  simp

/-- The `try` block writes one reply, with status 200 and keep-alive `fRun`, when it
completes, and none when it throws. -/
theorem replies_tryBlock (B : Build) (fRun : Bool) (strRequest : String) (node : Node) :
    ((ServiceConnection.tryBlock B fRun strRequest node).ret.1 = .ok () →
      ∃ strReply, replies (ServiceConnection.tryBlock B fRun strRequest node).trace
        = [(HTTP_OK, strReply, fRun)])
    ∧ (∀ t, (ServiceConnection.tryBlock B fRun strRequest node).ret.1 = .error t →
      replies (ServiceConnection.tryBlock B fRun strRequest node).trace = []) := by
  unfold ServiceConnection.tryBlock
  simp only
  split
  · exact ⟨fun h => by simp at h, fun t _ => rfl⟩
  · split
    · split
      · exact ⟨fun h => by simp at h, fun t _ => rfl⟩
      · split
        · refine ⟨fun h => by simp at h, fun t _ => ?_⟩
          simp [replies, replies_execute]
        · refine ⟨fun _ => ?_, fun t h => by simp at h⟩
          simp [replies, replies_append, replies_execute]
    · refine ⟨fun _ => ?_, fun t h => by simp at h⟩
      simp [replies, replies_append, JSONRPCExecBatch, replies_JSONRPCExecBatch_ret]
    · exact ⟨fun h => by simp at h, fun t _ => rfl⟩

/-- Every reply that `ErrorReply` writes has keep-alive off. -/
theorem replies_ErrorReply (B : Build) (objError : Object) (id : Value)
    (written : List Event) (h : ErrorReply B objError id = some written) :
    ∀ r ∈ replies written, r.2.2 = false := by
  unfold ErrorReply at h
  split at h
  · exact absurd h (by simp)
  · have hw := Option.some.inj h
    subst hw
    intro r hr
    simp [replies] at hr
    rw [hr]

/-- C14, counterexample: an authenticated request without `Connection` header whose
method is not registered is answered with status 404 by `ErrorReply`, and the loop is
left: the `getblockcount` request that follows on the connection is not serviced. -/
theorem C14_error_reply_ends_loop :
    map_index (exampleHTTPRequest (exampleText "nosuchmethod")).mapHeaders "connection"
        ≠ "close"
    ∧ (ServiceConnection exampleBuild
        [exampleHTTPRequest (exampleText "nosuchmethod"),
         exampleHTTPRequest (exampleText "getblockcount")] exampleNode).ret = LoopFlow.stop
    ∧ replies (ServiceConnection exampleBuild
        [exampleHTTPRequest (exampleText "nosuchmethod"),
         exampleHTTPRequest (exampleText "getblockcount")] exampleNode).trace
      = [(404, JSONRPCReply exampleBuild Value.null
            (Value.obj (JSONRPCError RPC_METHOD_NOT_FOUND "Method not found"))
            (Value.int 1), false)] :=
  ⟨by decide, rfl, rfl⟩

/-- C14, amended: for an authenticated request to "/": when it carries the header
`Connection: close`, every reply to it has keep-alive off and the loop ends without
reading another request; when it does not and its `try` block completes (a batch, or a
single request that succeeded), it is answered with status 200 and keep-alive on, and
the next request of the connection is read and serviced in the state this one left; when
its `try` block throws, whatever the header, the loop ends without reading another
request and every reply has keep-alive off. -/
theorem C14_connection_reuse (B : Build) (req : HTTPRequest) (rest : List HTTPRequest)
    (node : Node) (hauth : ServiceConnection.authenticated B req node = true) :
    (map_index req.mapHeaders "connection" = "close" →
      ServiceConnection B (req :: rest) node = ServiceConnection.body B req node
      ∧ (ServiceConnection.body B req node).ret ≠ LoopFlow.next
      ∧ ∀ r ∈ replies (ServiceConnection.body B req node).trace, r.2.2 = false)
    ∧ (map_index req.mapHeaders "connection" ≠ "close" →
        (ServiceConnection.tryBlock B true req.strRequest node).ret.1 = .ok () →
      (ServiceConnection.body B req node).ret = LoopFlow.next
      ∧ (∃ strReply, replies (ServiceConnection.body B req node).trace
          = [(HTTP_OK, strReply, true)])
      ∧ ServiceConnection B (req :: rest) node
        = ⟨(ServiceConnection B rest (ServiceConnection.body B req node).node).ret,
            (ServiceConnection B rest (ServiceConnection.body B req node).node).node,
            (ServiceConnection.body B req node).trace
              ++ (ServiceConnection B rest (ServiceConnection.body B req node).node).trace⟩)
    ∧ (∀ t : Thrown,
        (ServiceConnection.tryBlock B (ServiceConnection.fRun req) req.strRequest node).ret.1
          = .error t →
      ServiceConnection B (req :: rest) node = ServiceConnection.body B req node
      ∧ (ServiceConnection.body B req node).ret ≠ LoopFlow.next
      ∧ ∀ r ∈ replies (ServiceConnection.body B req node).trace, r.2.2 = false) := by
  have hbody := body_of_authenticated B req node hauth
  have hrep := replies_tryBlock B (ServiceConnection.fRun req) req.strRequest node
  -- the three outcomes of the `try` block
  have herror : ∀ t : Thrown,
      (ServiceConnection.tryBlock B (ServiceConnection.fRun req) req.strRequest node).ret.1
        = .error t →
      (ServiceConnection.body B req node).ret ≠ LoopFlow.next
      ∧ ∀ r ∈ replies (ServiceConnection.body B req node).trace, r.2.2 = false := by
    intro t ht
    have hnone := hrep.2 t ht
    rcases hret : (ServiceConnection.tryBlock B (ServiceConnection.fRun req)
        req.strRequest node).ret with ⟨outcome, jreq⟩
    rw [hret] at ht hbody
    simp only at ht
    subst ht
    cases t with
    | object objError =>
      simp only at hbody
      cases hER : ErrorReply B objError jreq.id with
      | none =>
        rw [hER] at hbody
        rw [hbody]
        exact ⟨by simp, fun r hr => by simp [hnone] at hr⟩
      | some written =>
        rw [hER] at hbody
        rw [hbody]
        refine ⟨by simp, fun r hr => ?_⟩
        simp only [replies_append, hnone, List.nil_append] at hr
        exact replies_ErrorReply B objError jreq.id written hER r hr
    | exception what =>
      simp only at hbody
      cases hER : ErrorReply B (JSONRPCError RPC_PARSE_ERROR what) jreq.id with
      | none =>
        rw [hER] at hbody
        rw [hbody]
        exact ⟨by simp, fun r hr => by simp [hnone] at hr⟩
      | some written =>
        rw [hER] at hbody
        rw [hbody]
        refine ⟨by simp, fun r hr => ?_⟩
        simp only [replies_append, hnone, List.nil_append] at hr
        exact replies_ErrorReply B _ jreq.id written hER r hr
  have hok : (ServiceConnection.tryBlock B (ServiceConnection.fRun req)
        req.strRequest node).ret.1 = .ok () →
      (ServiceConnection.body B req node).ret
        = (if ServiceConnection.fRun req then LoopFlow.next else LoopFlow.stop)
      ∧ ∃ strReply, replies (ServiceConnection.body B req node).trace
          = [(HTTP_OK, strReply, ServiceConnection.fRun req)] := by
    intro h
    obtain ⟨strReply, hr⟩ := hrep.1 h
    rcases hret : (ServiceConnection.tryBlock B (ServiceConnection.fRun req)
        req.strRequest node).ret with ⟨outcome, jreq⟩
    rw [hret] at h hbody
    simp only at h
    subst h
    simp only at hbody
    rw [hbody]
    exact ⟨rfl, strReply, hr⟩
  refine ⟨fun hclose => ?_, fun hopen htry => ?_, fun t ht => ?_⟩
  · have hfRun : ServiceConnection.fRun req = false := by
      simp [ServiceConnection.fRun, hclose]
    have hkey : (ServiceConnection.body B req node).ret ≠ LoopFlow.next
        ∧ ∀ r ∈ replies (ServiceConnection.body B req node).trace, r.2.2 = false := by
      cases hout : (ServiceConnection.tryBlock B (ServiceConnection.fRun req)
          req.strRequest node).ret.1 with
      | error t => exact herror t hout
      | ok u =>
        obtain ⟨hret, strReply, hr⟩ := hok hout
        rw [hfRun] at hret hr
        refine ⟨by rw [hret]; simp, fun r hmem => ?_⟩
        rw [hr] at hmem
        simp at hmem
        rw [hmem]
    exact ⟨ServiceConnection_of_body_not_next B req rest node hkey.1, hkey.1, hkey.2⟩
  · have hfRun : ServiceConnection.fRun req = true := by
      simp [ServiceConnection.fRun, hopen]
    rw [← hfRun] at htry
    obtain ⟨hret, strReply, hr⟩ := hok htry
    rw [hfRun] at hret hr
    simp only [if_true] at hret
    refine ⟨hret, ⟨strReply, hr⟩, ?_⟩
    conv_lhs => unfold ServiceConnection
    simp only [hret]
  · obtain ⟨h1, h2⟩ := herror t ht
    exact ⟨ServiceConnection_of_body_not_next B req rest node h1, h1, h2⟩

/-- C14, amended, at an authenticated `getblockcount` request without `Connection`
header that is followed by a second request: the loop reads on, and the connection gets
the replies to both. -/
theorem C14_connection_reuse_witness :
    ServiceConnection.authenticated exampleBuild
        (exampleHTTPRequest (exampleText "getblockcount")) exampleNode = true
    ∧ (ServiceConnection.body exampleBuild
        (exampleHTTPRequest (exampleText "getblockcount")) exampleNode).ret = LoopFlow.next
    ∧ ServiceConnection exampleBuild
        [exampleHTTPRequest (exampleText "getblockcount"),
         exampleHTTPRequest (exampleText "nosuchmethod")] exampleNode
      = ⟨(ServiceConnection exampleBuild [exampleHTTPRequest (exampleText "nosuchmethod")]
            exampleNode).ret,
          (ServiceConnection exampleBuild [exampleHTTPRequest (exampleText "nosuchmethod")]
            exampleNode).node,
          (ServiceConnection.body exampleBuild
            (exampleHTTPRequest (exampleText "getblockcount")) exampleNode).trace
            ++ (ServiceConnection exampleBuild
                [exampleHTTPRequest (exampleText "nosuchmethod")] exampleNode).trace⟩ :=
  ⟨by decide,
    ((C14_connection_reuse exampleBuild (exampleHTTPRequest (exampleText "getblockcount"))
      [exampleHTTPRequest (exampleText "nosuchmethod")] exampleNode (by decide)).2.1
      (by decide) rfl).1,
    ((C14_connection_reuse exampleBuild (exampleHTTPRequest (exampleText "getblockcount"))
      [exampleHTTPRequest (exampleText "nosuchmethod")] exampleNode (by decide)).2.1
      (by decide) rfl).2.2⟩

/-! ## Authorization -/

theorem lor_eq_zero_iff (a b : Nat) : a ||| b = 0 ↔ a = 0 ∧ b = 0 := by
  constructor
  · intro h
    have hbits : ∀ i, a.testBit i = false ∧ b.testBit i = false := by
      intro i
      have := congrArg (fun n => n.testBit i) h
      simpa [Nat.testBit_or] using this
    exact ⟨Nat.eq_of_testBit_eq (fun i => by simp [(hbits i).1]),
      Nat.eq_of_testBit_eq (fun i => by simp [(hbits i).2])⟩
  · rintro ⟨rfl, rfl⟩
    rfl

/-- An accumulator that collects differences with `|=` is zero at the end exactly when
it was zero at the start and every collected difference was zero. -/
theorem foldl_lor_eq_zero_iff (f : Nat → Nat) (l : List Nat) (init : Nat) :
    l.foldl (fun acc i => acc ||| f i) init = 0 ↔ init = 0 ∧ ∀ i ∈ l, f i = 0 := by
  induction l generalizing init with
  | nil => simp
  | cons x rest ih =>
    rw [List.foldl_cons, ih, lor_eq_zero_iff]
    simp [and_assoc]

theorem Char.eq_of_toNat_eq (c d : Char) (h : c.toNat = d.toNat) : c = d := by
  apply Char.ext
  apply UInt32.ext
  exact h

theorem eq_of_getD_eq (l m : List Char) (hlen : l.length = m.length)
    (h : ∀ i, i < l.length → l.getD i ' ' = m.getD i ' ') : l = m := by
  apply List.ext_getElem hlen
  intro i h1 h3
  have := h i h1
  simpa [List.getD_eq_getElem?_getD, List.getElem?_eq_getElem h1,
    List.getElem?_eq_getElem h3] using this

/-- The comparison `TimingResistantEqual` decides equality of strings. -/
theorem TimingResistantEqual_iff (a b : String) : TimingResistantEqual a b = true ↔ a = b := by
  unfold TimingResistantEqual
  by_cases hb : b.data.length = 0
  · have hbnil : b.data = [] := List.length_eq_zero.mp hb
    simp only [hb, if_true, decide_eq_true_eq]
    constructor
    · intro ha
      exact String.ext ((List.length_eq_zero.mp ha).trans hbnil.symm)
    · intro hab
      rw [hab, hb]
  · simp only [hb, if_false, decide_eq_true_eq]
    rw [foldl_lor_eq_zero_iff
      (fun i => (a.data.getD i ' ').toNat ^^^ (b.data.getD (i % b.data.length) ' ').toNat)]
    constructor
    · rintro ⟨hlen, hall⟩
      have hlen2 : a.data.length = b.data.length := Nat.xor_eq_zero.mp hlen
      apply String.ext
      apply eq_of_getD_eq a.data b.data hlen2
      intro i hi
      have := hall i (List.mem_range.mpr hi)
      have hmod : i % b.data.length = i := Nat.mod_eq_of_lt (hlen2 ▸ hi)
      rw [hmod] at this
      exact Char.eq_of_toNat_eq _ _ (Nat.xor_eq_zero.mp this)
    · intro hab
      subst hab
      refine ⟨Nat.xor_self _, fun i hi => ?_⟩
      have hi2 : i < a.data.length := List.mem_range.mp hi
      simp only [Nat.mod_eq_of_lt hi2]
      exact Nat.xor_self _

/-- A string begins with "Basic " exactly when its first six characters are "Basic ";
what follows them is `substrFrom s 6`. -/
theorem substr_Basic_iff (s : String) :
    substr s 0 6 = "Basic " ↔ ∃ rest : String, s = "Basic " ++ rest := by
  constructor
  · intro h
    refine ⟨substrFrom s 6, ?_⟩
    apply String.ext
    have hd : s.data.take 6 = "Basic ".data := by
      have := congrArg String.data h
      simpa [substr] using this
    rw [String.data_append, ← hd]
    simp [substrFrom]
  · rintro ⟨rest, rfl⟩
    apply String.ext
    simp [substr, String.data_append]

theorem substrFrom_Basic (rest : String) : substrFrom ("Basic " ++ rest) 6 = rest := by
  apply String.ext
  simp [substrFrom, String.data_append]

/-- C13: `HTTPAuthorized` returns true if and only if the value of the `Authorization`
header begins with the six characters "Basic " and the base64 decoding of the rest,
trimmed of white space, is the credential string, character for character and in
length; a value that does not begin with "Basic ", in this spelling, is rejected
whatever follows. -/
theorem C13_HTTPAuthorized_iff (B : Build) (mapHeaders : List (String × String))
    (node : Node) :
    (HTTPAuthorized B mapHeaders node = true
      ↔ ∃ rest : String, map_index mapHeaders "authorization" = "Basic " ++ rest
          ∧ B.DecodeBase64 (trim rest) = node.strRPCUserColonPass)
    ∧ (substr (map_index mapHeaders "authorization") 0 6 ≠ "Basic " →
        HTTPAuthorized B mapHeaders node = false) := by
  constructor
  · unfold HTTPAuthorized
    simp only
    constructor
    · intro h
      by_cases hb : substr (map_index mapHeaders "authorization") 0 6 = "Basic "
      · obtain ⟨rest, hrest⟩ := (substr_Basic_iff _).1 hb
        refine ⟨rest, hrest, ?_⟩
        simp only [hb, ne_eq, not_true_eq_false, if_false] at h
        rw [hrest, substrFrom_Basic] at h
        exact (TimingResistantEqual_iff _ _).1 h
      · simp [hb] at h
    · rintro ⟨rest, hrest, hdec⟩
      have hb : substr (map_index mapHeaders "authorization") 0 6 = "Basic " :=
        (substr_Basic_iff _).2 ⟨rest, hrest⟩
      simp only [hb, ne_eq, not_true_eq_false, if_false]
      rw [hrest, substrFrom_Basic]
      exact (TimingResistantEqual_iff _ _).2 hdec
  · intro h
    simp [HTTPAuthorized, h]

/-- C13 at four header values for a node whose credential is `user:pass`: the scheme
`basic `, the scheme `Bearer ` and `Basic` without the space are rejected although the
encoded credential is right; `Basic ` followed by it is accepted. -/
theorem C13_HTTPAuthorized_iff_witness :
    HTTPAuthorized exampleBuild [("authorization", "basic dXNlcjpwYXNz")] exampleNode = false
    ∧ HTTPAuthorized exampleBuild [("authorization", "Bearer dXNlcjpwYXNz")] exampleNode
        = false
    ∧ HTTPAuthorized exampleBuild [("authorization", "BasicdXNlcjpwYXNz")] exampleNode
        = false
    ∧ HTTPAuthorized exampleBuild [("authorization", "Basic dXNlcjpwYXNz")] exampleNode
        = true :=
  ⟨(C13_HTTPAuthorized_iff exampleBuild [("authorization", "basic dXNlcjpwYXNz")]
      exampleNode).2 (by decide),
    (C13_HTTPAuthorized_iff exampleBuild [("authorization", "Bearer dXNlcjpwYXNz")]
      exampleNode).2 (by decide),
    (C13_HTTPAuthorized_iff exampleBuild [("authorization", "BasicdXNlcjpwYXNz")]
      exampleNode).2 (by decide),
    (C13_HTTPAuthorized_iff exampleBuild [("authorization", "Basic dXNlcjpwYXNz")]
      exampleNode).1.2 ⟨"dXNlcjpwYXNz", by decide, by decide⟩⟩

/-! ## The allow policy for peer addresses -/

theorem ClientAllowed_v4 (WildcardMatch : String → String → Bool)
    (to_string : address → String) (node : Node) (a : address_v4) :
    ClientAllowed WildcardMatch to_string node (.v4 a)
      = ClientAllowed.check WildcardMatch to_string node (.v4 a) := by
  rw [ClientAllowed]

theorem ClientAllowed_v6_of_not_v4 (WildcardMatch : String → String → Bool)
    (to_string : address → String) (node : Node) (a : address_v6)
    (h : (a.is_v4_compatible || a.is_v4_mapped) = false) :
    ClientAllowed WildcardMatch to_string node (.v6 a)
      = ClientAllowed.check WildcardMatch to_string node (.v6 a) := by
  rw [ClientAllowed]
  simp [h]

/-- The normalisation of an IPv4-mapped or IPv4-compatible address takes one step: the
recursive call is made on an IPv4 address, for which `ClientAllowed` does not recurse. -/
theorem ClientAllowed_v6_of_v4 (WildcardMatch : String → String → Bool)
    (to_string : address → String) (node : Node) (a : address_v6)
    (h : (a.is_v4_compatible || a.is_v4_mapped) = true) :
    ClientAllowed WildcardMatch to_string node (.v6 a)
      = ClientAllowed.check WildcardMatch to_string node (.v4 a.to_v4) := by
  rw [ClientAllowed]
  simp only [h, if_true]
  exact ClientAllowed_v4 _ _ _ _

theorem and_mask_high_byte (a r : Nat) (hr : r < 2 ^ 24) :
    (2 ^ 24 * a + r) &&& 0xff000000 = 2 ^ 24 * (a &&& 255) := by
  apply Nat.eq_of_testBit_eq
  intro j
  have hM : (0xff000000 : Nat) = 2 ^ 24 * 255 + 0 := by norm_num
  have h2 : 2 ^ 24 * (a &&& 255) = 2 ^ 24 * (a &&& 255) + 0 := by simp
  rw [Nat.testBit_and, hM, h2, Nat.testBit_mul_pow_two_add _ hr,
    Nat.testBit_mul_pow_two_add _ (by norm_num : 0 < 2 ^ 24),
    Nat.testBit_mul_pow_two_add _ (by norm_num : 0 < 2 ^ 24)]
  by_cases hj : j < 24 <;> simp [hj, Nat.testBit_and]

/-- The mask test of `ClientAllowed` on a well-formed IPv4 address holds exactly for the
addresses of 127.0.0.0/8, those whose first byte is 127. -/
theorem to_ulong_mask_iff (a : address_v4) (hwf : (address.v4 a).wellFormed = true) :
    a.to_ulong &&& 0xff000000 = 0x7f000000 ↔ a.b0 = 127 := by
  simp only [address.wellFormed, Bool.and_eq_true, decide_eq_true_eq] at hwf
  obtain ⟨⟨⟨h0, h1⟩, h2⟩, h3⟩ := hwf
  have hsplit : a.to_ulong = 2 ^ 24 * a.b0 + ((a.b1 * 256 + a.b2) * 256 + a.b3) := by
    unfold address_v4.to_ulong
    ring
  have hr : (a.b1 * 256 + a.b2) * 256 + a.b3 < 2 ^ 24 := by
    norm_num
    omega
  have hb : a.b0 &&& 255 = a.b0 := by
    have := Nat.and_pow_two_sub_one_eq_mod a.b0 8
    norm_num at this
    rw [this]
    omega
  rw [hsplit, and_mask_high_byte _ _ hr, hb]
  norm_num
  omega

/-- The bytes that `to_v4` takes from a well-formed IPv6 address form a well-formed IPv4
address. -/
theorem wellFormed_to_v4 (a : address_v6) (hwf : (address.v6 a).wellFormed = true) :
    (address.v4 a.to_v4).wellFormed = true := by
  simp only [address.wellFormed, Bool.and_eq_true, decide_eq_true_eq, List.all_eq_true]
    at hwf
  obtain ⟨hlen, hall⟩ := hwf
  have hget : ∀ i, a.bytes.getD i 0 < 256 := by
    intro i
    by_cases hi : i < a.bytes.length
    · rw [List.getD_eq_getElem _ _ hi]
      exact hall _ (List.getElem_mem _)
    · rw [List.getD_eq_default _ _ (by omega)]
      norm_num
  simp only [address.wellFormed, address_v6.to_v4, Bool.and_eq_true, decide_eq_true_eq]
  exact ⟨⟨⟨hget 12, hget 13⟩, hget 14⟩, hget 15⟩

theorem check_of_loopback_subnet (WildcardMatch : String → String → Bool)
    (to_string : address → String) (node : Node) (a : address_v4)
    (hwf : (address.v4 a).wellFormed = true) (h127 : a.b0 = 127) :
    ClientAllowed.check WildcardMatch to_string node (.v4 a) = true := by
  unfold ClientAllowed.check
  have := (to_ulong_mask_iff a hwf).2 h127
  simp [this]

theorem check_of_not_loopback_v4 (WildcardMatch : String → String → Bool)
    (to_string : address → String) (node : Node) (a : address_v4)
    (hwf : (address.v4 a).wellFormed = true) (h127 : a.b0 ≠ 127) :
    ClientAllowed.check WildcardMatch to_string node (.v4 a)
      = node.rpcallowip.any (fun strAllow => WildcardMatch (to_string (.v4 a)) strAllow) := by
  unfold ClientAllowed.check
  have hmask : ¬ (a.to_ulong &&& 0xff000000 = 0x7f000000) :=
    fun h => h127 ((to_ulong_mask_iff a hwf).1 h)
  have hne : a ≠ address_v4.loopback := by
    intro h
    rw [h] at h127
    exact h127 rfl
  simp [hmask, hne]

/-- C16: `ClientAllowed` returns true for 127.0.0.1, for ::1 and for ::ffff:127.0.0.1,
for every IPv4 address of 127.0.0.0/8 and for the IPv4-mapped or IPv4-compatible IPv6
form of such an address, whatever the `-rpcallowip` list of the node; the normalisation
of a mapped or compatible IPv6 address is one recursive call, made on an IPv4 address,
on which `ClientAllowed` runs its checks without recursing. -/
theorem C16_loopback_allowed (WildcardMatch : String → String → Bool)
    (to_string : address → String) (node : Node) :
    ClientAllowed WildcardMatch to_string node (.v4 address_v4.loopback) = true
    ∧ ClientAllowed WildcardMatch to_string node (.v6 address_v6.loopback) = true
    ∧ ClientAllowed WildcardMatch to_string node exampleMappedLoopback = true
    ∧ (∀ a : address_v4, (address.v4 a).wellFormed = true → a.b0 = 127 →
        ClientAllowed WildcardMatch to_string node (.v4 a) = true)
    ∧ (∀ a : address_v6, (address.v6 a).wellFormed = true →
        (a.is_v4_mapped = true ∨ a.is_v4_compatible = true) → a.to_v4.b0 = 127 →
        ClientAllowed WildcardMatch to_string node (.v6 a) = true)
    ∧ (∀ a : address_v6, (a.is_v4_mapped = true ∨ a.is_v4_compatible = true) →
        ClientAllowed WildcardMatch to_string node (.v6 a)
          = ClientAllowed WildcardMatch to_string node (.v4 a.to_v4)
        ∧ ClientAllowed WildcardMatch to_string node (.v4 a.to_v4)
          = ClientAllowed.check WildcardMatch to_string node (.v4 a.to_v4)) := by
  have hnorm : ∀ a : address_v6, (a.is_v4_mapped = true ∨ a.is_v4_compatible = true) →
      (a.is_v4_compatible || a.is_v4_mapped) = true := by
    intro a h
    rcases h with h | h <;> simp [h]
  have hv6 : ∀ a : address_v6, (address.v6 a).wellFormed = true →
      (a.is_v4_mapped = true ∨ a.is_v4_compatible = true) → a.to_v4.b0 = 127 →
      ClientAllowed WildcardMatch to_string node (.v6 a) = true := by
    intro a hwf hm h127
    rw [ClientAllowed_v6_of_v4 _ _ _ a (hnorm a hm)]
    exact check_of_loopback_subnet _ _ _ _ (wellFormed_to_v4 a hwf) h127
  refine ⟨?_, ?_, ?_, ?_, hv6, ?_⟩
  · rw [ClientAllowed_v4]
    exact check_of_loopback_subnet _ _ _ _ (by decide) rfl
  · rw [ClientAllowed_v6_of_not_v4 _ _ _ _ (by decide)]
    simp [ClientAllowed.check]
  · exact hv6 _ (by decide) (Or.inl (by decide)) rfl
  · intro a hwf h127
    rw [ClientAllowed_v4]
    exact check_of_loopback_subnet _ _ _ _ hwf h127
  · intro a hm
    rw [ClientAllowed_v6_of_v4 _ _ _ a (hnorm a hm), ClientAllowed_v4]
    exact ⟨rfl, rfl⟩

/-- C16 at the address 127.5.6.7 and at its IPv4-compatible form ::127.5.6.7, for a node
with an empty allow-list. -/
theorem C16_loopback_allowed_witness :
    exampleNode.rpcallowip = []
    ∧ ClientAllowed exampleWildcardMatch exampleToString exampleNode
        (.v4 { b0 := 127, b1 := 5, b2 := 6, b3 := 7 }) = true
    ∧ ClientAllowed exampleWildcardMatch exampleToString exampleNode
        (.v6 { bytes := [0, 0, 0, 0, 0, 0, 0, 0, 0, 0, 0, 0, 127, 5, 6, 7], scope_id := 0 })
        = true :=
  ⟨rfl,
    (C16_loopback_allowed exampleWildcardMatch exampleToString exampleNode).2.2.2.1
      { b0 := 127, b1 := 5, b2 := 6, b3 := 7 } (by decide) rfl,
    (C16_loopback_allowed exampleWildcardMatch exampleToString exampleNode).2.2.2.2.1
      { bytes := [0, 0, 0, 0, 0, 0, 0, 0, 0, 0, 0, 0, 127, 5, 6, 7], scope_id := 0 }
      (by decide) (Or.inr (by decide)) rfl⟩

/-- C17: for a peer address that is not a loopback address, `ClientAllowed` returns true
if and only if the text of the address wildcard-matches one of the `-rpcallowip`
patterns, where the text is that of the IPv4 address when the peer address is an
IPv4-mapped or IPv4-compatible IPv6 address; with an empty list it returns false. -/
theorem C17_allow_list (WildcardMatch : String → String → Bool)
    (to_string : address → String) (node : Node) :
    (∀ a : address_v4, (address.v4 a).wellFormed = true → a.b0 ≠ 127 →
      (ClientAllowed WildcardMatch to_string node (.v4 a) = true
        ↔ ∃ strAllow ∈ node.rpcallowip,
            WildcardMatch (to_string (.v4 a)) strAllow = true)
      ∧ (node.rpcallowip = [] →
          ClientAllowed WildcardMatch to_string node (.v4 a) = false))
    ∧ (∀ a : address_v6, (address.v6 a).wellFormed = true →
        (a.is_v4_mapped = true ∨ a.is_v4_compatible = true) → a.to_v4.b0 ≠ 127 →
      (ClientAllowed WildcardMatch to_string node (.v6 a) = true
        ↔ ∃ strAllow ∈ node.rpcallowip,
            WildcardMatch (to_string (.v4 a.to_v4)) strAllow = true)
      ∧ (node.rpcallowip = [] →
          ClientAllowed WildcardMatch to_string node (.v6 a) = false))
    ∧ (∀ a : address_v6, a.is_v4_mapped = false → a.is_v4_compatible = false →
        a ≠ address_v6.loopback →
      (ClientAllowed WildcardMatch to_string node (.v6 a) = true
        ↔ ∃ strAllow ∈ node.rpcallowip,
            WildcardMatch (to_string (.v6 a)) strAllow = true)
      ∧ (node.rpcallowip = [] →
          ClientAllowed WildcardMatch to_string node (.v6 a) = false)) := by
  refine ⟨fun a hwf h127 => ?_, fun a hwf hm h127 => ?_, fun a hmap hcompat hne => ?_⟩
  · rw [ClientAllowed_v4, check_of_not_loopback_v4 _ _ _ a hwf h127]
    exact ⟨by simp [List.any_eq_true], fun hempty => by simp [hempty]⟩
  · have hnorm : (a.is_v4_compatible || a.is_v4_mapped) = true := by
      rcases hm with h | h <;> simp [h]
    rw [ClientAllowed_v6_of_v4 _ _ _ a hnorm,
      check_of_not_loopback_v4 _ _ _ a.to_v4 (wellFormed_to_v4 a hwf) h127]
    exact ⟨by simp [List.any_eq_true], fun hempty => by simp [hempty]⟩
  · rw [ClientAllowed_v6_of_not_v4 _ _ _ a (by simp [hmap, hcompat])]
    have hcheck : ClientAllowed.check WildcardMatch to_string node (.v6 a)
        = node.rpcallowip.any
            (fun strAllow => WildcardMatch (to_string (.v6 a)) strAllow) := by
      simp [ClientAllowed.check, hne]
    rw [hcheck]
    exact ⟨by simp [List.any_eq_true], fun hempty => by simp [hempty]⟩

/-- C17 at the peer 192.168.1.7: it is allowed by the pattern `192.168.1.*` and rejected
by an empty allow-list. -/
theorem C17_allow_list_witness :
    ClientAllowed exampleWildcardMatch exampleToString
        { exampleNode with rpcallowip := ["192.168.1.*"] } examplePeer = true
    ∧ ClientAllowed exampleWildcardMatch exampleToString exampleNode examplePeer = false :=
  ⟨((C17_allow_list exampleWildcardMatch exampleToString
        { exampleNode with rpcallowip := ["192.168.1.*"] }).1
        { b0 := 192, b1 := 168, b2 := 1, b3 := 7 } (by decide) (by decide)).1.2
      ⟨"192.168.1.*", by decide, by decide⟩,
    ((C17_allow_list exampleWildcardMatch exampleToString exampleNode).1
        { b0 := 192, b1 := 168, b2 := 1, b3 := 7 } (by decide) (by decide)).2 rfl⟩

/-- C18: for a connection that was accepted without error and whose peer address
`ClientAllowed` rejects, `RPCAcceptHandler` does not call `ServiceConnection`: whatever
requests wait on the connection, its only actions are the start of the next accept, the
HTTP 403 reply, written exactly when TLS is not in use, and the release of the
connection; the node state is unchanged. -/
theorem C18_disallowed_peer (B : Build) (WildcardMatch : String → String → Bool)
    (to_string : address → String) (is_open fUseSSL : Bool) (peer : address)
    (incoming : List HTTPRequest) (node : Node)
    (hrej : ClientAllowed WildcardMatch to_string node peer = false) :
    RPCAcceptHandler B WildcardMatch to_string is_open fUseSSL (some peer) incoming
        error_code.success node
      = ⟨LoopFlow.stop, node,
          (if is_open then [Event.RPCListen] else [])
            ++ (if fUseSSL then [] else [Event.reply HTTP_FORBIDDEN "" false])
            ++ [Event.delete_conn]⟩
    ∧ (replies (RPCAcceptHandler B WildcardMatch to_string is_open fUseSSL (some peer)
          incoming error_code.success node).trace
        = if fUseSSL then [] else [(HTTP_FORBIDDEN, "", false)])
    ∧ calls (RPCAcceptHandler B WildcardMatch to_string is_open fUseSSL (some peer)
          incoming error_code.success node).trace = [] := by
  have hmain : RPCAcceptHandler B WildcardMatch to_string is_open fUseSSL (some peer) incoming
        error_code.success node
      = ⟨LoopFlow.stop, node,
          (if is_open then [Event.RPCListen] else [])
            ++ (if fUseSSL then [] else [Event.reply HTTP_FORBIDDEN "" false])
            ++ [Event.delete_conn]⟩ := by
    cases is_open <;> cases fUseSSL <;> simp [RPCAcceptHandler, hrej]
  rw [hmain]
  refine ⟨rfl, ?_, ?_⟩
  · cases is_open <;> cases fUseSSL <;> rfl
  · cases is_open <;> cases fUseSSL <;> rfl

/-- C18 at the peer 192.168.1.7 on a node with an empty allow-list, without TLS, with a
`stop` request waiting on the connection: the 403 reply is written, the request is not
serviced. -/
theorem C18_disallowed_peer_witness :
    ClientAllowed exampleWildcardMatch exampleToString exampleNode examplePeer = false
    ∧ RPCAcceptHandler exampleBuild exampleWildcardMatch exampleToString true false
        (some examplePeer) [exampleHTTPRequest (exampleText "stop")] error_code.success
        exampleNode
      = ⟨LoopFlow.stop, exampleNode,
          [Event.RPCListen, Event.reply HTTP_FORBIDDEN "" false, Event.delete_conn]⟩ :=
  ⟨by simp [ClientAllowed, ClientAllowed.check, examplePeer, exampleNode,
      address_v4.loopback, address_v4.to_ulong]; decide,
    (C18_disallowed_peer exampleBuild exampleWildcardMatch exampleToString true false
      examplePeer [exampleHTTPRequest (exampleText "stop")] exampleNode
      (by simp [ClientAllowed, ClientAllowed.check, examplePeer, exampleNode,
        address_v4.loopback, address_v4.to_ulong]; decide)).1⟩

/-! ## The command table is the list -/

theorem map_assign_of_absent {α : Type} (m : List (String × α)) (k : String) (v : α)
    (h : k ∉ m.map Prod.fst) : map_assign m k v = m ++ [(k, v)] := by
  induction m with
  | nil => rfl
  | cons p rest ih =>
    obtain ⟨k0, v0⟩ := p
    simp only [List.map_cons, List.mem_cons, not_or] at h
    have hk : ¬ k0 = k := fun hk => h.1 hk.symm
    simp [map_assign, hk, ih h.2]

/-- Filling a map from commands whose names are pairwise different and not yet bound
appends one binding per command, in the order of the commands. -/
theorem foldl_map_assign_of_nodup (cmds : List CRPCCommand) (m : List (String × CRPCCommand))
    (hnodup : (cmds.map (fun c => c.name)).Nodup)
    (hdisj : ∀ c ∈ cmds, c.name ∉ m.map Prod.fst) :
    cmds.foldl (fun m pcmd => map_assign m pcmd.name pcmd) m
      = m ++ cmds.map (fun c => (c.name, c)) := by
  induction cmds generalizing m with
  | nil => simp
  | cons c rest ih =>
    simp only [List.map_cons, List.nodup_cons] at hnodup
    have hc : c.name ∉ m.map Prod.fst := hdisj c (List.mem_cons_self _ _)
    rw [List.foldl_cons, map_assign_of_absent m c.name c hc, ih _ hnodup.2]
    · simp
    · intro d hd
      simp only [List.map_append, List.map_cons, List.map_nil, List.mem_append,
        List.mem_singleton, not_or]
      refine ⟨hdisj d (List.mem_cons_of_mem _ hd), ?_⟩
      intro hname
      exact hnodup.1 (hname ▸ List.mem_map_of_mem (fun c => c.name) hd)

/-- The names of the rows of `vRPCCommands` are pairwise different, in both builds. -/
theorem vRPCCommands_names_nodup (B : Build) :
    ((vRPCCommands B).map (fun c => c.name)).Nodup := by
  unfold vRPCCommands
  cases B.ENABLE_WALLET
  · simp only [Bool.false_eq_true, if_false, vRPCCommandsBase, List.map_cons, List.map_nil]
    decide
  · simp only [if_true, vRPCCommandsBase, vRPCCommandsWallet, List.map_cons, List.map_nil,
      List.cons_append, List.nil_append]
    decide

/-- The map of `tableRPC` holds the rows of `vRPCCommands`, each bound to its name, in
the order of the array. -/
theorem tableRPC_mapCommands (B : Build) :
    (tableRPC B).mapCommands = (vRPCCommands B).map (fun c => (c.name, c)) := by
  have := foldl_map_assign_of_nodup (vRPCCommands B) [] (vRPCCommands_names_nodup B)
    (fun c _ => by simp)
  simpa [tableRPC, CRPCTable.new] using this

theorem map_find_of_mem (cmds : List CRPCCommand)
    (hnodup : (cmds.map (fun c => c.name)).Nodup) (e : CRPCCommand) (he : e ∈ cmds) :
    map_find (cmds.map (fun c => (c.name, c))) e.name = some e := by
  induction cmds with
  | nil => exact absurd he (List.not_mem_nil _)
  | cons c rest ih =>
    simp only [List.map_cons, List.nodup_cons] at hnodup
    rcases List.mem_cons.mp he with hec | herest
    · subst hec
      simp [map_find]
    · have hne : ¬ c.name = e.name := by
        intro h
        exact hnodup.1 (h ▸ List.mem_map_of_mem (fun c => c.name) herest)
      simp [map_find, hne, ih hnodup.2 herest]

theorem map_find_of_not_mem (cmds : List CRPCCommand) (name : String)
    (h : name ∉ cmds.map (fun c => c.name)) :
    map_find (cmds.map (fun c => (c.name, c))) name = none := by
  induction cmds with
  | nil => rfl
  | cons c rest ih =>
    simp only [List.map_cons, List.mem_cons, not_or] at h
    have hne : ¬ c.name = name := fun hc => h.1 hc.symm
    simp [map_find, hne, ih h.2]

/-- C19: the names of the rows of `vRPCCommands` are pairwise different, so the table the
constructor builds has one entry per row and no two entries of one name; the lookup of
the name of a row returns that row, with its handler and flags, and the lookup of any
other name returns null. The lookup is a function of the table and the name: it
returns no new table, so looking a name up again gives the same descriptor. -/
theorem C19_command_table (B : Build) :
    ((vRPCCommands B).map (fun c => c.name)).Nodup
    ∧ ((tableRPC B).mapCommands.map Prod.fst).Nodup
    ∧ (tableRPC B).mapCommands.length = (vRPCCommands B).length
    ∧ (∀ e ∈ vRPCCommands B, (tableRPC B).get e.name = some e)
    ∧ (∀ name : String, name ∉ (vRPCCommands B).map (fun c => c.name) →
        (tableRPC B).get name = none) := by
  refine ⟨vRPCCommands_names_nodup B, ?_, ?_, ?_, ?_⟩
  · rw [tableRPC_mapCommands, List.map_map]
    exact vRPCCommands_names_nodup B
  · rw [tableRPC_mapCommands, List.length_map]
  · intro e he
    unfold CRPCTable.get
    rw [tableRPC_mapCommands]
    exact map_find_of_mem _ (vRPCCommands_names_nodup B) e he
  · intro name hname
    unfold CRPCTable.get
    rw [tableRPC_mapCommands]
    exact map_find_of_not_mem _ name hname

/-- C19 at the row `getblockhash` of a wallet-enabled build, and at a name that is not
in the array. -/
theorem C19_command_table_witness :
    (tableRPC exampleBuild).get "getblockhash"
        = some { name := "getblockhash", actor := exampleActor "getblockhash",
                 okSafeMode := false, threadSafe := false, reqWallet := false }
    ∧ (tableRPC exampleBuild).get "getlabel" = none :=
  ⟨(C19_command_table exampleBuild).2.2.2.1
      { name := "getblockhash", actor := exampleActor "getblockhash",
        okSafeMode := false, threadSafe := false, reqWallet := false }
      (by simp [vRPCCommands, vRPCCommandsBase, exampleBuild]),
    (C19_command_table exampleBuild).2.2.2.2 "getlabel"
      (by simp [vRPCCommands, vRPCCommandsBase, vRPCCommandsWallet, exampleBuild])⟩

/-! ## Help for one command -/

/-- With a command name given, the loop of `help` passes over every command of another
name without any action. -/
theorem help_loop_skip (B : Build) (strCommand : String) (hne : strCommand ≠ "")
    (l : List (String × CRPCCommand)) (hl : ∀ e ∈ l, e.1 ≠ strCommand)
    (strRet : String) (setDone : List String) (node : Node) :
    CRPCTable.help.loop B strCommand l strRet setDone node = ⟨.ok strRet, node, []⟩ := by
  induction l with
  | nil => rfl
  | cons e rest ih =>
    obtain ⟨strMethod, pcmd⟩ := e
    have hm : strMethod ≠ strCommand := hl (strMethod, pcmd) (List.mem_cons_self _ _)
    have hrest := ih (fun e he => hl e (List.mem_cons_of_mem _ he))
    unfold CRPCTable.help.loop
    split
    · exact hrest
    · simp [hne, hm, hrest]

theorem help_loop_append_skip (B : Build) (strCommand : String) (hne : strCommand ≠ "")
    (l1 l2 : List (String × CRPCCommand)) (hl : ∀ e ∈ l1, e.1 ≠ strCommand)
    (strRet : String) (setDone : List String) (node : Node) :
    CRPCTable.help.loop B strCommand (l1 ++ l2) strRet setDone node
      = CRPCTable.help.loop B strCommand l2 strRet setDone node := by
  induction l1 with
  | nil => rfl
  | cons e rest ih =>
    obtain ⟨strMethod, pcmd⟩ := e
    have hm : strMethod ≠ strCommand := hl (strMethod, pcmd) (List.mem_cons_self _ _)
    have hrest := ih (fun e he => hl e (List.mem_cons_of_mem _ he))
    rw [List.cons_append]
    conv_lhs => unfold CRPCTable.help.loop
    split
    · exact hrest
    · simp [hne, hm, hrest]

/-- The iterator of a map visits the bindings of the map, each once. -/
theorem map_iterate_perm {α : Type} (m : List (String × α)) : (map_iterate m).Perm m :=
  List.perm_insertionSort _ m

/-- No command name of the table contains `label`. -/
theorem vRPCCommands_no_label (B : Build) :
    ∀ name ∈ (vRPCCommands B).map (fun c => c.name), string_contains name "label" = false := by
  unfold vRPCCommands
  cases B.ENABLE_WALLET
  · simp only [Bool.false_eq_true, if_false, vRPCCommandsBase, List.map_cons, List.map_nil]
    decide
  · simp only [if_true, vRPCCommandsBase, vRPCCommandsWallet, List.map_cons, List.map_nil,
      List.cons_append, List.nil_append]
    decide

theorem substr_drop_newline (s : String) :
    substr (s ++ "\n") 0 ((s ++ "\n").data.length - 1) = s := by
  apply String.ext
  simp [substr, String.data_append]

theorem append_newline_ne_empty (s : String) : s ++ "\n" ≠ "" := by
  intro h
  have := congrArg (fun t => t.data.length) h
  simp [String.data_append] at this

/-- The commands the iterator of `tableRPC` visits are rows of `vRPCCommands`, each under
its name. -/
theorem mem_map_iterate_tableRPC (B : Build) (e : String × CRPCCommand)
    (he : e ∈ map_iterate (tableRPC B).mapCommands) :
    e.2 ∈ vRPCCommands B ∧ e.1 = e.2.name := by
  have hmem : e ∈ (tableRPC B).mapCommands := (map_iterate_perm _).mem_iff.mp he
  rw [tableRPC_mapCommands, List.mem_map] at hmem
  obtain ⟨c, hc, hce⟩ := hmem
  subst hce
  exact ⟨hc, rfl⟩

/-- When the name is not registered, `help` visits no command of that name. -/
theorem help_unknown (B : Build) (n : String) (node : Node) (hn : n ≠ "")
    (hnone : (tableRPC B).get n = none) :
    CRPCTable.help B n node = ⟨.ok ("help: unknown command: " ++ n), node, []⟩ := by
  have hkeys : ∀ e ∈ map_iterate (tableRPC B).mapCommands, e.1 ≠ n := by
    intro e he hen
    obtain ⟨hmem, hname⟩ := mem_map_iterate_tableRPC B e he
    have hget : (tableRPC B).get e.2.name = some e.2 := by
      unfold CRPCTable.get
      rw [tableRPC_mapCommands]
      exact map_find_of_mem _ (vRPCCommands_names_nodup B) e.2 hmem
    rw [← hname, hen, hnone] at hget
    exact absurd hget (by simp)
  unfold CRPCTable.help
  rw [help_loop_skip B n hn _ hkeys]
  simp only [if_true]
  rw [substr_drop_newline]

/-- When the name is registered, the capability is available and the handler throws its
usage text in describe mode, `help` calls that handler, and no other, and returns the
text. -/
theorem help_known (B : Build) (n : String) (node : Node) (hn : n ≠ "")
    (pcmd : CRPCCommand) (usage : String) (node2 : Node)
    (hget : (tableRPC B).get n = some pcmd)
    (hcap : pcmd.reqWallet = true → node.pwalletMain = true)
    (hdescribe : pcmd.actor [] true node = (.error (.exception usage), node2)) :
    CRPCTable.help B n node = ⟨.ok usage, node2, [Event.call n [] true]⟩ := by
  obtain ⟨hmem, hname⟩ := tableRPC_get_mem B n pcmd hget
  -- the iterator reaches the command between commands of other names
  have hin : (n, pcmd) ∈ map_iterate (tableRPC B).mapCommands := by
    apply (map_iterate_perm _).mem_iff.mpr
    rw [tableRPC_mapCommands, List.mem_map]
    exact ⟨pcmd, hmem, by rw [hname]⟩
  obtain ⟨l1, l2, hsplit⟩ := List.append_of_mem hin
  have hnodup : ((map_iterate (tableRPC B).mapCommands).map Prod.fst).Nodup := by
    rw [((map_iterate_perm (tableRPC B).mapCommands).map Prod.fst).nodup_iff,
      tableRPC_mapCommands, List.map_map]
    exact vRPCCommands_names_nodup B
  rw [hsplit, List.map_append, List.map_cons, List.nodup_append] at hnodup
  obtain ⟨-, hn2, hdisj⟩ := hnodup
  have hl1 : ∀ e ∈ l1, e.1 ≠ n := by
    intro e he hen
    have hk : e.1 ∈ l1.map Prod.fst := List.mem_map_of_mem Prod.fst he
    rw [hen] at hk
    exact hdisj hk (List.mem_cons_self _ _)
  have hl2 : ∀ e ∈ l2, e.1 ≠ n := by
    intro e he hen
    have hk : e.1 ∈ l2.map Prod.fst := List.mem_map_of_mem Prod.fst he
    rw [hen] at hk
    exact (List.nodup_cons.mp hn2).1 hk
  have hlabel : string_contains n "label" = false :=
    vRPCCommands_no_label B n (hname ▸ List.mem_map_of_mem (fun c => c.name) hmem)
  have hgate : (B.ENABLE_WALLET && pcmd.reqWallet && !node.pwalletMain) = false := by
    cases hr : pcmd.reqWallet with
    | false => simp
    | true => simp [hcap hr]
  have hentry : CRPCTable.help.loop B n ((n, pcmd) :: l2) "" [] node
      = ⟨.ok ("" ++ usage ++ "\n"), node2, [Event.call n [] true]⟩ := by
    unfold CRPCTable.help.loop
    simp only [hlabel, Bool.false_eq_true, if_false, ne_eq, not_true_eq_false, decide_False,
      Bool.and_false, hgate, List.contains_nil, hdescribe, hn]
    rw [help_loop_skip B n hn l2 hl2, hname]
  unfold CRPCTable.help
  rw [hsplit, help_loop_append_skip B n hn l1 _ hl1, hentry]
  simp only [String.empty_append, append_newline_ne_empty, if_false]
  rw [substr_drop_newline]

theorem tableRPC_get_getblockcount (B : Build) :
    (tableRPC B).get "getblockcount"
      = some { name := "getblockcount", actor := B.actor "getblockcount", okSafeMode := true,
               threadSafe := false, reqWallet := false } := by
  have hmem : (⟨"getblockcount", B.actor "getblockcount", true, false, false,
      "getblockcount"⟩ : CRPCCommand) ∈ vRPCCommands B := by
    unfold vRPCCommands
    cases B.ENABLE_WALLET <;> simp [vRPCCommandsBase]
  have := map_find_of_mem _ (vRPCCommands_names_nodup B) _ hmem
  unfold CRPCTable.get
  rw [tableRPC_mapCommands]
  exact this

/-- C20: for every non-empty command name `n`, `CRPCTable::help(n)` returns
"help: unknown command: " followed by `n`, without trailing newline and without calling
any handler, when `n` is not registered; when `n` is a registered command whose
capability is available, it calls the handler of `n` in describe mode, and no other,
and returns the whole usage text that handler throws; for `getblockcount` this is the
two lines of its usage text. -/
theorem C20_help_of_command (B : Build) (n : String) (node : Node) (hn : n ≠ "") :
    ((tableRPC B).get n = none →
      CRPCTable.help B n node = ⟨.ok ("help: unknown command: " ++ n), node, []⟩)
    ∧ (∀ (pcmd : CRPCCommand) (usage : String) (node2 : Node),
        (tableRPC B).get n = some pcmd →
        (pcmd.reqWallet = true → node.pwalletMain = true) →
        pcmd.actor [] true node = (.error (.exception usage), node2) →
        CRPCTable.help B n node = ⟨.ok usage, node2, [Event.call n [] true]⟩)
    ∧ (B.actor "getblockcount" = getblockcount →
        CRPCTable.help B "getblockcount" node
          = ⟨.ok "getblockcount\nReturns the number of blocks in the longest block chain.",
              node, [Event.call "getblockcount" [] true]⟩) := by
  refine ⟨help_unknown B n node hn, fun pcmd usage node2 hget hcap hdescribe =>
    help_known B n node hn pcmd usage node2 hget hcap hdescribe, fun hactor => ?_⟩
  exact help_known B "getblockcount" node (by decide) _ _ node
    (tableRPC_get_getblockcount B) (fun h => by simp at h) (by rw [hactor]; rfl)

/-- C20 at the registered command `getblockcount` and at the unregistered name
`nosuchmethod`. -/
theorem C20_help_of_command_witness :
    ("nosuchmethod" ≠ "" ∧ (tableRPC exampleBuild).get "nosuchmethod" = none)
    ∧ CRPCTable.help exampleBuild "nosuchmethod" exampleNode
        = ⟨.ok "help: unknown command: nosuchmethod", exampleNode, []⟩
    ∧ CRPCTable.help exampleBuild "getblockcount" exampleNode
        = ⟨.ok "getblockcount\nReturns the number of blocks in the longest block chain.",
            exampleNode, [Event.call "getblockcount" [] true]⟩ :=
  ⟨⟨by decide, rfl⟩,
    (C20_help_of_command exampleBuild "nosuchmethod" exampleNode (by decide)).1 rfl,
    (C20_help_of_command exampleBuild "getblockcount" exampleNode (by decide)).2.1
      { name := "getblockcount", actor := exampleActor "getblockcount", okSafeMode := true,
        threadSafe := false, reqWallet := false }
      "getblockcount\nReturns the number of blocks in the longest block chain." exampleNode
      rfl (fun h => by simp at h) rfl⟩

/-! ## The locking discipline of `execute` -/

/-- The trace of `execute` is empty, when a gate stops the request, or the handler call
between the entries into the critical sections of `CRPCTable.execute.locks` and the
exits from them in reverse order. -/
theorem execute_trace_cases (B : Build) (strMethod : String) (params : Array) (node : Node) :
    (CRPCTable.execute B strMethod params node).trace = []
    ∨ ∃ pcmd : CRPCCommand, (tableRPC B).get strMethod = some pcmd
        ∧ (CRPCTable.execute B strMethod params node).trace
          = (CRPCTable.execute.locks B pcmd node).map Event.lock
            ++ [Event.call pcmd.name params false]
            ++ (CRPCTable.execute.locks B pcmd node).reverse.map Event.unlock := by
  unfold CRPCTable.execute
  split
  · exact Or.inl rfl
  · next pcmd hget =>
    split
    · exact Or.inl rfl
    · simp only
      split
      · exact Or.inl rfl
      · right
        refine ⟨pcmd, hget, ?_⟩
        split <;> rfl

/-- Entering critical sections, calling a handler and leaving the sections in reverse
order gives back the set of sections held before; the handler runs with the entered
sections held on top of them, the last entered innermost. -/
theorem locks_of_locked_call (held entry : List String) (name : String) (params : Array)
    (fHelp : Bool) :
    locks_held (held.map Event.lock ++ [Event.call name params fHelp]
        ++ held.reverse.map Event.unlock) entry = entry
    ∧ locks_at_calls (held.map Event.lock ++ [Event.call name params fHelp]
        ++ held.reverse.map Event.unlock) entry = [held.reverse ++ entry] := by
  have hunlockH : ∀ (l entry : List String),
      locks_held (l.map Event.unlock) (l ++ entry) = entry := by
    intro l
    induction l with
    | nil => intro entry; rfl
    | cons cs tl ih =>
      intro entry
      simp only [List.map_cons, locks_held, List.cons_append, List.erase_cons_head]
      exact ih entry
  have hunlockC : ∀ (l entry : List String),
      locks_at_calls (l.map Event.unlock) entry = [] := by
    intro l
    induction l with
    | nil => intro entry; rfl
    | cons cs tl ih =>
      intro entry
      simp only [List.map_cons, locks_at_calls]
      exact ih _
  have hlockH : ∀ (l : List String) (rest : List Event) (entry : List String),
      locks_held (l.map Event.lock ++ rest) entry = locks_held rest (l.reverse ++ entry) := by
    intro l
    induction l with
    | nil => intro rest entry; rfl
    | cons cs tl ih =>
      intro rest entry
      simp only [List.map_cons, List.cons_append, locks_held, List.reverse_cons,
        List.append_assoc, List.singleton_append]
      exact ih rest (cs :: entry)
  have hlockC : ∀ (l : List String) (rest : List Event) (entry : List String),
      locks_at_calls (l.map Event.lock ++ rest) entry
        = locks_at_calls rest (l.reverse ++ entry) := by
    intro l
    induction l with
    | nil => intro rest entry; rfl
    | cons cs tl ih =>
      intro rest entry
      simp only [List.map_cons, List.cons_append, locks_at_calls, List.reverse_cons,
        List.append_assoc, List.singleton_append]
      exact ih rest (cs :: entry)
  constructor
  · rw [List.append_assoc, hlockH]
    simp only [List.singleton_append, locks_held]
    exact hunlockH held.reverse entry
  · rw [List.append_assoc, hlockC]
    simp only [List.singleton_append, locks_at_calls]
    have := hunlockC held.reverse (held.reverse ++ entry)
    simpa using this

/-- The trace of `execute` for a registered command once both gates are passed, whatever
the handler does. -/
theorem execute_trace_of_gates_passed (B : Build) (strMethod : String) (params : Array)
    (node : Node) (pcmd : CRPCCommand)
    (hget : (tableRPC B).get strMethod = some pcmd)
    (hcap : pcmd.reqWallet = true → node.pwalletMain = true)
    (hsafe : node.strWarnings = "" ∨ node.fDisableSafeMode = true ∨ pcmd.okSafeMode = true) :
    (CRPCTable.execute B strMethod params node).trace
      = (CRPCTable.execute.locks B pcmd node).map Event.lock
        ++ [Event.call pcmd.name params false]
        ++ (CRPCTable.execute.locks B pcmd node).reverse.map Event.unlock := by
  rw [execute_of_gates_passed B strMethod params node pcmd hget hcap hsafe]
  split <;> rfl

/-- C24: in `execute`, past the gates, a handler marked `threadSafe` is invoked with no
lock taken by the dispatcher; any other handler is invoked between `LOCK(cs_main)` and
its release, and when a wallet is present also inside the wallet lock, which is taken
after `cs_main` and released before it; this is so whatever the handler returns or
throws. For every call of `execute`, also one that a gate stops, the locks held at the
return are the locks held at the entry. -/
theorem C24_locking_discipline (B : Build) (strMethod : String) (params : Array)
    (node : Node) (pcmd : CRPCCommand) (entry : List String)
    (hget : (tableRPC B).get strMethod = some pcmd)
    (hcap : pcmd.reqWallet = true → node.pwalletMain = true)
    (hsafe : node.strWarnings = "" ∨ node.fDisableSafeMode = true ∨ pcmd.okSafeMode = true) :
    (pcmd.threadSafe = true →
      (CRPCTable.execute B strMethod params node).trace = [Event.call pcmd.name params false]
      ∧ locks_at_calls (CRPCTable.execute B strMethod params node).trace entry = [entry])
    ∧ (pcmd.threadSafe = false → ¬ (B.ENABLE_WALLET = true ∧ node.pwalletMain = true) →
      (CRPCTable.execute B strMethod params node).trace
        = [Event.lock "cs_main", Event.call pcmd.name params false, Event.unlock "cs_main"]
      ∧ locks_at_calls (CRPCTable.execute B strMethod params node).trace entry
        = ["cs_main" :: entry])
    ∧ (pcmd.threadSafe = false → B.ENABLE_WALLET = true → node.pwalletMain = true →
      (CRPCTable.execute B strMethod params node).trace
        = [Event.lock "cs_main", Event.lock "cs_wallet", Event.call pcmd.name params false,
           Event.unlock "cs_wallet", Event.unlock "cs_main"]
      ∧ locks_at_calls (CRPCTable.execute B strMethod params node).trace entry
        = ["cs_wallet" :: "cs_main" :: entry])
    ∧ (∀ (B2 : Build) (strMethod2 : String) (params2 : Array) (node2 : Node)
        (entry2 : List String),
        locks_held (CRPCTable.execute B2 strMethod2 params2 node2).trace entry2 = entry2) := by
  have htrace := execute_trace_of_gates_passed B strMethod params node pcmd hget hcap hsafe
  refine ⟨fun hts => ?_, fun hts hnw => ?_, fun hts hE hw => ?_, ?_⟩
  · have hl : CRPCTable.execute.locks B pcmd node = [] := by
      simp [CRPCTable.execute.locks, hts]
    rw [htrace, hl]
    exact ⟨rfl, rfl⟩
  · have hl : CRPCTable.execute.locks B pcmd node = ["cs_main"] := by
      have : (B.ENABLE_WALLET && node.pwalletMain) = false := by
        cases hE : B.ENABLE_WALLET <;> cases hw : node.pwalletMain <;> simp_all
      simp [CRPCTable.execute.locks, hts, this]
    rw [htrace, hl]
    exact ⟨rfl, rfl⟩
  · have hl : CRPCTable.execute.locks B pcmd node = ["cs_main", "cs_wallet"] := by
      simp [CRPCTable.execute.locks, hts, hE, hw]
    rw [htrace, hl]
    exact ⟨rfl, rfl⟩
  · intro B2 strMethod2 params2 node2 entry2
    rcases execute_trace_cases B2 strMethod2 params2 node2 with h | ⟨pcmd2, -, h⟩
    · rw [h]
      rfl
    · rw [h]
      exact (locks_of_locked_call _ entry2 _ _ _).1

/-- C24 at `getblockcount`, which is not thread-safe, on a wallet-enabled build: without
wallet the handler runs under `cs_main`, with a wallet under `cs_main` and, inside it,
the wallet lock. -/
theorem C24_locking_discipline_witness :
    (CRPCTable.execute exampleBuild "getblockcount" [] exampleNode).trace
        = [Event.lock "cs_main", Event.call "getblockcount" [] false, Event.unlock "cs_main"]
    ∧ (CRPCTable.execute exampleBuild "getblockcount" []
          { exampleNode with pwalletMain := true }).trace
        = [Event.lock "cs_main", Event.lock "cs_wallet", Event.call "getblockcount" [] false,
           Event.unlock "cs_wallet", Event.unlock "cs_main"] :=
  ⟨((C24_locking_discipline exampleBuild "getblockcount" [] exampleNode
      { name := "getblockcount", actor := exampleActor "getblockcount", okSafeMode := true,
        threadSafe := false, reqWallet := false } [] rfl (fun h => by simp at h)
      (Or.inl rfl)).2.1 rfl (by decide)).1,
    ((C24_locking_discipline exampleBuild "getblockcount" []
      { exampleNode with pwalletMain := true }
      { name := "getblockcount", actor := exampleActor "getblockcount", okSafeMode := true,
        threadSafe := false, reqWallet := false } [] rfl (fun h => by simp at h)
      (Or.inl rfl)).2.2.1 rfl rfl rfl).1⟩

/-! ## The scenario `getblockcount` -/

/-- What `execute` returns for `getblockcount` without parameters: the height, with the
node state unchanged, in every node state. -/
theorem execute_getblockcount (B : Build) (node : Node)
    (hactor : B.actor "getblockcount" = getblockcount) :
    (CRPCTable.execute B "getblockcount" [] node).ret = .ok (Value.int node.nBestHeight)
    ∧ (CRPCTable.execute B "getblockcount" [] node).node = node := by
  rw [execute_of_gates_passed B "getblockcount" [] node _ (tableRPC_get_getblockcount B)
    (fun h => by simp at h) (Or.inr (Or.inr rfl))]
  simp only [hactor]
  exact ⟨rfl, rfl⟩

/-- C27, counterexample: in the node state whose `nBestHeight` is -1, the request
`getblockcount` with `params` [] and `id` 1 gets the result -1, which is negative. -/
theorem C27_negative_height :
    (JSONRPCExecOne exampleBuild (exampleRequest "getblockcount")
        { exampleNode with nBestHeight := -1 }).ret
      = [("result", Value.int (-1)), ("error", Value.null), ("id", Value.int 1)] :=
  rfl

/-- C27, amended: for every node state, the request `getblockcount` with `params` [] and
`id` 1, dispatched through `JSONRPCExecOne` with the handler of `rpcblockchain.cpp`,
yields the response with `result` h, `error` null and `id` 1, where h is `nBestHeight`
as it is, and leaves the node state unchanged; h is a non-negative integer when
`nBestHeight` is not negative. -/
theorem C27_getblockcount_response (B : Build) (node : Node)
    (hactor : B.actor "getblockcount" = getblockcount) :
    (JSONRPCExecOne B (exampleRequest "getblockcount") node).ret
      = [("result", Value.int node.nBestHeight), ("error", Value.null), ("id", Value.int 1)]
    ∧ (JSONRPCExecOne B (exampleRequest "getblockcount") node).node = node
    ∧ (0 ≤ node.nBestHeight →
        ∃ h : Nat, find_value (JSONRPCExecOne B (exampleRequest "getblockcount") node).ret
          "result" = Value.int (h : Int)) := by
  obtain ⟨hret, hnode⟩ := execute_getblockcount B node hactor
  have hparse : JSONRequest.new.parse (exampleRequest "getblockcount")
      = (.ok (), { id := Value.int 1, strMethod := "getblockcount", params := [] }) := rfl
  have hone : (JSONRPCExecOne B (exampleRequest "getblockcount") node).ret
      = [("result", Value.int node.nBestHeight), ("error", Value.null),
          ("id", Value.int 1)] := by
    simp only [JSONRPCExecOne, hparse, hret]
    rfl
  refine ⟨hone, ?_, fun hpos => ⟨node.nBestHeight.toNat, ?_⟩⟩
  · simp only [JSONRPCExecOne, hparse, hret]
    exact hnode
  · rw [hone, Int.toNat_of_nonneg hpos]
    rfl

/-- C27, amended, at a node of height 7. -/
theorem C27_getblockcount_response_witness :
    exampleBuild.actor "getblockcount" = getblockcount
    ∧ (JSONRPCExecOne exampleBuild (exampleRequest "getblockcount") exampleNode).ret
      = [("result", Value.int 7), ("error", Value.null), ("id", Value.int 1)] :=
  ⟨rfl, (C27_getblockcount_response exampleBuild exampleNode rfl).1⟩

/-! ## `RPCTypeCheck` -/

/-- What `RPCTypeCheck` returns: success exactly when no parameter that has an expected
type is of another type (null allowed with `fAllowNull`); otherwise the error for the
first such parameter. -/
theorem RPCTypeCheck_spec (Value_type_name : Value_type → String) (fAllowNull : Bool)
    (params : Array) (typesExpected : List Value_type) :
    (RPCTypeCheck Value_type_name params typesExpected fAllowNull = .ok ()
      ∧ ∀ (i : Nat) (v : Value) (t : Value_type),
          params[i]? = some v → typesExpected[i]? = some t →
          (v.type = t ∨ (fAllowNull = true ∧ v.type = Value_type.null_type)))
    ∨ ∃ (i : Nat) (v : Value) (t : Value_type),
        params[i]? = some v ∧ typesExpected[i]? = some t
        ∧ ¬ (v.type = t ∨ (fAllowNull = true ∧ v.type = Value_type.null_type))
        ∧ (∀ (j : Nat) (w : Value) (u : Value_type), j < i →
            params[j]? = some w → typesExpected[j]? = some u →
            (w.type = u ∨ (fAllowNull = true ∧ w.type = Value_type.null_type)))
        ∧ RPCTypeCheck Value_type_name params typesExpected fAllowNull
          = .error (.object (JSONRPCError RPC_TYPE_ERROR
              ("Expected type " ++ Value_type_name t ++ ", got "
                ++ Value_type_name v.type))) := by
  induction params generalizing typesExpected with
  | nil =>
    left
    exact ⟨rfl, fun i v t hv => by simp at hv⟩
  | cons v0 rest ih =>
    cases typesExpected with
    | nil =>
      left
      exact ⟨rfl, fun i v t _ ht => by simp at ht⟩
    | cons t0 types =>
      by_cases hok : v0.type = t0 ∨ (fAllowNull = true ∧ v0.type = Value_type.null_type)
      · have hstep : RPCTypeCheck Value_type_name (v0 :: rest) (t0 :: types) fAllowNull
            = RPCTypeCheck Value_type_name rest types fAllowNull := by
          rcases hok with h | ⟨h1, h2⟩
          · simp [RPCTypeCheck, h]
          · simp [RPCTypeCheck, h1, h2]
        rw [hstep]
        rcases ih types with ⟨hret, hall⟩ | ⟨i, v, t, hv, ht, hbad, hbefore, hret⟩
        · left
          refine ⟨hret, fun i v t hv ht => ?_⟩
          cases i with
          | zero =>
            simp only [List.getElem?_cons_zero, Option.some.injEq] at hv ht
            subst hv
            subst ht
            exact hok
          | succ k =>
            simp only [List.getElem?_cons_succ] at hv ht
            exact hall k v t hv ht
        · right
          refine ⟨i + 1, v, t, by simpa using hv, by simpa using ht, hbad, ?_, hret⟩
          intro j w u hj hw hu
          cases j with
          | zero =>
            simp only [List.getElem?_cons_zero, Option.some.injEq] at hw hu
            subst hw
            subst hu
            exact hok
          | succ k =>
            simp only [List.getElem?_cons_succ] at hw hu
            exact hbefore k w u (by omega) hw hu
      · right
        refine ⟨0, v0, t0, List.getElem?_cons_zero, List.getElem?_cons_zero, hok,
          fun j w u hj => by omega, ?_⟩
        have hcond : (!(decide (v0.type = t0)
            || (fAllowNull && decide (v0.type = Value_type.null_type)))) = true := by
          simp only [not_or, not_and] at hok
          obtain ⟨h1, h2⟩ := hok
          cases hf : fAllowNull
          · simp [h1]
          · simp [h1, h2 hf]
        simp only [RPCTypeCheck, hcond, if_true]

/-- C28: `RPCTypeCheck` on a params array and a list of expected kinds fails if and only
if some index below both lengths holds a parameter whose kind differs from the expected
one and that is not (with `fAllowNull`) null; it then fails with code `RPC_TYPE_ERROR`
and a message that names the expected and the actual kind at the first such index;
otherwise it succeeds. Parameters beyond the expected list and expected kinds beyond the
parameters are not looked at. -/
theorem C28_RPCTypeCheck (Value_type_name : Value_type → String) (fAllowNull : Bool)
    (params : Array) (typesExpected : List Value_type) :
    ((∃ t : Thrown, RPCTypeCheck Value_type_name params typesExpected fAllowNull = .error t)
      ↔ ∃ (i : Nat) (v : Value) (t : Value_type),
          params[i]? = some v ∧ typesExpected[i]? = some t
          ∧ ¬ (v.type = t ∨ (fAllowNull = true ∧ v.type = Value_type.null_type)))
    ∧ (RPCTypeCheck Value_type_name params typesExpected fAllowNull = .ok ()
      ↔ ¬ ∃ (i : Nat) (v : Value) (t : Value_type),
          params[i]? = some v ∧ typesExpected[i]? = some t
          ∧ ¬ (v.type = t ∨ (fAllowNull = true ∧ v.type = Value_type.null_type)))
    ∧ (∀ e : Thrown, RPCTypeCheck Value_type_name params typesExpected fAllowNull = .error e →
        ∃ (i : Nat) (v : Value) (t : Value_type),
          params[i]? = some v ∧ typesExpected[i]? = some t
          ∧ ¬ (v.type = t ∨ (fAllowNull = true ∧ v.type = Value_type.null_type))
          ∧ e = .object (JSONRPCError RPC_TYPE_ERROR
              ("Expected type " ++ Value_type_name t ++ ", got " ++ Value_type_name v.type))
          ∧ find_value (JSONRPCError RPC_TYPE_ERROR
              ("Expected type " ++ Value_type_name t ++ ", got " ++ Value_type_name v.type))
              "code" = Value.int RPC_TYPE_ERROR) := by
  rcases RPCTypeCheck_spec Value_type_name fAllowNull params typesExpected with
    ⟨hret, hall⟩ | ⟨i, v, t, hv, ht, hbad, -, hret⟩
  · have hnone : ¬ ∃ (i : Nat) (v : Value) (t : Value_type),
        params[i]? = some v ∧ typesExpected[i]? = some t
        ∧ ¬ (v.type = t ∨ (fAllowNull = true ∧ v.type = Value_type.null_type)) := by
      rintro ⟨i, v, t, hv, ht, hbad⟩
      exact hbad (hall i v t hv ht)
    refine ⟨⟨fun ⟨t, h⟩ => ?_, fun h => absurd h hnone⟩, ⟨fun _ => hnone, fun _ => hret⟩,
      fun e he => ?_⟩
    · rw [hret] at h
      exact absurd h (by simp)
    · rw [hret] at he
      exact absurd he (by simp)
  · refine ⟨⟨fun _ => ⟨i, v, t, hv, ht, hbad⟩, fun _ => ⟨_, hret⟩⟩,
      ⟨fun h => ?_, fun h => absurd ⟨i, v, t, hv, ht, hbad⟩ h⟩, fun e he => ?_⟩
    · rw [hret] at h
      exact absurd h (by simp)
    · rw [hret] at he
      exact ⟨i, v, t, hv, ht, hbad, (Except.error.inj he).symm,
        find_value_code_JSONRPCError _ _⟩

/-- C28 at the parameters ["abc", 5] checked against the kinds [str, str]: the check
fails at the second parameter; checked against [str] alone it succeeds. -/
theorem C28_RPCTypeCheck_witness :
    RPCTypeCheck exampleTypeName [Value.str "abc", Value.int 5]
        [Value_type.str_type, Value_type.str_type] false
      = .error (.object (JSONRPCError RPC_TYPE_ERROR "Expected type str, got int"))
    ∧ RPCTypeCheck exampleTypeName [Value.str "abc", Value.int 5] [Value_type.str_type] false
      = .ok () :=
  ⟨rfl,
    (C28_RPCTypeCheck exampleTypeName false [Value.str "abc", Value.int 5]
      [Value_type.str_type]).2.1.2 (by
        rintro ⟨i, v, t, hv, ht, hbad⟩
        cases i with
        | zero =>
          simp only [List.getElem?_cons_zero, Option.some.injEq] at hv ht
          subst hv
          subst ht
          exact hbad (Or.inl rfl)
        | succ k => simp at ht)⟩

/-! ## `ParseHashV`, `ParseHexV` and `AmountFromValue` -/

/-- C29: given that `IsHex("")` is false, as the source notes, `ParseHashV` and
`ParseHexV` fail with code `RPC_INVALID_PARAMETER` and a message that begins with the
name of the parameter, for every value that is not a string and for every string that
`IsHex` rejects, the empty string included; for every string that `IsHex` accepts they
return the value decoded from it, `ParseHashV` the number `SetHex` reads and `ParseHexV`
the bytes `ParseHex` reads. `ParseHashO` and `ParseHexO` do the same with the member
`strKey` of an object. -/
theorem C29_parse_hex (IsHex : String → Bool) (SetHex : String → Nat)
    (ParseHex : String → List Nat) (strName : String) (hempty : IsHex "" = false) :
    (∀ v : Value, v.type ≠ Value_type.str_type →
      ParseHashV IsHex SetHex v strName
        = .error (.object (JSONRPCError RPC_INVALID_PARAMETER
            (strName ++ " must be hexadecimal std::string (not '" ++ "" ++ "')")))
      ∧ ParseHexV IsHex ParseHex v strName
        = .error (.object (JSONRPCError RPC_INVALID_PARAMETER
            (strName ++ " must be hexadecimal std::string (not '" ++ "" ++ "')"))))
    ∧ (∀ s : String, IsHex s = false →
      ParseHashV IsHex SetHex (Value.str s) strName
        = .error (.object (JSONRPCError RPC_INVALID_PARAMETER
            (strName ++ " must be hexadecimal std::string (not '" ++ s ++ "')")))
      ∧ ParseHexV IsHex ParseHex (Value.str s) strName
        = .error (.object (JSONRPCError RPC_INVALID_PARAMETER
            (strName ++ " must be hexadecimal std::string (not '" ++ s ++ "')"))))
    ∧ (∀ s : String, IsHex s = true →
      s ≠ ""
      ∧ ParseHashV IsHex SetHex (Value.str s) strName = .ok (SetHex s)
      ∧ ParseHexV IsHex ParseHex (Value.str s) strName = .ok (ParseHex s))
    ∧ (∀ message : String,
        find_value (JSONRPCError RPC_INVALID_PARAMETER message) "code"
          = Value.int RPC_INVALID_PARAMETER)
    ∧ (∀ o : Object,
        ParseHashO IsHex SetHex o strName = ParseHashV IsHex SetHex (find_value o strName) strName
        ∧ ParseHexO IsHex ParseHex o strName
          = ParseHexV IsHex ParseHex (find_value o strName) strName) := by
  refine ⟨fun v hv => ?_, fun s hs => ?_, fun s hs => ⟨?_, ?_, ?_⟩,
    fun message => find_value_code_JSONRPCError _ _, fun o => ⟨rfl, rfl⟩⟩
  · cases v with
    | str s => exact absurd rfl hv
    | obj _ => simp [ParseHashV, ParseHexV, hempty]
    | array _ => simp [ParseHashV, ParseHexV, hempty]
    | bool _ => simp [ParseHashV, ParseHexV, hempty]
    | int _ => simp [ParseHashV, ParseHexV, hempty]
    | real _ => simp [ParseHashV, ParseHexV, hempty]
    | null => simp [ParseHashV, ParseHexV, hempty]
  · simp [ParseHashV, ParseHexV, hs]
  · intro h
    rw [h, hempty] at hs
    exact absurd hs (by simp)
  · simp [ParseHashV, hs]
  · simp [ParseHexV, hs]

/-- C29 at the parameter `txid` with the number 5, with a text that is not hexadecimal and
with the text `00ff`. -/
theorem C29_parse_hex_witness :
    exampleIsHex "" = false
    ∧ ParseHexV exampleIsHex (fun s => s.data.map Char.toNat) (Value.int 5) "txid"
      = .error (.object (JSONRPCError RPC_INVALID_PARAMETER
          "txid must be hexadecimal std::string (not '')"))
    ∧ ParseHashV exampleIsHex String.length (Value.str "xyz") "txid"
      = .error (.object (JSONRPCError RPC_INVALID_PARAMETER
          "txid must be hexadecimal std::string (not 'xyz')"))
    ∧ ParseHashV exampleIsHex String.length (Value.str "00ff") "txid"
      = .ok (String.length "00ff") :=
  ⟨by decide,
    ((C29_parse_hex exampleIsHex String.length (fun s => s.data.map Char.toNat) "txid"
      (by decide)).1 (Value.int 5) (by decide)).2,
    ((C29_parse_hex exampleIsHex String.length (fun s => s.data.map Char.toNat) "txid"
      (by decide)).2.1 "xyz" (by decide)).1,
    ((C29_parse_hex exampleIsHex String.length (fun s => s.data.map Char.toNat) "txid"
      (by decide)).2.2.1 "00ff" (by decide)).2.1⟩

/-- C30, counterexample: for the amount 0, which is out of range, `AmountFromValue` fails
with the code `RPC_TYPE_ERROR`, which is not the code `RPC_INVALID_PARAMETER`. -/
theorem C30_invalid_amount_is_type_error :
    AmountFromValue 2100000000000000 exampleToSatoshi "value is not a number" (Value.int 0)
      = .error (.object (JSONRPCError RPC_TYPE_ERROR "Invalid amount"))
    ∧ find_value (JSONRPCError RPC_TYPE_ERROR "Invalid amount") "code"
        = Value.int RPC_TYPE_ERROR
    ∧ RPC_TYPE_ERROR ≠ RPC_INVALID_PARAMETER := by
  refine ⟨?_, find_value_code_JSONRPCError _ _, by decide⟩
  simp [AmountFromValue, Value.get_real]

/-- C30, amended: for every numeric amount that is less than or equal to zero or greater
than `MAX_MONEY`, `AmountFromValue` fails, with the structured error of code
`RPC_TYPE_ERROR` and message "Invalid amount"; this is the only structured error it
raises for a number, and an amount it returns is in the money range, from 0 to
`MAX_MONEY`. -/
theorem C30_AmountFromValue (MAX_MONEY : Int) (toSatoshi : Rat → Int) (what : String)
    (value : Value) (dAmount : Rat) (hnum : value.get_real = some dAmount) :
    ((dAmount ≤ 0 ∨ dAmount > (MAX_MONEY : Rat)) →
      AmountFromValue MAX_MONEY toSatoshi what value
        = .error (.object (JSONRPCError RPC_TYPE_ERROR "Invalid amount")))
    ∧ (∀ e : Thrown, AmountFromValue MAX_MONEY toSatoshi what value = .error e →
        e = .object (JSONRPCError RPC_TYPE_ERROR "Invalid amount"))
    ∧ find_value (JSONRPCError RPC_TYPE_ERROR "Invalid amount") "code"
        = Value.int RPC_TYPE_ERROR
    ∧ (∀ nAmount : Int, AmountFromValue MAX_MONEY toSatoshi what value = .ok nAmount →
        0 ≤ nAmount ∧ nAmount ≤ MAX_MONEY ∧ nAmount = toSatoshi dAmount
        ∧ 0 < dAmount ∧ dAmount ≤ (MAX_MONEY : Rat)) := by
  refine ⟨fun hout => ?_, fun e he => ?_, find_value_code_JSONRPCError _ _,
    fun nAmount hok => ?_⟩
  · simp only [AmountFromValue, hnum, hout, if_true]
  · simp only [AmountFromValue, hnum] at he
    split at he
    · exact (Except.error.inj he).symm
    · split at he
      · exact (Except.error.inj he).symm
      · exact absurd he (by simp)
  · simp only [AmountFromValue, hnum] at hok
    split at hok
    · exact absurd hok (by simp)
    · next hin =>
      split at hok
      · exact absurd hok (by simp)
      · next hrange =>
        have hn : toSatoshi dAmount = nAmount := Except.ok.inj hok
        simp only [MoneyRange, Bool.not_eq_true, Bool.not_eq_false', Bool.and_eq_true,
          decide_eq_true_eq, Bool.not_eq_true'] at hrange
        simp only [not_or, not_le, gt_iff_lt, not_lt] at hin
        rw [hn] at hrange
        simp only [Bool.not_eq_true, Bool.and_eq_false_iff, decide_eq_false_iff_not,
          not_or, not_not] at hrange
        exact ⟨hrange.1, hrange.2, hn.symm, hin.1, hin.2⟩

/-- C30, amended, at the amount -1 with `MAX_MONEY` 2100000000000000. -/
theorem C30_AmountFromValue_witness :
    (Value.int (-1)).get_real = some (-1)
    ∧ AmountFromValue 2100000000000000 exampleToSatoshi "value is not a number"
        (Value.int (-1))
      = .error (.object (JSONRPCError RPC_TYPE_ERROR "Invalid amount")) :=
  ⟨by simp [Value.get_real],
    (C30_AmountFromValue 2100000000000000 exampleToSatoshi "value is not a number"
      (Value.int (-1)) (-1) (by simp [Value.get_real])).1 (Or.inl (by norm_num))⟩

/-! ## Describe mode -/

/-- C22: each handler of the sources, invoked in describe mode (`fHelp` true), throws its
usage text and does nothing else: the outcome is the same for every params array, so no
parameter is read, and the node state is returned unchanged; in particular `stop` in
describe mode leaves `fRequestShutdown` as it is. This holds whatever the handlers do
when they execute. -/
theorem C22_describe_mode (B : Build) (what : String)
    (body : Array → Node → Except Thrown Value × Node) (params : Array) (node : Node) :
    help B what params true node
      = (.error (.exception "help [command]\nList commands, or get help for a command."),
          node)
    ∧ stop params true node = (.error (.exception "stop\nStop Honey server."), node)
    ∧ (stop params true node).2.fRequestShutdown = node.fRequestShutdown
    ∧ getbestblockhash params true node
      = (.error (.exception
          "getbestblockhash\nReturns the hash of the best block in the longest block chain."),
          node)
    ∧ getblockcount params true node
      = (.error (.exception
          "getblockcount\nReturns the number of blocks in the longest block chain."), node)
    ∧ getdifficulty body params true node
      = (.error (.exception
          "getdifficulty\nReturns the difficulty as a multiple of the minimum difficulty."),
          node)
    ∧ getrawmempool body params true node
      = (.error (.exception "getrawmempool\nReturns all transaction ids in memory pool."),
          node)
    ∧ getblockhash body params true node
      = (.error (.exception
          "getblockhash <index>\nReturns hash of block in best-block-chain at <index>."),
          node)
    ∧ getblock body params true node
      = (.error (.exception
          ("getblock <hash> [txinfo]\n"
            ++ "txinfo optional to print more detailed tx info\n"
            ++ "Returns details of a block with given block-hash.")), node)
    ∧ getblockbynumber body params true node
      = (.error (.exception
          ("getblockbynumber <number> [txinfo]\n"
            ++ "txinfo optional to print more detailed tx info\n"
            ++ "Returns details of a block with given block-number.")), node)
    ∧ getcheckpoint body params true node
      = (.error (.exception "getcheckpoint\nShow info of synchronized checkpoint.\n"),
          node) := by
  refine ⟨?_, ?_, ?_, ?_, ?_, ?_, ?_, ?_, ?_, ?_, ?_⟩
  · simp [help]
  · simp [stop]
  · simp [stop]
  · simp [getbestblockhash]
  · simp [getblockcount]
  · simp [getdifficulty]
  · simp [getrawmempool]
  · simp [getblockhash]
  · simp [getblock]
  · simp [getblockbynumber]
  · simp [getcheckpoint]

/-! ## Stopping the server (C25) -/

/-- C25: `StopRPCThreads` is idempotent. Called when no reactor exists
(`rpc_io_service` null) it changes no state and performs no action. Called on a started
server it empties `deadlineTimers` and resets `rpc_io_service`, `rpc_worker_group` and
`rpc_ssl_context` to the not-started state, leaves every other part of the state as it
was, removes the credential cookie and stops the reactor, and joins the worker threads
exactly when a worker group exists. In both cases a second call immediately afterwards
changes no state and performs no action. -/
theorem C25_StopRPCThreads_idempotent (node : Node) :
    (node.rpc_io_service = false → StopRPCThreads node = ⟨(), node, []⟩)
    ∧ (node.rpc_io_service = true →
        (StopRPCThreads node).node
          = { node with deadlineTimers := [], rpc_worker_group := none,
                        rpc_ssl_context := false, rpc_io_service := false }
        ∧ (StopRPCThreads node).trace
          = [Event.DeleteAuthCookie, Event.io_service_stop]
              ++ (if node.rpc_worker_group.isSome then [Event.join_all] else []))
    ∧ (StopRPCThreads node).node.rpc_io_service = false
    ∧ (StopRPCThreads node).node.deadlineTimers
        = (if node.rpc_io_service then [] else node.deadlineTimers)
    ∧ StopRPCThreads (StopRPCThreads node).node
        = ⟨(), (StopRPCThreads node).node, []⟩ := by
  cases h : node.rpc_io_service <;> simp [StopRPCThreads, h]

/-- Witness for C25: a started server with two worker threads and one scheduled task. -/
theorem C25_StopRPCThreads_idempotent_witness :
    exampleStartedNode.rpc_io_service = true
    ∧ (StopRPCThreads exampleStartedNode).node = ({} : Node)
    ∧ (StopRPCThreads exampleStartedNode).trace
        = [Event.DeleteAuthCookie, Event.io_service_stop, Event.join_all] :=
  ⟨rfl, (C25_StopRPCThreads_idempotent exampleStartedNode).2.1 rfl⟩

/-! ## Starting the server (C26) -/

theorem map_assign_keys {α : Type} (m : List (String × α)) (k : String) (v : α) :
    (map_assign m k v).map Prod.fst
      = if k ∈ m.map Prod.fst then m.map Prod.fst else m.map Prod.fst ++ [k] := by
  induction m with
  | nil => simp [map_assign]
  | cons p rest ih =>
    obtain ⟨k0, v0⟩ := p
    by_cases h0 : k0 = k
    · subst h0
      simp [map_assign]
    · have hk : ¬ k = k0 := fun h => h0 h.symm
      by_cases hmem : k ∈ rest.map Prod.fst
      · simp only [map_assign, h0, if_false, List.map_cons, ih, hmem, if_true,
          List.mem_cons, or_true]
      · simp only [map_assign, h0, if_false, List.map_cons, ih, hmem, if_false,
          List.mem_cons, hk, or_self, List.cons_append]

theorem map_find_eq_none_iff {α : Type} (m : List (String × α)) (k : String) :
    map_find m k = none ↔ k ∉ m.map Prod.fst := by
  induction m with
  | nil => simp [map_find]
  | cons p rest ih =>
    obtain ⟨k0, v0⟩ := p
    by_cases h0 : k0 = k
    · subst h0
      simp [map_find]
    · have hk : ¬ k = k0 := fun h => h0 h.symm
      simp [map_find, h0, hk, ih]

theorem RPCRunHandler_aborted (func : Nat) : RPCRunHandler true func = [] := rfl

theorem RPCRunLater_started (name : String) (func : Nat) (nSeconds : Int) (node : Node)
    (hs : node.rpc_io_service = true) :
    RPCRunLater name func nSeconds node
      = some ⟨(),
          { node with
            deadlineTimers :=
              map_assign
                (if (map_find node.deadlineTimers name).isNone then
                  map_assign node.deadlineTimers name { wait := none }
                else node.deadlineTimers)
                name { wait := some (nSeconds, func) } },
          match
            map_find
              (if (map_find node.deadlineTimers name).isNone then
                map_assign node.deadlineTimers name { wait := none }
              else node.deadlineTimers)
              name with
          | some { wait := some (_, superseded) } => RPCRunHandler true superseded
          | _ => []⟩ := by
  simp only [RPCRunLater, hs, Bool.not_true, Bool.false_eq_true, if_false]

/-- One call of `RPCRunLater` on a started server: it returns, runs no callback, and
leaves in the registry the keys it had plus `name`, with the new wait under `name` and
every other timer as it was. -/
theorem RPCRunLater_step (name : String) (func : Nat) (nSeconds : Int) (node : Node)
    (hs : node.rpc_io_service = true) :
    ∃ e, RPCRunLater name func nSeconds node = some e
      ∧ e.trace = []
      ∧ e.node.rpc_io_service = true
      ∧ e.node.deadlineTimers.map Prod.fst
          = (if name ∈ node.deadlineTimers.map Prod.fst then node.deadlineTimers.map Prod.fst
             else node.deadlineTimers.map Prod.fst ++ [name])
      ∧ ∀ k, map_find e.node.deadlineTimers k
          = if name = k then some ⟨some (nSeconds, func)⟩ else map_find node.deadlineTimers k := by
  refine ⟨_, RPCRunLater_started name func nSeconds node hs, ?_, hs, ?_, ?_⟩
  · dsimp only
    split
    · rfl
    · rfl
  · dsimp only
    by_cases hmem : name ∈ node.deadlineTimers.map Prod.fst
    · have hfind : ¬ map_find node.deadlineTimers name = none :=
        fun h => (map_find_eq_none_iff _ _).1 h hmem
      have hnone : (map_find node.deadlineTimers name).isNone = false := by
        cases hf : map_find node.deadlineTimers name with
        | none => exact absurd hf hfind
        | some t => rfl
      simp only [hnone, Bool.false_eq_true, if_false, map_assign_keys, hmem, if_true]
    · have hfind : map_find node.deadlineTimers name = none :=
        (map_find_eq_none_iff _ _).2 hmem
      simp [hfind, map_assign_keys, hmem]
  · intro k
    dsimp only
    by_cases hmem : name ∈ node.deadlineTimers.map Prod.fst
    · have hfind : ¬ map_find node.deadlineTimers name = none :=
        fun h => (map_find_eq_none_iff _ _).1 h hmem
      have hnone : (map_find node.deadlineTimers name).isNone = false := by
        cases hf : map_find node.deadlineTimers name with
        | none => exact absurd hf hfind
        | some t => rfl
      simp only [hnone, Bool.false_eq_true, if_false, map_find_map_assign]
    · have hfind : map_find node.deadlineTimers name = none :=
        (map_find_eq_none_iff _ _).2 hmem
      simp only [hfind, Option.isNone_none, if_true, map_find_map_assign]
      by_cases hk : name = k
      · simp [hk]
      · simp [hk]

theorem RPCRunLater_sequence_append (a b : List (String × Nat × Int)) (node : Node) :
    RPCRunLater.sequence (a ++ b) node
      = match RPCRunLater.sequence a node with
        | none => none
        | some first =>
          match RPCRunLater.sequence b first.node with
          | none => none
          | some more => some ⟨(), more.node, first.trace ++ more.trace⟩ := by
  induction a generalizing node with
  | nil =>
    simp only [List.nil_append, RPCRunLater.sequence, List.nil_append]
    cases RPCRunLater.sequence b node <;> rfl
  | cons c rest ih =>
    obtain ⟨name, func, nSeconds⟩ := c
    simp only [List.cons_append, RPCRunLater.sequence]
    cases RPCRunLater name func nSeconds node with
    | none => rfl
    | some first =>
      simp only [show rest.append b = rest ++ b from rfl, ih]
      cases RPCRunLater.sequence rest first.node with
      | none => rfl
      | some middle =>
        simp only
        cases RPCRunLater.sequence b middle.node with
        | none => rfl
        | some more => simp

/-- A sequence of calls of `RPCRunLater` on a started server: it returns, runs no
callback, keeps the keys of the registry pairwise different, leaves exactly the keys it
had and the names registered, and does not touch the timer of a name it does not
register. -/
theorem RPCRunLater_sequence_spec (calls : List (String × Nat × Int)) (node : Node)
    (hs : node.rpc_io_service = true) :
    ∃ e, RPCRunLater.sequence calls node = some e
      ∧ e.trace = []
      ∧ e.node.rpc_io_service = true
      ∧ ((node.deadlineTimers.map Prod.fst).Nodup → (e.node.deadlineTimers.map Prod.fst).Nodup)
      ∧ (∀ k, k ∈ e.node.deadlineTimers.map Prod.fst
            ↔ k ∈ node.deadlineTimers.map Prod.fst ∨ k ∈ calls.map Prod.fst)
      ∧ (∀ k, k ∉ calls.map Prod.fst →
            map_find e.node.deadlineTimers k = map_find node.deadlineTimers k) := by
  induction calls generalizing node with
  | nil => exact ⟨_, rfl, rfl, hs, id, by simp, fun _ _ => rfl⟩
  | cons c rest ih =>
    obtain ⟨name, func, nSeconds⟩ := c
    obtain ⟨first, hfirst, htrace1, hs1, hkeys1, hfind1⟩ :=
      RPCRunLater_step name func nSeconds node hs
    obtain ⟨more, hmore, htrace2, hs2, hnodup2, hmem2, hframe2⟩ := ih first.node hs1
    refine ⟨⟨(), more.node, first.trace ++ more.trace⟩, ?_, ?_, hs2, ?_, ?_, ?_⟩
    · simp only [RPCRunLater.sequence, hfirst, hmore]
    · simp [htrace1, htrace2]
    · intro hnodup
      apply hnodup2
      rw [hkeys1]
      split
      · exact hnodup
      · next hmem =>
        exact List.Nodup.append hnodup (List.nodup_singleton _)
          (by simpa [List.disjoint_singleton] using hmem)
    · intro k
      simp only [hmem2, hkeys1, List.map_cons, List.mem_cons]
      split
      · next hmem =>
        constructor
        · rintro (h | h)
          · exact Or.inl h
          · exact Or.inr (Or.inr h)
        · rintro (h | h | h)
          · exact Or.inl h
          · exact Or.inl (h ▸ hmem)
          · exact Or.inr h
      · simp only [List.mem_append, List.mem_singleton]
        tauto
    · intro k hk
      simp only [List.map_cons, List.mem_cons, not_or] at hk
      have hne : ¬ name = k := fun h => hk.1 h.symm
      rw [hframe2 k hk.2, hfind1 k, if_neg hne]

theorem deadline_timer_expire_pending (name : String) (func : Nat) (nSeconds : Int)
    (node : Node)
    (h : map_find node.deadlineTimers name = some ⟨some (nSeconds, func)⟩) :
    (deadline_timer.expire name node).trace = [Event.func func]
    ∧ (deadline_timer.expire name (deadline_timer.expire name node).node).trace = [] := by
  have h1 : deadline_timer.expire name node
      = ⟨(), { node with deadlineTimers := map_assign node.deadlineTimers name { wait := none } },
          RPCRunHandler false func⟩ := by
    simp only [deadline_timer.expire, h]
  have h2 : map_find (map_assign node.deadlineTimers name ({ wait := none } : deadline_timer)) name
      = some ⟨none⟩ := by
    rw [map_find_map_assign, if_pos rfl]
  refine ⟨by rw [h1]; rfl, ?_⟩
  rw [h1]
  simp only [deadline_timer.expire, h2]

/-- C23: for every sequence of `RPCRunLater` calls on a started server whose registry
`deadlineTimers` starts empty, the calls all return and the registry holds one timer per
name: its keys are pairwise different and its size is the number of distinct names
registered. Registering runs no callback: `RPCRunHandler` does nothing for a cancelled
wait and runs the callback for a wait that completes without error. For each name, the
pending wait is the one of the most recent registration of that name, with its delay and
its callback; when the timer expires exactly that callback is run, once, and nothing is
left to run for that name. -/
theorem C23_RPCRunLater (calls : List (String × Nat × Int)) (node : Node)
    (hs : node.rpc_io_service = true) (hempty : node.deadlineTimers = []) :
    ∃ e, RPCRunLater.sequence calls node = some e
      ∧ (e.node.deadlineTimers.map Prod.fst).Nodup
      ∧ e.node.deadlineTimers.length = (calls.map Prod.fst).dedup.length
      ∧ e.trace = []
      ∧ (∀ func, RPCRunHandler true func = [] ∧ RPCRunHandler false func = [Event.func func])
      ∧ ∀ before name func nSeconds after,
          calls = before ++ (name, func, nSeconds) :: after → name ∉ after.map Prod.fst →
          map_find e.node.deadlineTimers name = some ⟨some (nSeconds, func)⟩
          ∧ (deadline_timer.expire name e.node).trace = [Event.func func]
          ∧ (deadline_timer.expire name (deadline_timer.expire name e.node).node).trace = [] := by
  obtain ⟨e, he, htrace, _, hnodup, hmem, _⟩ := RPCRunLater_sequence_spec calls node hs
  have hnd : (e.node.deadlineTimers.map Prod.fst).Nodup := hnodup (by simp [hempty])
  refine ⟨e, he, hnd, ?_, htrace, fun _ => ⟨rfl, rfl⟩, ?_⟩
  · have hperm : (e.node.deadlineTimers.map Prod.fst).Perm (calls.map Prod.fst).dedup := by
      rw [List.perm_ext_iff_of_nodup hnd (List.nodup_dedup _)]
      intro k
      rw [hmem k, List.mem_dedup, hempty]
      simp
    simpa using hperm.length_eq
  · intro before name func nSeconds after hcalls hlast
    obtain ⟨e1, he1, _, hs1, _, _, _⟩ := RPCRunLater_sequence_spec before node hs
    obtain ⟨e2, he2, _, hs2, _, hfind2⟩ := RPCRunLater_step name func nSeconds e1.node hs1
    obtain ⟨e3, he3, _, _, _, _, hframe3⟩ := RPCRunLater_sequence_spec after e2.node hs2
    have hnode : e.node = e3.node := by
      have hrun : RPCRunLater.sequence calls node
          = some ⟨(), e3.node, e1.trace ++ (e2.trace ++ e3.trace)⟩ := by
        rw [hcalls, RPCRunLater_sequence_append, he1]
        simp only [RPCRunLater.sequence, he2, he3]
      rw [he] at hrun
      have heq := Option.some.inj hrun
      rw [heq]
    have hfind : map_find e.node.deadlineTimers name = some ⟨some (nSeconds, func)⟩ := by
      rw [hnode, hframe3 name hlast, hfind2 name, if_pos rfl]
    exact ⟨hfind, deadline_timer_expire_pending name func nSeconds e.node hfind⟩

/-- Witness for C23: after the three calls of `exampleCalls` the registry holds two
timers, no callback has run, and the expiry of `lockwallet` runs callback 3, the one
registered last, and not the superseded callback 1. -/
theorem C23_RPCRunLater_witness :
    exampleRunningNode.rpc_io_service = true
    ∧ exampleRunningNode.deadlineTimers = []
    ∧ ∃ e, RPCRunLater.sequence exampleCalls exampleRunningNode = some e
        ∧ e.node.deadlineTimers.length = 2
        ∧ e.trace = []
        ∧ map_find e.node.deadlineTimers "lockwallet" = some ⟨some (10, 3)⟩
        ∧ (deadline_timer.expire "lockwallet" e.node).trace = [Event.func 3] :=
  ⟨rfl, rfl,
    match C23_RPCRunLater exampleCalls exampleRunningNode rfl rfl with
    | ⟨e, he, _, hlen, htrace, _, hlast⟩ =>
      have h := hlast [("lockwallet", 1, 60), ("keypoolrefill", 2, 5)] "lockwallet" 3 10 []
        rfl (by simp)
      ⟨e, he, hlen.trans (by decide), htrace, h.1, h.2.1⟩⟩

/-! ## The summary of all commands (C21) -/

theorem string_less_go_le_trans (a b c : List Char)
    (hab : string_less.go b a = false) (hbc : string_less.go c b = false) :
    string_less.go c a = false := by
  induction a generalizing b c with
  | nil => cases c <;> rfl
  | cons x xs ih =>
    cases b with
    | nil => simp [string_less.go] at hab
    | cons y ys =>
      cases c with
      | nil => simp [string_less.go] at hbc
      | cons z zs =>
        simp only [string_less.go] at hab hbc ⊢
        by_cases h1 : y.toNat < x.toNat
        · simp [h1] at hab
        · by_cases h3 : z.toNat < y.toNat
          · simp [h3] at hbc
          · by_cases h2 : x.toNat < y.toNat
            · have h4 : ¬ z.toNat < x.toNat := by omega
              have h5 : x.toNat < z.toNat := by omega
              simp [h4, h5]
            · by_cases h6 : y.toNat < z.toNat
              · have h4 : ¬ z.toNat < x.toNat := by omega
                have h5 : x.toNat < z.toNat := by omega
                simp [h4, h5]
              · have h4 : ¬ z.toNat < x.toNat := by omega
                have h5 : ¬ x.toNat < z.toNat := by omega
                simp only [h1, h2, h3, h6, if_false] at hab hbc
                simp only [h4, h5, if_false]
                exact ih ys zs hab hbc

theorem string_less_go_total (a b : List Char) :
    string_less.go b a = false ∨ string_less.go a b = false := by
  induction a generalizing b with
  | nil => cases b <;> simp [string_less.go]
  | cons x xs ih =>
    cases b with
    | nil => simp [string_less.go]
    | cons y ys =>
      simp only [string_less.go]
      by_cases h1 : y.toNat < x.toNat
      · have h2 : ¬ x.toNat < y.toNat := by omega
        simp [h1, h2]
      · by_cases h2 : x.toNat < y.toNat
        · simp [h1, h2]
        · simp only [h1, h2, if_false]
          exact ih ys

theorem string_less_go_antisymm (a b : List Char)
    (hab : string_less.go a b = false) (hba : string_less.go b a = false) : a = b := by
  induction a generalizing b with
  | nil =>
    cases b with
    | nil => rfl
    | cons y ys => simp [string_less.go] at hab
  | cons x xs ih =>
    cases b with
    | nil => simp [string_less.go] at hba
    | cons y ys =>
      simp only [string_less.go] at hab hba
      by_cases h1 : x.toNat < y.toNat
      · simp [h1] at hab
      · by_cases h2 : y.toNat < x.toNat
        · simp [h2] at hba
        · simp only [h1, h2, if_false] at hab hba
          have hxy : x = y := by
            apply Char.ext
            apply UInt32.ext
            have : x.toNat = y.toNat := by omega
            exact this
          rw [hxy, ih ys hab hba]

/-- The order in which a map is iterated is ascending in the keys. -/
theorem map_iterate_sorted {α : Type} (m : List (String × α)) :
    (map_iterate m).Pairwise (fun x y => string_less y.1 x.1 = false) := by
  haveI : IsTotal (String × α) (fun x y => string_less y.1 x.1 = false) :=
    ⟨fun x y => string_less_go_total x.1.data y.1.data⟩
  haveI : IsTrans (String × α) (fun x y => string_less y.1 x.1 = false) :=
    ⟨fun x y z hxy hyz => string_less_go_le_trans x.1.data y.1.data z.1.data hxy hyz⟩
  exact List.sorted_insertionSort (fun x y : String × α => string_less y.1 x.1 = false) m

/-- Different strings of which the second is not below the first: the first is below
the second. -/
theorem string_less_of_ne (a b : String) (hne : a ≠ b) (h : string_less b a = false) :
    string_less a b = true := by
  cases hlt : string_less a b with
  | true => rfl
  | false =>
    exact absurd (String.ext (string_less_go_antisymm a.data b.data hlt h)) hne

theorem vRPCCommands_symbols_nodup (B : Build) :
    ((vRPCCommands B).map (fun c => c.symbol)).Nodup := by
  unfold vRPCCommands
  cases B.ENABLE_WALLET
  · simp only [Bool.false_eq_true, if_false, vRPCCommandsBase, List.map_cons, List.map_nil]
    decide
  · simp only [if_true, vRPCCommandsBase, vRPCCommandsWallet, List.map_cons, List.map_nil,
      List.cons_append, List.nil_append]
    decide

theorem intercalate_go_eq_foldl (s : String) (l : List String) (acc : String) :
    String.intercalate.go acc s l = l.foldl (fun acc x => acc ++ s ++ x) acc := by
  induction l generalizing acc with
  | nil => rfl
  | cons a rest ih => simp only [String.intercalate.go, List.foldl_cons, ih]

theorem foldl_lines_eq (a : String) (l : List String) :
    l.foldl (fun acc x => acc ++ x ++ "\n") (a ++ "\n")
      = l.foldl (fun acc x => acc ++ "\n" ++ x) a ++ "\n" := by
  induction l generalizing a with
  | nil => rfl
  | cons b rest ih =>
    simp only [List.foldl_cons]
    rw [← ih (a ++ "\n" ++ b)]

/-- Lines that are each followed by a newline are the lines joined by newlines, followed
by one newline. -/
theorem foldl_lines_intercalate (a : String) (l : List String) :
    (a :: l).foldl (fun acc x => acc ++ x ++ "\n") ""
      = "\n".intercalate (a :: l) ++ "\n" := by
  simp only [List.foldl_cons, String.intercalate, intercalate_go_eq_foldl]
  rw [show ("" : String) ++ a = a from String.empty_append a]
  exact foldl_lines_eq a l

/-- The loop of `CRPCTable::help` for the empty command name, over rows with pairwise
different handlers none of which is in `setDone`, when each handler in describe mode
throws its usage text and leaves the state alone: the loop appends, for each row it does
not skip, the first line of the usage text and a newline. -/
theorem help_loop_all (B : Build) (usage : String → String)
    (l : List (String × CRPCCommand))
    (hsym : (l.map (fun e => e.2.symbol)).Nodup)
    (hcontract : ∀ e ∈ l, ∀ n : Node,
      e.2.actor [] true n = (.error (.exception (usage e.1)), n))
    (strRet : String) (setDone : List String)
    (hdone : ∀ e ∈ l, e.2.symbol ∉ setDone) (node : Node) :
    (CRPCTable.help.loop B "" l strRet setDone node).ret
        = .ok ((l.filter (fun e => !string_contains e.1 "label"
                  && !(B.ENABLE_WALLET && e.2.reqWallet && !node.pwalletMain))).foldl
                (fun acc e =>
                  acc ++ String.mk ((usage e.1).data.takeWhile (fun c => c ≠ '\n')) ++ "\n")
                strRet)
    ∧ (CRPCTable.help.loop B "" l strRet setDone node).node = node := by
  induction l generalizing strRet setDone with
  | nil => exact ⟨rfl, rfl⟩
  | cons e rest ih =>
    obtain ⟨strMethod, pcmd⟩ := e
    simp only [List.map_cons, List.nodup_cons] at hsym
    have hrest : ∀ (strRet : String) (setDone : List String),
        (∀ e ∈ rest, e.2.symbol ∉ setDone) → _ :=
      fun strRet setDone hd =>
        ih hsym.2 (fun e he => hcontract e (List.mem_cons_of_mem _ he)) strRet setDone hd
    have hd0 : ∀ e ∈ rest, e.2.symbol ∉ setDone :=
      fun e he => hdone e (List.mem_cons_of_mem _ he)
    unfold CRPCTable.help.loop
    by_cases hlabel : string_contains strMethod "label" = true
    · simp only [hlabel, if_true]
      rw [List.filter_cons_of_neg]
      · exact hrest strRet setDone hd0
      · simp [hlabel]
    · have hlabel : string_contains strMethod "label" = false := by
        simpa using hlabel
      simp only [hlabel, Bool.false_eq_true, if_false, ne_eq, not_true_eq_false,
        decide_False, Bool.false_and]
      by_cases hwallet : (B.ENABLE_WALLET && pcmd.reqWallet && !node.pwalletMain) = true
      · simp only [hwallet, if_true]
        rw [List.filter_cons_of_neg]
        · exact hrest strRet setDone hd0
        · simp only [hwallet, hlabel]
          decide
      · have hwallet : (B.ENABLE_WALLET && pcmd.reqWallet && !node.pwalletMain) = false := by
          simpa using hwallet
        have hnot : setDone.contains pcmd.symbol = false := by
          have := hdone (strMethod, pcmd) (List.mem_cons_self _ _)
          simpa using this
        have hact := hcontract (strMethod, pcmd) (List.mem_cons_self _ _) node
        simp only at hact
        have hd1 : ∀ e ∈ rest, e.2.symbol ∉ pcmd.symbol :: setDone := by
          intro e he hmem
          rcases List.mem_cons.mp hmem with h | h
          · exact hsym.1 (List.mem_map.mpr ⟨e, he, h⟩)
          · exact hd0 e he h
        have := hrest
          (strRet ++ String.mk ((usage strMethod).data.takeWhile (fun c => c ≠ '\n')) ++ "\n")
          (pcmd.symbol :: setDone) hd1
        simp only [hwallet, Bool.false_eq_true, if_false, hnot, hact, if_true]
        rw [List.filter_cons_of_pos]
        · exact this
        · simp only [hwallet, hlabel]
          decide

theorem help_mem_vRPCCommands (B : Build) :
    ∃ c ∈ vRPCCommands B, c.name = "help" ∧ c.reqWallet = false := by
  refine ⟨⟨"help", B.actor "help", true, true, false, "help"⟩, ?_, rfl, rfl⟩
  unfold vRPCCommands
  split <;> simp [vRPCCommandsBase]

theorem vRPCCommands_reqWallet_ENABLE_WALLET (B : Build) (c : CRPCCommand)
    (hc : c ∈ vRPCCommands B) (hreq : c.reqWallet = true) : B.ENABLE_WALLET = true := by
  cases hB : B.ENABLE_WALLET with
  | true => rfl
  | false =>
    simp only [vRPCCommands, hB, Bool.false_eq_true, if_false] at hc
    have := vRPCCommandsBase_reqWallet B.actor c hc
    rw [hreq] at this
    exact absurd this (by simp)

/-- C21: when every registered handler, called in describe mode, throws its usage text
and leaves the state alone, `CRPCTable::help("")` returns, leaves the state alone, and its
text is the first lines of the usage texts (each usage text up to its first newline) of
the listed commands, in strictly ascending order of command name, joined by newlines with
no newline at the end. The listed commands are the registered commands but those whose
name contains `label` and those that require the wallet when there is no wallet. -/
theorem C21_help_all (B : Build) (usage : String → String) (node : Node)
    (hcontract : ∀ c ∈ vRPCCommands B, ∀ n : Node,
      c.actor [] true n = (.error (.exception (usage c.name)), n)) :
    ∃ names : List String,
      names.Pairwise (fun a b => string_less a b = true)
      ∧ (∀ name, name ∈ names ↔
          ∃ c ∈ vRPCCommands B, c.name = name ∧ string_contains name "label" = false
            ∧ ¬ (c.reqWallet = true ∧ node.pwalletMain = false))
      ∧ (CRPCTable.help B "" node).ret
          = .ok ("\n".intercalate
              (names.map (fun name =>
                String.mk ((usage name).data.takeWhile (fun c => c ≠ '\n')))))
      ∧ (CRPCTable.help B "" node).node = node := by
  have hperm := map_iterate_perm (tableRPC B).mapCommands
  have hkeys : ((map_iterate (tableRPC B).mapCommands).map Prod.fst).Nodup := by
    rw [(hperm.map Prod.fst).nodup_iff, tableRPC_mapCommands, List.map_map]
    exact vRPCCommands_names_nodup B
  have hsym : ((map_iterate (tableRPC B).mapCommands).map (fun e => e.2.symbol)).Nodup := by
    rw [(hperm.map (fun e => e.2.symbol)).nodup_iff, tableRPC_mapCommands, List.map_map]
    exact vRPCCommands_symbols_nodup B
  have hcon : ∀ e ∈ map_iterate (tableRPC B).mapCommands, ∀ n : Node,
      e.2.actor [] true n = (.error (.exception (usage e.1)), n) := by
    intro e he n
    obtain ⟨hmem, hname⟩ := mem_map_iterate_tableRPC B e he
    rw [hname]
    exact hcontract e.2 hmem n
  obtain ⟨hret, hnode⟩ := help_loop_all B usage (map_iterate (tableRPC B).mapCommands)
    hsym hcon "" [] (fun _ _ => List.not_mem_nil _) node
  have hsorted := map_iterate_sorted (tableRPC B).mapCommands
  -- the names of the commands that are not skipped
  have hmemnames : ∀ name,
      name ∈ ((map_iterate (tableRPC B).mapCommands).filter
          (fun e => !string_contains e.1 "label"
            && !(B.ENABLE_WALLET && e.2.reqWallet && !node.pwalletMain))).map Prod.fst
      ↔ ∃ c ∈ vRPCCommands B, c.name = name ∧ string_contains name "label" = false
            ∧ ¬ (c.reqWallet = true ∧ node.pwalletMain = false) := by
    intro name
    simp only [List.mem_map, List.mem_filter]
    constructor
    · rintro ⟨e, ⟨he, hp⟩, rfl⟩
      obtain ⟨hmem, hname⟩ := mem_map_iterate_tableRPC B e he
      refine ⟨e.2, hmem, hname.symm, ?_, ?_⟩
      · cases hlabel : string_contains e.1 "label" with
        | false => rfl
        | true => simp [hlabel] at hp
      · rintro ⟨hreq, hw⟩
        have hE := vRPCCommands_reqWallet_ENABLE_WALLET B e.2 hmem hreq
        simp [hE, hreq, hw] at hp
    · rintro ⟨c, hc, rfl, hlabel, hw⟩
      refine ⟨(c.name, c), ⟨?_, ?_⟩, rfl⟩
      · apply hperm.mem_iff.mpr
        rw [tableRPC_mapCommands]
        exact List.mem_map_of_mem _ hc
      · cases hreq : c.reqWallet with
        | false => simp [hlabel]
        | true =>
          have hpw : node.pwalletMain = true := by
            cases hpw : node.pwalletMain with
            | true => rfl
            | false => exact absurd ⟨hreq, hpw⟩ hw
          simp [hlabel, hpw]
  refine ⟨((map_iterate (tableRPC B).mapCommands).filter
      (fun e => !string_contains e.1 "label"
        && !(B.ENABLE_WALLET && e.2.reqWallet && !node.pwalletMain))).map Prod.fst,
    ?_, hmemnames, ?_, ?_⟩
  · -- ascending, and strictly so since the names are pairwise different
    have hsub := @List.filter_sublist _
      (fun e : String × CRPCCommand => !string_contains e.1 "label"
        && !(B.ENABLE_WALLET && e.2.reqWallet && !node.pwalletMain))
      (map_iterate (tableRPC B).mapCommands)
    have hle := List.Pairwise.sublist hsub hsorted
    have hne := List.Pairwise.sublist (hsub.map Prod.fst) hkeys
    rw [List.pairwise_map] at hne ⊢
    exact (hle.and hne).imp (fun h => string_less_of_ne _ _ h.2 h.1)
  · obtain ⟨c, hc, hname, hreq⟩ := help_mem_vRPCCommands B
    have hhelp := (hmemnames "help").mpr
      ⟨c, hc, hname, by decide, fun h => by rw [hreq] at h; exact absurd h.1 (by simp)⟩
    unfold CRPCTable.help
    simp only [hret, hnode]
    rw [← List.foldl_map (fun e : String × CRPCCommand =>
          String.mk ((usage e.1).data.takeWhile (fun c => c ≠ '\n')))
        (fun acc x => acc ++ x ++ "\n") _ ""] 
    rw [List.map_map]
    cases hlines : ((map_iterate (tableRPC B).mapCommands).filter
        (fun e => !string_contains e.1 "label"
          && !(B.ENABLE_WALLET && e.2.reqWallet && !node.pwalletMain))) with
    | nil => rw [hlines] at hhelp; exact absurd hhelp (List.not_mem_nil _)
    | cons e rest =>
      simp only [List.map_cons]
      rw [foldl_lines_intercalate]
      simp only [append_newline_ne_empty, if_false]
      rw [substr_drop_newline]
      rfl
  · unfold CRPCTable.help
    simp only [hret, hnode]

theorem exampleDescribeBuild_contract :
    ∀ c ∈ vRPCCommands exampleDescribeBuild, ∀ n : Node,
      c.actor [] true n = (.error (.exception (exampleUsage c.name)), n) := by
  intro c hc n
  simp only [vRPCCommands, exampleDescribeBuild, exampleBuild, if_true, vRPCCommandsBase,
    vRPCCommandsWallet, List.cons_append, List.nil_append, List.mem_cons,
    List.mem_singleton] at hc
  repeat (rcases hc with rfl | hc; · rfl)
  exact absurd hc (List.not_mem_nil _)

/-- Witness for C21: the wallet-enabled example build whose handlers throw a two-line
usage text, on a node without wallet. -/
theorem C21_help_all_witness :
    (∀ c ∈ vRPCCommands exampleDescribeBuild, ∀ n : Node,
      c.actor [] true n = (.error (.exception (exampleUsage c.name)), n))
    ∧ ∃ names : List String,
      names.Pairwise (fun a b => string_less a b = true)
      ∧ (∀ name, name ∈ names ↔
          ∃ c ∈ vRPCCommands exampleDescribeBuild, c.name = name
            ∧ string_contains name "label" = false
            ∧ ¬ (c.reqWallet = true ∧ exampleNode.pwalletMain = false))
      ∧ (CRPCTable.help exampleDescribeBuild "" exampleNode).ret
          = .ok ("\n".intercalate
              (names.map (fun name =>
                String.mk ((exampleUsage name).data.takeWhile (fun c => c ≠ '\n')))))
      ∧ (CRPCTable.help exampleDescribeBuild "" exampleNode).node = exampleNode :=
  ⟨exampleDescribeBuild_contract,
    C21_help_all exampleDescribeBuild exampleUsage exampleNode exampleDescribeBuild_contract⟩

/-! ## The single request and the batch element (C31) -/

/-- C31: for an authenticated request whose body reads as a JSON object, in any node
state, when an error object that the dispatcher lets through carries an integer `code`:
the loop body of `ServiceConnection` performs the actions of `JSONRPCExecOne` on that
object, leaves the node in the same state, and then writes one reply, whose body is
`JSONRPCReply` of the very `result`, `error` and `id` from which `JSONRPCExecOne` builds
its response object with `JSONRPCReplyObj`. After a success the reply has status 200 and
the keep-alive flag of the request; after a failure it is written by `ErrorReply`, with
keep-alive off and the status that belongs to the code of the error. -/
theorem C31_single_reply_matches_batch_element (B : Build) (req : HTTPRequest) (node : Node)
    (members : Object)
    (hauth : ServiceConnection.authenticated B req node = true)
    (hread : B.read_string req.strRequest = some (Value.obj members))
    (hcode : ∀ jreq objError, JSONRequest.new.parse (Value.obj members) = (.ok (), jreq) →
      (CRPCTable.execute B jreq.strMethod jreq.params node).ret = .error (.object objError) →
      ∃ code, (find_value objError "code").get_int = some code) :
    ∃ (result error id : Value) (nStatus : Nat) (keepalive : Bool),
      (JSONRPCExecOne B (Value.obj members) node).ret = JSONRPCReplyObj result error id
      ∧ (ServiceConnection.body B req node).trace
          = Event.read_string req.strRequest
              :: (JSONRPCExecOne B (Value.obj members) node).trace
              ++ [Event.reply nStatus (JSONRPCReply B result error id) keepalive]
      ∧ replies (ServiceConnection.body B req node).trace
          = [(nStatus, JSONRPCReply B result error id, keepalive)]
      ∧ (ServiceConnection.body B req node).node
          = (JSONRPCExecOne B (Value.obj members) node).node
      ∧ ((error = Value.null ∧ nStatus = HTTP_OK ∧ keepalive = ServiceConnection.fRun req)
          ∨ (∃ objError code, error = Value.obj objError ∧ result = Value.null
              ∧ (find_value objError "code").get_int = some code
              ∧ nStatus = (if code = RPC_INVALID_REQUEST then HTTP_BAD_REQUEST
                           else if code = RPC_METHOD_NOT_FOUND then HTTP_NOT_FOUND
                           else HTTP_INTERNAL_SERVER_ERROR)
              ∧ keepalive = false)) := by
  rcases hp : JSONRequest.new.parse (Value.obj members) with ⟨r, jreq⟩
  cases r with
  | error t =>
    obtain ⟨message, ht, hbody⟩ := body_single_parse_error B req node members jreq t hauth hread hp
    subst ht
    refine ⟨Value.null, Value.obj (JSONRPCError RPC_INVALID_REQUEST message), jreq.id,
      HTTP_BAD_REQUEST, false, ?_, ?_, ?_, ?_, Or.inr ⟨_, RPC_INVALID_REQUEST, rfl, rfl, ?_, ?_, rfl⟩⟩
    · simp only [JSONRPCExecOne, hp]
    · rw [hbody]
      simp only [JSONRPCExecOne, hp, List.nil_append]
      rfl
    · rw [hbody]
      rfl
    · rw [hbody]
      simp only [JSONRPCExecOne, hp]
    · rw [find_value_code_JSONRPCError]
      rfl
    · simp
  | ok u =>
    cases u
    cases he : (CRPCTable.execute B jreq.strMethod jreq.params node).ret with
    | ok result =>
      have hbody := body_single_success B req node members jreq result hauth hread hp he
      refine ⟨result, Value.null, jreq.id, HTTP_OK, ServiceConnection.fRun req,
        ?_, ?_, ?_, ?_, Or.inl ⟨rfl, rfl, rfl⟩⟩
      · simp only [JSONRPCExecOne, hp, he]
      · rw [hbody]
        simp only [JSONRPCExecOne, hp, he]
      · rw [hbody]
        simp [replies, replies_append, replies_execute]
      · rw [hbody]
        simp only [JSONRPCExecOne, hp, he]
    | error t =>
      cases t with
      | exception what => exact absurd he (execute_ret_ne_exception B _ _ _ what)
      | object objError =>
        obtain ⟨code, hc⟩ := hcode jreq objError hp he
        have hbody := body_single_execute_error B req node members jreq objError hauth hread hp he
        have hreply : ErrorReply B objError jreq.id
            = some [Event.reply
                (if code = RPC_INVALID_REQUEST then HTTP_BAD_REQUEST
                 else if code = RPC_METHOD_NOT_FOUND then HTTP_NOT_FOUND
                 else HTTP_INTERNAL_SERVER_ERROR)
                (JSONRPCReply B Value.null (Value.obj objError) jreq.id) false] := by
          simp only [ErrorReply, hc]
        rw [hreply] at hbody
        simp only at hbody
        refine ⟨Value.null, Value.obj objError, jreq.id, _, false, ?_, ?_, ?_, ?_,
          Or.inr ⟨objError, code, rfl, rfl, hc, rfl, rfl⟩⟩
        · simp only [JSONRPCExecOne, hp, he]
        · rw [hbody]
          simp only [JSONRPCExecOne, hp, he]
        · rw [hbody]
          simp [replies, replies_append, replies_execute]
        · rw [hbody]
          simp only [JSONRPCExecOne, hp, he]

theorem exampleBuild_nosuchmethod_code :
    ∀ jreq objError,
      JSONRequest.new.parse
          (Value.obj [("method", Value.str "nosuchmethod"), ("params", Value.array []),
            ("id", Value.int 1)]) = (.ok (), jreq) →
      (CRPCTable.execute exampleBuild jreq.strMethod jreq.params exampleNode).ret
        = .error (.object objError) →
      ∃ code, (find_value objError "code").get_int = some code := by
  intro jreq objError hp he
  have hparse : JSONRequest.new.parse
      (Value.obj [("method", Value.str "nosuchmethod"), ("params", Value.array []),
        ("id", Value.int 1)])
      = (.ok (), ⟨Value.int 1, "nosuchmethod", []⟩) := rfl
  rw [hparse] at hp
  have hj := (Prod.mk.inj hp).2
  subst hj
  have hexec : (CRPCTable.execute exampleBuild "nosuchmethod" [] exampleNode).ret
      = .error (.object (JSONRPCError RPC_METHOD_NOT_FOUND "Method not found")) := rfl
  rw [hexec] at he
  have ho := Thrown.object.inj (Except.error.inj he)
  subst ho
  exact ⟨RPC_METHOD_NOT_FOUND, rfl⟩

/-- Witness for C31: the request for the unregistered method `nosuchmethod`, sent alone
to the example build. -/
theorem C31_single_reply_matches_batch_element_witness :
    ServiceConnection.authenticated exampleBuild
        (exampleHTTPRequest (exampleText "nosuchmethod")) exampleNode = true
    ∧ exampleBuild.read_string (exampleHTTPRequest (exampleText "nosuchmethod")).strRequest
        = some (Value.obj [("method", Value.str "nosuchmethod"), ("params", Value.array []),
            ("id", Value.int 1)])
    ∧ ∃ (result error id : Value) (nStatus : Nat) (keepalive : Bool),
      (JSONRPCExecOne exampleBuild
          (Value.obj [("method", Value.str "nosuchmethod"), ("params", Value.array []),
            ("id", Value.int 1)]) exampleNode).ret = JSONRPCReplyObj result error id
      ∧ replies (ServiceConnection.body exampleBuild
          (exampleHTTPRequest (exampleText "nosuchmethod")) exampleNode).trace
          = [(nStatus, JSONRPCReply exampleBuild result error id, keepalive)] :=
  ⟨by decide, rfl,
    match C31_single_reply_matches_batch_element exampleBuild
      (exampleHTTPRequest (exampleText "nosuchmethod")) exampleNode
      [("method", Value.str "nosuchmethod"), ("params", Value.array []), ("id", Value.int 1)]
      (by decide) rfl exampleBuild_nosuchmethod_code with
    | ⟨result, error, id, nStatus, keepalive, hobj, _, hreplies, _, _⟩ =>
      ⟨result, error, id, nStatus, keepalive, hobj, hreplies⟩⟩

/-! ## Conversion of command-line arguments (C32) -/

theorem rpcCvtTable_members : rpcCvtTable.members = vRPCConvertParams := by
  decide

theorem convert_iff (method : String) (idx : Int) :
    rpcCvtTable.convert method idx = true ↔ (method, idx) ∈ vRPCConvertParams := by
  simp only [CRPCConvertTable.convert, rpcCvtTable_members, gt_iff_lt, decide_eq_true_eq,
    List.count_pos_iff]

theorem int_of_unsigned_small (idx : Nat) (h : idx < 2 ^ 31) : int_of_unsigned idx = idx := by
  have h1 : idx % 2 ^ 32 = idx := Nat.mod_eq_of_lt (by omega)
  simp only [int_of_unsigned, h1, h, if_true]

/-- A run of the loop of `RPCConvertValues` that returns: the values pushed before are
kept, and one value is pushed for each string, the parsed value at a position to convert
and the string itself elsewhere. -/
theorem RPCConvertValues_loop_ok (read_string : String → Option Value) (strMethod : String)
    (rest : List String) (idx : Nat) (params result : Array)
    (h : RPCConvertValues.loop read_string strMethod idx rest params = .ok result) :
    result.length = params.length + rest.length
    ∧ (∀ i, i < params.length → result[i]? = params[i]?)
    ∧ ∀ i (hi : i < rest.length),
        result[params.length + i]?
          = (if rpcCvtTable.convert strMethod (int_of_unsigned (idx + i)) then read_string rest[i]
             else some (Value.str rest[i])) := by
  induction rest generalizing idx params with
  | nil =>
    simp only [RPCConvertValues.loop] at h
    have hr := Except.ok.inj h
    subst hr
    exact ⟨rfl, fun _ _ => rfl, fun i hi => absurd hi (Nat.not_lt_zero _)⟩
  | cons strVal rest ih =>
    simp only [RPCConvertValues.loop] at h
    cases hc : rpcCvtTable.convert strMethod (int_of_unsigned idx) with
    | false =>
      simp only [hc, Bool.not_false, if_true] at h
      obtain ⟨hlen, hkeep, hnew⟩ := ih (idx + 1) (params ++ [Value.str strVal]) h
      simp only [List.length_append, List.length_singleton] at hlen hkeep hnew
      refine ⟨by simp only [List.length_cons]; omega, ?_, ?_⟩
      · intro i hi
        rw [hkeep i (by omega), List.getElem?_append_left hi]
      · intro i hi
        cases i with
        | zero =>
          rw [Nat.add_zero, hkeep params.length (by omega)]
          simp [hc]
        | succ j =>
          have := hnew j (by simpa using hi)
          rw [show params.length + (j + 1) = params.length + 1 + j by omega, this,
            show idx + 1 + j = idx + (j + 1) by omega]
          rfl
    | true =>
      simp only [hc, Bool.not_true, Bool.false_eq_true, if_false] at h
      cases hr : read_string strVal with
      | none => simp [hr] at h
      | some jVal =>
        simp only [hr] at h
        obtain ⟨hlen, hkeep, hnew⟩ := ih (idx + 1) (params ++ [jVal]) h
        simp only [List.length_append, List.length_singleton] at hlen hkeep hnew
        refine ⟨by simp only [List.length_cons]; omega, ?_, ?_⟩
        · intro i hi
          rw [hkeep i (by omega), List.getElem?_append_left hi]
        · intro i hi
          cases i with
          | zero =>
            rw [Nat.add_zero, hkeep params.length (by omega)]
            simp [hc, hr]
          | succ j =>
            have := hnew j (by simpa using hi)
            rw [show params.length + (j + 1) = params.length + 1 + j by omega, this,
              show idx + 1 + j = idx + (j + 1) by omega]
            rfl

/-- A run of the loop of `RPCConvertValues` that throws: it stopped at a position to
convert whose string the parser rejects, and the exception names that string. -/
theorem RPCConvertValues_loop_error (read_string : String → Option Value)
    (strMethod : String) (rest : List String) (idx : Nat) (params : Array) (t : Thrown)
    (h : RPCConvertValues.loop read_string strMethod idx rest params = .error t) :
    ∃ i, ∃ hi : i < rest.length,
      rpcCvtTable.convert strMethod (int_of_unsigned (idx + i)) = true
      ∧ read_string rest[i] = none
      ∧ t = .exception ("Error parsing JSON:" ++ rest[i]) := by
  induction rest generalizing idx params with
  | nil => simp [RPCConvertValues.loop] at h
  | cons strVal rest ih =>
    simp only [RPCConvertValues.loop] at h
    cases hc : rpcCvtTable.convert strMethod (int_of_unsigned idx) with
    | false =>
      simp only [hc, Bool.not_false, if_true] at h
      obtain ⟨i, hi, h1, h2, h3⟩ := ih (idx + 1) _ h
      refine ⟨i + 1, by simpa using hi, ?_, ?_, ?_⟩
      · rw [show idx + (i + 1) = idx + 1 + i by omega]
        exact h1
      · simpa using h2
      · simpa using h3
    | true =>
      simp only [hc, Bool.not_true, Bool.false_eq_true, if_false] at h
      cases hr : read_string strVal with
      | none =>
        simp only [hr] at h
        exact ⟨0, by simp, by simpa using hc, by simpa using hr,
          by simpa using (Except.error.inj h).symm⟩
      | some jVal =>
        simp only [hr] at h
        obtain ⟨i, hi, h1, h2, h3⟩ := ih (idx + 1) _ h
        refine ⟨i + 1, by simpa using hi, ?_, ?_, ?_⟩
        · rw [show idx + (i + 1) = idx + 1 + i by omega]
          exact h1
        · simpa using h2
        · simpa using h3

/-- For a method none of whose positions is to be converted, the loop of
`RPCConvertValues` pushes each string as it is. -/
theorem RPCConvertValues_loop_unlisted (read_string : String → Option Value)
    (strMethod : String) (hno : strMethod ∉ vRPCConvertParams.map Prod.fst)
    (rest : List String) (idx : Nat) (params : Array) :
    RPCConvertValues.loop read_string strMethod idx rest params
      = .ok (params ++ rest.map Value.str) := by
  induction rest generalizing idx params with
  | nil => simp [RPCConvertValues.loop]
  | cons strVal rest ih =>
    have hc : rpcCvtTable.convert strMethod (int_of_unsigned idx) = false := by
      cases hc : rpcCvtTable.convert strMethod (int_of_unsigned idx) with
      | false => rfl
      | true => exact absurd (List.mem_map_of_mem Prod.fst ((convert_iff _ _).1 hc)) hno
    simp only [RPCConvertValues.loop, hc, Bool.not_false, if_true, ih, List.map_cons,
      List.append_assoc, List.singleton_append]

/-- C32: for every method name and every vector of argument strings (an argument vector
has fewer than 2^31 entries), `RPCConvertValues` either throws a `std::exception` or
returns an array. It throws exactly when some position `idx` with `(method, idx)` in
`vRPCConvertParams` holds a string that `read_string` rejects. The array it returns has
the length of the input; at a position listed in `vRPCConvertParams` it holds the value
that `read_string` parsed from the string, and at any other position the string itself
as a JSON string. For `getblockhash` and the one string `5` the result is the one value
parsed from `5`; for `getblockcount` and `validateaddress`, which have no listed
position, the result is the input strings as JSON strings. -/
theorem C32_RPCConvertValues (read_string : String → Option Value) (strMethod : String)
    (strParams : List String) (hargc : strParams.length ≤ 2 ^ 31) :
    ((∃ what, RPCConvertValues read_string strMethod strParams = .error (.exception what))
      ∨ ∃ params, RPCConvertValues read_string strMethod strParams = .ok params)
    ∧ ((∃ t, RPCConvertValues read_string strMethod strParams = .error t)
        ↔ ∃ idx, ∃ h : idx < strParams.length,
            (strMethod, (idx : Int)) ∈ vRPCConvertParams ∧ read_string strParams[idx] = none)
    ∧ (∀ params, RPCConvertValues read_string strMethod strParams = .ok params →
        params.length = strParams.length
        ∧ ∀ idx, ∀ h : idx < strParams.length,
            ((strMethod, (idx : Int)) ∈ vRPCConvertParams →
              ∃ jVal, read_string strParams[idx] = some jVal ∧ params[idx]? = some jVal)
            ∧ ((strMethod, (idx : Int)) ∉ vRPCConvertParams →
              params[idx]? = some (Value.str strParams[idx])))
    ∧ (∀ jVal, read_string "5" = some jVal →
        RPCConvertValues read_string "getblockhash" ["5"] = .ok [jVal])
    ∧ RPCConvertValues read_string "getblockcount" strParams = .ok (strParams.map Value.str)
    ∧ RPCConvertValues read_string "validateaddress" strParams
        = .ok (strParams.map Value.str) := by
  have hconv : ∀ idx, idx < strParams.length →
      (rpcCvtTable.convert strMethod (int_of_unsigned (0 + idx)) = true
        ↔ (strMethod, (idx : Int)) ∈ vRPCConvertParams) := by
    intro idx hidx
    rw [Nat.zero_add, int_of_unsigned_small idx (by omega), convert_iff]
  have hok : ∀ params, RPCConvertValues read_string strMethod strParams = .ok params →
      params.length = strParams.length
      ∧ ∀ idx, ∀ h : idx < strParams.length,
          params[idx]? = (if (strMethod, (idx : Int)) ∈ vRPCConvertParams
            then read_string strParams[idx] else some (Value.str strParams[idx])) := by
    intro params h
    obtain ⟨hlen, -, hnew⟩ := RPCConvertValues_loop_ok read_string strMethod strParams 0 []
      params h
    refine ⟨by simpa using hlen, fun idx hidx => ?_⟩
    have := hnew idx hidx
    simp only [List.length_nil, Nat.zero_add] at this
    rw [this]
    by_cases hm : (strMethod, (idx : Int)) ∈ vRPCConvertParams
    · rw [if_pos ((Nat.zero_add idx ▸ hconv idx hidx).2 hm), if_pos hm]
    · have hc : ¬ rpcCvtTable.convert strMethod (int_of_unsigned idx) = true :=
        fun hc => hm ((Nat.zero_add idx ▸ hconv idx hidx).1 hc)
      rw [if_neg hc, if_neg hm]
  refine ⟨?_, ⟨?_, ?_⟩, ?_, ?_, ?_, ?_⟩
  · cases h : RPCConvertValues read_string strMethod strParams with
    | ok params => exact Or.inr ⟨params, rfl⟩
    | error t =>
      obtain ⟨i, hi, -, -, ht⟩ := RPCConvertValues_loop_error read_string strMethod strParams
        0 [] t h
      exact Or.inl ⟨_, by rw [ht]⟩
  · rintro ⟨t, ht⟩
    obtain ⟨i, hi, hc, hr, -⟩ := RPCConvertValues_loop_error read_string strMethod strParams
      0 [] t ht
    exact ⟨i, hi, (hconv i hi).1 hc, hr⟩
  · rintro ⟨idx, hidx, hm, hr⟩
    cases h : RPCConvertValues read_string strMethod strParams with
    | error t => exact ⟨t, rfl⟩
    | ok params =>
      obtain ⟨hlen, hval⟩ := hok params h
      have := hval idx hidx
      rw [if_pos hm, hr, List.getElem?_eq_getElem (by omega)] at this
      exact absurd this (by simp)
  · intro params h
    obtain ⟨hlen, hval⟩ := hok params h
    refine ⟨hlen, fun idx hidx => ⟨fun hm => ?_, fun hm => ?_⟩⟩
    · have := hval idx hidx
      rw [if_pos hm, List.getElem?_eq_getElem (by omega)] at this
      exact ⟨params[idx], this.symm, by rw [List.getElem?_eq_getElem]⟩
    · have := hval idx hidx
      rw [if_neg hm] at this
      exact this
  · intro jVal h5
    have hc : rpcCvtTable.convert "getblockhash" (int_of_unsigned 0) = true := by
      rw [int_of_unsigned_small 0 (by norm_num), convert_iff]
      simp [vRPCConvertParams]
    simp only [RPCConvertValues, RPCConvertValues.loop, hc, Bool.not_true, Bool.false_eq_true,
      if_false, h5, List.nil_append]
  · have := RPCConvertValues_loop_unlisted read_string "getblockcount" (by decide) strParams 0 []
    simpa [RPCConvertValues] using this
  · have := RPCConvertValues_loop_unlisted read_string "validateaddress" (by decide)
      strParams 0 []
    simpa [RPCConvertValues] using this

/-- Witness for C32: `getblockhash` with the one argument `5`, read by a parser that reads
`5` as the number 5. -/
theorem C32_RPCConvertValues_witness :
    ["5"].length ≤ 2 ^ 31
    ∧ exampleBuild.read_string "5" = some (Value.int 5)
    ∧ RPCConvertValues exampleBuild.read_string "getblockhash" ["5"] = .ok [Value.int 5]
    ∧ RPCConvertValues exampleBuild.read_string "getblockcount" ["5"]
        = .ok [Value.str "5"] :=
  ⟨by norm_num, rfl,
    (C32_RPCConvertValues exampleBuild.read_string "getblockhash" ["5"]
      (by norm_num)).2.2.2.1 (Value.int 5) rfl,
    (C32_RPCConvertValues exampleBuild.read_string "getblockhash" ["5"]
      (by norm_num)).2.2.2.2.1⟩

/-! ## The walk down the best chain (C33) -/

/-- On a chain linked down from height `height` at `pblockindex`, the walk for a height
`nHeight` between 0 and `height` ends, once it may test its condition more than
`height - nHeight` times, on a block index of height `nHeight`, and it dereferences no
null pointer. -/
theorem walk_of_chain_linked (deref : Nat → Option CBlockIndex) (nHeight : Int)
    (hn : 0 ≤ nHeight) (height : Nat) (pblockindex : Nat) (fuel : Nat)
    (hchain : chain_linked deref height pblockindex = true)
    (hle : nHeight ≤ height) (hfuel : (height : Int) - nHeight < fuel) :
    ∃ found index, getblockbynumber.walk deref nHeight fuel (some pblockindex)
        = Walk.found found
      ∧ deref found = some index ∧ index.nHeight = nHeight := by
  induction height generalizing pblockindex fuel with
  | zero =>
    cases fuel with
    | zero => simp at hfuel; omega
    | succ fuel =>
      simp only [chain_linked] at hchain
      cases hd : deref pblockindex with
      | none => simp [hd] at hchain
      | some index =>
        simp only [hd, beq_iff_eq] at hchain
        have h0 : nHeight = 0 := by simp at hle; omega
        refine ⟨pblockindex, index, ?_, hd, by rw [hchain, h0]⟩
        simp [getblockbynumber.walk, hd, hchain, h0]
  | succ height ih =>
    cases fuel with
    | zero => simp at hfuel; omega
    | succ fuel =>
      simp only [chain_linked] at hchain
      cases hd : deref pblockindex with
      | none => simp [hd] at hchain
      | some index =>
        simp only [hd, Bool.and_eq_true, beq_iff_eq] at hchain
        obtain ⟨hheight, hprev⟩ := hchain
        by_cases htop : nHeight = (height + 1 : Nat)
        · refine ⟨pblockindex, index, ?_, hd, by rw [hheight, htop]⟩
          simp [getblockbynumber.walk, hd, hheight, htop]
        · cases hp : index.pprev with
          | none => simp [hp] at hprev
          | some pprev =>
            simp only [hp] at hprev
            have hlt : nHeight < index.nHeight := by
              rw [hheight]
              push_cast at hle htop ⊢
              omega
            obtain ⟨found, index2, hwalk, hd2, hh2⟩ := ih pprev fuel hprev
              (by push_cast at hle htop ⊢; omega) (by push_cast at hfuel ⊢; omega)
            refine ⟨found, index2, ?_, hd2, hh2⟩
            simp only [getblockbynumber.walk, hd, gt_iff_lt, hlt, if_true, hp]
            exact hwalk

/-- C33: let `n` be the `int` that `get_int` reads from the first parameter. When
`n < 0` or `n > nBestHeight`, `getblockbynumber` and `getblockhash`, past the check of
their arguments, throw `Block number out of range.` and leave the state alone; for
`getblockbynumber` this holds with a loop that may not even test its condition once, so
before any walk. When `0 <= n <= nBestHeight` and the block indexes are linked through
`pprev` with heights decreasing by exactly one from `nBestHeight` at the block index of
`hashBestChain` down to 0, the loop of `getblockbynumber` ends, once it may test its
condition more than `nBestHeight - n` times, without dereferencing a null pointer, on a
block index whose height is exactly `n`, and the handler goes on with the hash of that
block index. -/
theorem C33_walk_to_height (E : BlockIndex) (node : Node) (n : Int) (txinfo : Array)
    (fuel : Nat) (hint : -2 ^ 31 ≤ n ∧ n < 2 ^ 31) :
    ((n < 0 ∨ node.nBestHeight < n) →
      getblockbynumber.body E 0 (Value.int n :: txinfo) node
        = some (.error (.exception "Block number out of range."), node)
      ∧ getblockbynumber.body E fuel (Value.int n :: txinfo) node
        = some (.error (.exception "Block number out of range."), node)
      ∧ getblockhash.body E (Value.int n :: txinfo) node
        = some (.error (.exception "Block number out of range."), node)
      ∧ (∀ body : Array → Node → Except Thrown Value × Node,
          (∀ r, getblockbynumber.body E fuel (Value.int n :: txinfo) node = some r →
            body (Value.int n :: txinfo) node = r) →
          txinfo.length ≤ 1 →
          getblockbynumber body (Value.int n :: txinfo) false node
            = (.error (.exception "Block number out of range."), node))
      ∧ (∀ body : Array → Node → Except Thrown Value × Node,
          (∀ r, getblockhash.body E [Value.int n] node = some r →
            body [Value.int n] node = r) →
          getblockhash body [Value.int n] false node
            = (.error (.exception "Block number out of range."), node)))
    ∧ (0 ≤ n → n ≤ node.nBestHeight →
        ∀ pindexBest, E.mapBlockIndex node.hashBestChain = some pindexBest →
        chain_linked E.deref node.nBestHeight.toNat pindexBest = true →
        node.nBestHeight - n < fuel →
        ∃ found index,
          getblockbynumber.walk E.deref n fuel (E.mapBlockIndex node.hashBestChain)
            = Walk.found found
          ∧ E.deref found = some index
          ∧ index.nHeight = n
          ∧ getblockbynumber.body E fuel (Value.int n :: txinfo) node
              = (match E.mapBlockIndex index.phashBlock with
                 | none => none
                 | some pblockindex =>
                   match txinfo with
                   | [] => some (.ok (E.blockToJSON pblockindex false), node)
                   | flag :: _ =>
                     match flag.get_bool with
                     | none => some (.error (.exception (E.what flag)), node)
                     | some fPrintTransactionDetail =>
                       some (.ok (E.blockToJSON pblockindex fPrintTransactionDetail), node))) := by
  constructor
  · intro hout
    have hcond : (decide (n < 0) || decide (n > node.nBestHeight)) = true := by
      rcases hout with h | h
      · simp [h]
      · simp [h]
    have hbody : ∀ fuel, getblockbynumber.body E fuel (Value.int n :: txinfo) node
        = some (.error (.exception "Block number out of range."), node) := by
      intro fuel
      simp only [getblockbynumber.body, Value.get_int, hcond, if_true]
    have hhash : ∀ rest, getblockhash.body E (Value.int n :: rest) node
        = some (.error (.exception "Block number out of range."), node) := by
      intro rest
      simp only [getblockhash.body, Value.get_int, hcond, if_true]
    refine ⟨hbody 0, hbody fuel, hhash txinfo, ?_, ?_⟩
    · intro body hagree hlen
      have hb := hagree _ (hbody fuel)
      have harity : (false || decide ((Value.int n :: txinfo).length < 1)
          || decide ((Value.int n :: txinfo).length > 2)) = false := by
        simp only [List.length_cons, Bool.false_or, Bool.or_eq_false_iff,
          decide_eq_false_iff_not]
        constructor <;> omega
      simp only [getblockbynumber, harity, Bool.false_eq_true, if_false, hb]
    · intro body hagree
      have hb := hagree _ (hhash [])
      simp [getblockhash, hb]
  · intro h0 hle pindexBest hbest hchain hfuel
    have hheight : ((node.nBestHeight.toNat : Nat) : Int) = node.nBestHeight :=
      Int.toNat_of_nonneg (le_trans h0 hle)
    obtain ⟨found, index, hwalk, hd, hh⟩ := walk_of_chain_linked E.deref n h0
      node.nBestHeight.toNat pindexBest fuel hchain (by rw [hheight]; exact hle)
      (by rw [hheight]; exact hfuel)
    refine ⟨found, index, by rw [hbest]; exact hwalk, hd, hh, ?_⟩
    have hcond : (decide (n < 0) || decide (n > node.nBestHeight)) = false := by
      simp only [Bool.or_eq_false_iff, decide_eq_false_iff_not, gt_iff_lt]
      constructor <;> omega
    simp only [getblockbynumber.body, Value.get_int, hcond, Bool.false_eq_true, if_false,
      hbest, hwalk, hd]
    cases E.mapBlockIndex index.phashBlock with
    | none => rfl
    | some pblockindex =>
      cases txinfo with
      | nil => rfl
      | cons flag rest => cases hg : flag.get_bool <;> simp [hg]

/-- Witness for C33: on the example chain of height 3 the walk for height 1 ends on the
block index at address 101, and height 4 is out of range. -/
theorem C33_walk_to_height_witness :
    (-2 ^ 31 ≤ (1 : Int) ∧ (1 : Int) < 2 ^ 31)
    ∧ chain_linked exampleBlockIndex.deref exampleChainNode.nBestHeight.toNat 103 = true
    ∧ getblockbynumber.walk exampleBlockIndex.deref 1 5 (some 103) = Walk.found 101
    ∧ (∃ found index,
        getblockbynumber.walk exampleBlockIndex.deref 1 5
            (exampleBlockIndex.mapBlockIndex exampleChainNode.hashBestChain)
          = Walk.found found
        ∧ exampleBlockIndex.deref found = some index
        ∧ index.nHeight = 1
        ∧ getblockbynumber.body exampleBlockIndex 5 [Value.int 1] exampleChainNode
            = (match exampleBlockIndex.mapBlockIndex index.phashBlock with
               | none => none
               | some pblockindex =>
                 match ([] : Array) with
                 | [] => some (.ok (exampleBlockIndex.blockToJSON pblockindex false),
                     exampleChainNode)
                 | flag :: _ =>
                   match flag.get_bool with
                   | none => some (.error (.exception (exampleBlockIndex.what flag)),
                       exampleChainNode)
                   | some fPrintTransactionDetail =>
                     some (.ok (exampleBlockIndex.blockToJSON pblockindex
                       fPrintTransactionDetail), exampleChainNode)))
    ∧ getblockbynumber.body exampleBlockIndex 0 [Value.int 4] exampleChainNode
        = some (.error (.exception "Block number out of range."), exampleChainNode) :=
  ⟨by norm_num, by decide, by decide,
    (C33_walk_to_height exampleBlockIndex exampleChainNode 1 [] 5 (by norm_num)).2
      (by norm_num) (by decide) 103 rfl (by decide) (by decide),
    ((C33_walk_to_height exampleBlockIndex exampleChainNode 4 [] 0 (by norm_num)).1
      (Or.inr (by decide))).1⟩

/-! ## The credential of client and server (C35) -/

/-- C35: let the server, not yet started, and the client be configured with the same
`-rpcuser` and the same non-empty `-rpcpassword`, and let decoding what `EncodeBase64`
makes of the credential, trimmed of white space, give the credential back. Then
`StartRPCThreads` sets `strRPCUserColonPass` to user, `:` and password, and returns
unless the set-up of the TLS context throws; `CallRPC` finds the same string, the value
the client binds to `Authorization` is `Basic ` followed by the base64 encoding of that
string, and `HTTPAuthorized` on the server accepts every header map that binds
`authorization` to that value. -/
theorem C35_client_credential_accepted (B : Build) (EncodeBase64 : String → String)
    (env : StartRPCThreads.Env) (node : Node) (GetAuthCookie : Option String) (what : String)
    (mapHeaders : List (String × String))
    (hpassword : node.rpcpassword ≠ "")
    (hstopped : node.rpc_io_service = false)
    (hcodec : B.DecodeBase64 (trim (EncodeBase64 (env.rpcuser ++ ":" ++ node.rpcpassword)))
      = env.rpcuser ++ ":" ++ node.rpcpassword)
    (hheader : map_index mapHeaders "authorization"
      = map_index (CallRPC.mapRequestHeaders EncodeBase64
          (env.rpcuser ++ ":" ++ node.rpcpassword)) "Authorization") :
    ∃ e, StartRPCThreads env node = some e
      ∧ (StartRPCThreads.ssl env = .ok () → e.ret = .ok ())
      ∧ e.node.strRPCUserColonPass = env.rpcuser ++ ":" ++ node.rpcpassword
      ∧ CallRPC.strRPCUserColonPass env.rpcuser node.rpcpassword GetAuthCookie what
          = .ok (env.rpcuser ++ ":" ++ node.rpcpassword)
      ∧ map_index (CallRPC.mapRequestHeaders EncodeBase64
            (env.rpcuser ++ ":" ++ node.rpcpassword)) "Authorization"
          = "Basic " ++ EncodeBase64 (env.rpcuser ++ ":" ++ node.rpcpassword)
      ∧ HTTPAuthorized B mapHeaders e.node = true := by
  have hvalue : map_index (CallRPC.mapRequestHeaders EncodeBase64
        (env.rpcuser ++ ":" ++ node.rpcpassword)) "Authorization"
      = "Basic " ++ EncodeBase64 (env.rpcuser ++ ":" ++ node.rpcpassword) := by
    simp [CallRPC.mapRequestHeaders, map_index, map_assign, map_find]
  have hclient : CallRPC.strRPCUserColonPass env.rpcuser node.rpcpassword GetAuthCookie what
      = .ok (env.rpcuser ++ ":" ++ node.rpcpassword) := by
    simp only [CallRPC.strRPCUserColonPass, hpassword, if_false]
  have haccept : ∀ n : Node, n.strRPCUserColonPass = env.rpcuser ++ ":" ++ node.rpcpassword →
      HTTPAuthorized B mapHeaders n = true := by
    intro n hn
    unfold HTTPAuthorized
    simp only
    rw [hheader, hvalue]
    have hb : substr ("Basic " ++ EncodeBase64 (env.rpcuser ++ ":" ++ node.rpcpassword)) 0 6
        = "Basic " := (substr_Basic_iff _).2 ⟨_, rfl⟩
    simp only [hb, ne_eq, not_true_eq_false, if_false, substrFrom_Basic, hcodec, hn]
    exact (TimingResistantEqual_iff _ _).2 rfl
  have hstart : ∃ e, StartRPCThreads env node = some e
      ∧ (StartRPCThreads.ssl env = .ok () → e.ret = .ok ())
      ∧ e.node.strRPCUserColonPass = env.rpcuser ++ ":" ++ node.rpcpassword := by
    simp only [StartRPCThreads, hpassword, if_false, hstopped, Bool.false_eq_true]
    cases hssl : StartRPCThreads.ssl env with
    | error thrown => exact ⟨_, rfl, fun h => by simp at h, rfl⟩
    | ok u =>
      cases u
      simp only
      split
      · exact ⟨_, rfl, fun _ => rfl, rfl⟩
      · exact ⟨_, rfl, fun _ => rfl, rfl⟩
  obtain ⟨e, he, hret, hcred⟩ := hstart
  exact ⟨e, he, hret, hcred, hclient, hvalue, haccept e.node hcred⟩

/-- Witness for C35: user `user` and password `pass`, whose credential `user:pass` has the
base64 encoding `dXNlcjpwYXNz`. -/
theorem C35_client_credential_accepted_witness :
    examplePasswordNode.rpcpassword ≠ ""
    ∧ exampleBuild.DecodeBase64 (trim (exampleEncodeBase64
        (exampleUserEnv.rpcuser ++ ":" ++ examplePasswordNode.rpcpassword)))
        = exampleUserEnv.rpcuser ++ ":" ++ examplePasswordNode.rpcpassword
    ∧ ∃ e, StartRPCThreads exampleUserEnv examplePasswordNode = some e
        ∧ e.ret = .ok ()
        ∧ e.node.strRPCUserColonPass = "user:pass"
        ∧ CallRPC.strRPCUserColonPass "user" "pass" none "" = .ok "user:pass"
        ∧ HTTPAuthorized exampleBuild [("authorization", "Basic dXNlcjpwYXNz")] e.node
            = true :=
  ⟨by decide, by decide,
    match C35_client_credential_accepted exampleBuild exampleEncodeBase64 exampleUserEnv
      examplePasswordNode none "" [("authorization", "Basic dXNlcjpwYXNz")]
      (by decide) rfl (by decide) (by decide) with
    | ⟨e, he, hret, hcred, hclient, _, haccept⟩ =>
      ⟨e, he, hret rfl, hcred.trans (by decide),
        hclient.trans (congrArg Except.ok (by decide)), haccept⟩⟩

/-! ## Difficulty (C34) -/

theorem round_half_even_intCast (n : Int) : round_half_even (n : Rat) = n := by
  simp [round_half_even]

/-- The rounding is to an integer at distance 1/2 at most, between the integers below
and above. -/
theorem round_half_even_spec (x : Rat) :
    |(round_half_even x : Rat) - x| ≤ 1 / 2
    ∧ ⌊x⌋ ≤ round_half_even x ∧ round_half_even x ≤ ⌊x⌋ + 1 := by
  have h1 : (⌊x⌋ : Rat) ≤ x := Int.floor_le x
  have h2 : x < (⌊x⌋ : Rat) + 1 := Int.lt_floor_add_one x
  unfold round_half_even
  simp only
  split
  · next h =>
    refine ⟨?_, le_refl _, by omega⟩
    rw [abs_le]
    constructor <;> linarith
  · split
    · next h h' =>
      refine ⟨?_, by omega, le_refl _⟩
      push_cast
      rw [abs_le]
      constructor <;> linarith
    · next h h' =>
      have hhalf : x - ⌊x⌋ = 1 / 2 := le_antisymm (not_lt.mp h') (not_lt.mp h)
      split
      · refine ⟨?_, le_refl _, by omega⟩
        rw [abs_le]
        constructor <;> linarith
      · refine ⟨?_, by omega, le_refl _⟩
        push_cast
        rw [abs_le]
        constructor <;> linarith

/-- An integer nearer than 1/2 to a number is what the number is rounded to. -/
theorem round_half_even_eq (x : Rat) (n : Int) (h : |x - n| < 1 / 2) :
    round_half_even x = n := by
  obtain ⟨hd, -, -⟩ := round_half_even_spec x
  rw [abs_lt] at h
  rw [abs_le] at hd
  have h3 : |((round_half_even x - n : Int) : Rat)| < 1 := by
    push_cast
    rw [abs_lt]
    constructor <;> linarith [h.1, h.2, hd.1, hd.2]
  have h4 : |round_half_even x - n| < 1 := by exact_mod_cast h3
  have h5 : round_half_even x - n = 0 := Int.abs_lt_one_iff.mp h4
  omega

theorem log_two_eq (x : Rat) (t : Int) (h1 : (2 : Rat) ^ t ≤ x) (h2 : x < (2 : Rat) ^ (t + 1)) :
    Int.log 2 x = t := by
  have hx : 0 < x := lt_of_lt_of_le (zpow_pos (by norm_num) t) h1
  have ha : t ≤ Int.log 2 x :=
    (Int.zpow_le_iff_le_log (by norm_num) hx).1 (by exact_mod_cast h1)
  have hb : Int.log 2 x < t + 1 :=
    (Int.lt_zpow_iff_log_lt (by norm_num) hx).1 (by exact_mod_cast h2)
  omega

/-- The rounding of a number in the normal range, from 2^t up to 2^(t+1): a multiple of
2^(t-52) with a factor of 53 bits, at distance 2^(t-53) at most. -/
theorem double_round_normal (x : Rat) (t : Int) (h1 : (2 : Rat) ^ t ≤ x)
    (h2 : x < (2 : Rat) ^ (t + 1)) (ht1 : -1022 ≤ t) (ht2 : t ≤ 1022) :
    double.round x = double.finite (round_half_even (x / 2 ^ (t - 52)) * 2 ^ (t - 52))
    ∧ (2 : Int) ^ 52 ≤ round_half_even (x / 2 ^ (t - 52))
    ∧ round_half_even (x / 2 ^ (t - 52)) ≤ (2 : Int) ^ 53
    ∧ |(round_half_even (x / 2 ^ (t - 52)) : Rat) * 2 ^ (t - 52) - x| ≤ 2 ^ (t - 53) := by
  have hx : 0 < x := lt_of_lt_of_le (zpow_pos (by norm_num) t) h1
  have hulp : (0 : Rat) < 2 ^ (t - 52) := zpow_pos (by norm_num) _
  have hlog : Int.log 2 x = t := log_two_eq x t h1 h2
  obtain ⟨hd, hlo, hhi⟩ := round_half_even_spec (x / 2 ^ (t - 52))
  -- the scaled number lies from 2^52 up to 2^53
  have hz1 : ((2 : Int) ^ 52 : Rat) ≤ x / 2 ^ (t - 52) := by
    rw [le_div_iff₀ hulp]
    calc ((2 : Int) ^ 52 : Rat) * 2 ^ (t - 52) = (2 : Rat) ^ (52 : Int) * 2 ^ (t - 52) := by
          norm_num
      _ = (2 : Rat) ^ t := by rw [← zpow_add₀ (by norm_num)]; congr 1; omega
      _ ≤ x := h1
  have hz2 : x / 2 ^ (t - 52) < ((2 : Int) ^ 53 : Rat) := by
    rw [div_lt_iff₀ hulp]
    calc x < (2 : Rat) ^ (t + 1) := h2
      _ = (2 : Rat) ^ (53 : Int) * 2 ^ (t - 52) := by
          rw [← zpow_add₀ (by norm_num)]; congr 1; omega
      _ = ((2 : Int) ^ 53 : Rat) * 2 ^ (t - 52) := by norm_num
  have hfloor1 : (2 : Int) ^ 52 ≤ ⌊x / 2 ^ (t - 52)⌋ := Int.le_floor.mpr (by exact_mod_cast hz1)
  have hfloor2 : ⌊x / 2 ^ (t - 52)⌋ < (2 : Int) ^ 53 := Int.floor_lt.mpr (by exact_mod_cast hz2)
  have hn1 : (2 : Int) ^ 52 ≤ round_half_even (x / 2 ^ (t - 52)) := le_trans hfloor1 hlo
  have hn2 : round_half_even (x / 2 ^ (t - 52)) ≤ (2 : Int) ^ 53 := by omega
  have hy : (round_half_even (x / 2 ^ (t - 52)) : Rat) * 2 ^ (t - 52) < 2 ^ (1024 : Int) := by
    calc (round_half_even (x / 2 ^ (t - 52)) : Rat) * 2 ^ (t - 52)
        ≤ ((2 : Int) ^ 53 : Rat) * 2 ^ (t - 52) :=
          mul_le_mul_of_nonneg_right (by exact_mod_cast hn2) hulp.le
      _ = (2 : Rat) ^ (53 : Int) * 2 ^ (t - 52) := by norm_num
      _ = (2 : Rat) ^ (t + 1) := by rw [← zpow_add₀ (by norm_num)]; congr 1; omega
      _ < (2 : Rat) ^ (1024 : Int) := zpow_lt_zpow_right₀ (by norm_num) (by omega)
  refine ⟨?_, hn1, hn2, ?_⟩
  · unfold double.round
    rw [if_neg hx.ne', hlog, max_eq_left ht1]
    simp only
    rw [if_neg (not_le.mpr hy)]
  · have : (round_half_even (x / 2 ^ (t - 52)) : Rat) * 2 ^ (t - 52) - x
        = ((round_half_even (x / 2 ^ (t - 52)) : Rat) - x / 2 ^ (t - 52)) * 2 ^ (t - 52) := by
      field_simp
    rw [this, abs_mul, abs_of_pos hulp]
    calc |(round_half_even (x / 2 ^ (t - 52)) : Rat) - x / 2 ^ (t - 52)| * 2 ^ (t - 52)
        ≤ 1 / 2 * 2 ^ (t - 52) := mul_le_mul_of_nonneg_right hd hulp.le
      _ = (2 : Rat) ^ (-1 : Int) * 2 ^ (t - 52) := by norm_num
      _ = (2 : Rat) ^ (t - 53) := by rw [← zpow_add₀ (by norm_num)]; congr 1; omega

theorem double_round_exact_lt (N : Nat) (w : Int) (hN1 : 2 ^ 52 ≤ N) (hN2 : N < 2 ^ 53)
    (hw1 : -1074 ≤ w) (hw2 : w ≤ 970) :
    double.round ((N : Rat) * 2 ^ w) = double.finite ((N : Rat) * 2 ^ w) := by
  have hpos : (0 : Rat) < 2 ^ w := zpow_pos (by norm_num) _
  have h1 : (2 : Rat) ^ (w + 52) ≤ (N : Rat) * 2 ^ w := by
    rw [zpow_add₀ (by norm_num), mul_comm]
    exact mul_le_mul_of_nonneg_right (by exact_mod_cast hN1) hpos.le
  have h2 : (N : Rat) * 2 ^ w < (2 : Rat) ^ (w + 52 + 1) := by
    rw [show w + 52 + 1 = 53 + w by omega, zpow_add₀ (by norm_num)]
    exact mul_lt_mul_of_pos_right (by exact_mod_cast hN2) hpos
  obtain ⟨hr, -, -, -⟩ := double_round_normal ((N : Rat) * 2 ^ w) (w + 52) h1 h2
    (by omega) (by omega)
  rw [hr, show w + 52 - 52 = w by omega, mul_div_assoc, div_self hpos.ne', mul_one]
  have : round_half_even ((N : Rat)) = (N : Int) := by
    have := round_half_even_intCast (N : Int)
    simpa using this
  rw [this]
  simp

/-- A multiple of a power of two with a factor of 53 bits, in the normal range, is a
`double`: it is rounded to itself. -/
theorem double_round_exact (N : Nat) (w : Int) (hN1 : 2 ^ 52 ≤ N) (hN2 : N ≤ 2 ^ 53)
    (hw1 : -1074 ≤ w) (hw2 : w ≤ 969) :
    double.round ((N : Rat) * 2 ^ w) = double.finite ((N : Rat) * 2 ^ w) := by
  rcases Nat.lt_or_ge N (2 ^ 53) with h | h
  · exact double_round_exact_lt N w hN1 h hw1 (by omega)
  · have hN : N = 2 ^ 53 := le_antisymm hN2 h
    have hre : (N : Rat) * 2 ^ w = ((2 ^ 52 : Nat) : Rat) * 2 ^ (w + 1) := by
      rw [hN, zpow_add₀ (by norm_num)]
      push_cast
      ring
    rw [hre]
    exact double_round_exact_lt (2 ^ 52) (w + 1) (le_refl _) (by norm_num) (by omega) (by omega)

theorem double_mul_256 (N : Nat) (w : Int) (hN1 : 2 ^ 52 ≤ N) (hN2 : N ≤ 2 ^ 53)
    (hw1 : -1074 ≤ w + 8) (hw2 : w + 8 ≤ 969) :
    double.mul (double.finite ((N : Rat) * 2 ^ w)) (double.finite 256)
      = double.finite ((N : Rat) * 2 ^ (w + 8)) := by
  have h : (N : Rat) * 2 ^ w * 256 = (N : Rat) * 2 ^ (w + 8) := by
    rw [zpow_add₀ (by norm_num)]
    norm_num
    ring
  simp only [double.mul]
  rw [h]
  exact double_round_exact N (w + 8) hN1 hN2 hw1 hw2

theorem double_div_256 (N : Nat) (w : Int) (hN1 : 2 ^ 52 ≤ N) (hN2 : N ≤ 2 ^ 53)
    (hw1 : -1074 ≤ w - 8) (hw2 : w - 8 ≤ 969) :
    double.div (double.finite ((N : Rat) * 2 ^ w)) (double.finite 256)
      = double.finite ((N : Rat) * 2 ^ (w - 8)) := by
  have h : (N : Rat) * 2 ^ w / 256 = (N : Rat) * 2 ^ (w - 8) := by
    rw [zpow_sub₀ (by norm_num)]
    norm_num
    ring
  simp only [double.div]
  rw [if_neg (by norm_num), h]
  exact double_round_exact N (w - 8) hN1 hN2 hw1 hw2

/-- The first loop of `GetDifficulty` on a `double` with a factor of 53 bits: each of the
multiplications is exact. -/
theorem GetDifficulty_raise_exact (k : Nat) (N : Nat) (w : Int) (nShift : Int)
    (hN1 : 2 ^ 52 ≤ N) (hN2 : N ≤ 2 ^ 53) (hw1 : -1074 ≤ w) (hw2 : w + 8 * k ≤ 969)
    (h : nShift + k = 29) :
    GetDifficulty.raise (double.finite ((N : Rat) * 2 ^ w)) nShift
      = (double.finite ((N : Rat) * 2 ^ (w + 8 * k)), 29, k) := by
  induction k generalizing w nShift with
  | zero =>
    have hs : nShift = 29 := by simpa using h
    subst hs
    rw [GetDifficulty.raise]
    simp
  | succ k ih =>
    have hlt : nShift < 29 := by push_cast at h; omega
    rw [GetDifficulty.raise, if_pos hlt]
    rw [double_mul_256 N w hN1 hN2 (by omega) (by push_cast at hw2; omega)]
    simp only [ih (w + 8) (nShift + 1) (by omega) (by push_cast at hw2 ⊢; omega)
      (by push_cast at h ⊢; omega)]
    rw [show w + 8 + 8 * (k : Int) = w + 8 * ((k + 1 : Nat) : Int) by push_cast; ring]

/-- The second loop of `GetDifficulty` on a `double` with a factor of 53 bits, as long as
the quotients stay in the normal range: each of the divisions is exact. -/
theorem GetDifficulty_lower_exact (k : Nat) (N : Nat) (w : Int) (nShift : Int)
    (hN1 : 2 ^ 52 ≤ N) (hN2 : N ≤ 2 ^ 53) (hw1 : -1074 ≤ w - 8 * k) (hw2 : w ≤ 969)
    (h : nShift = 29 + k) :
    GetDifficulty.lower (double.finite ((N : Rat) * 2 ^ w)) nShift
      = (double.finite ((N : Rat) * 2 ^ (w - 8 * k)), 29, k) := by
  induction k generalizing w nShift with
  | zero =>
    have hs : nShift = 29 := by simpa using h
    subst hs
    rw [GetDifficulty.lower]
    simp
  | succ k ih =>
    have hgt : nShift > 29 := by push_cast at h; omega
    rw [GetDifficulty.lower, if_pos hgt]
    rw [double_div_256 N w hN1 hN2 (by push_cast at hw1; omega) (by omega)]
    simp only [ih (w - 8) (nShift - 1) (by push_cast at hw1 ⊢; omega) (by omega)
      (by push_cast at h ⊢; omega)]
    rw [show w - 8 - 8 * (k : Int) = w - 8 * ((k + 1 : Nat) : Int) by push_cast; ring]

/-- The number of times the body of the first loop of `GetDifficulty` runs, and the shift
it leaves, whatever the value of `dDiff`. -/
theorem GetDifficulty_raise_count (dDiff : double) (nShift : Int) :
    (GetDifficulty.raise dDiff nShift).2.1 = max nShift 29
    ∧ (GetDifficulty.raise dDiff nShift).2.2 = (29 - nShift).toNat := by
  generalize hk : (29 - nShift).toNat = k
  induction k generalizing dDiff nShift with
  | zero =>
    have hge : 29 ≤ nShift := by omega
    rw [GetDifficulty.raise, if_neg (by omega)]
    exact ⟨(max_eq_left hge).symm, rfl⟩
  | succ k ih =>
    have hlt : nShift < 29 := by omega
    rw [GetDifficulty.raise, if_pos hlt]
    obtain ⟨h1, h2⟩ := ih (double.mul dDiff (double.finite 256)) (nShift + 1) (by omega)
    refine ⟨?_, ?_⟩
    · show (GetDifficulty.raise (double.mul dDiff (double.finite 256)) (nShift + 1)).2.1 = _
      rw [h1, max_eq_right (by omega), max_eq_right (by omega)]
    · show (GetDifficulty.raise (double.mul dDiff (double.finite 256)) (nShift + 1)).2.2 + 1
        = _
      rw [h2]

/-- The number of times the body of the second loop of `GetDifficulty` runs, whatever the
value of `dDiff`. -/
theorem GetDifficulty_lower_count (dDiff : double) (nShift : Int) :
    (GetDifficulty.lower dDiff nShift).2.2 = (nShift - 29).toNat := by
  generalize hk : (nShift - 29).toNat = k
  induction k generalizing dDiff nShift with
  | zero =>
    rw [GetDifficulty.lower, if_neg (by omega)]
  | succ k ih =>
    have hgt : nShift > 29 := by omega
    rw [GetDifficulty.lower, if_pos hgt]
    have h2 := ih (double.div dDiff (double.finite 256)) (nShift - 1) (by omega)
    show (GetDifficulty.lower (double.div dDiff (double.finite 256)) (nShift - 1)).2.2 + 1
      = _
    rw [h2]

/-- The quotient `65535 / m` for a mantissa `m` of 24 bits that is not zero: it is rounded
to a `double` with a factor of 53 bits and an exponent from -9 to 15, with a relative
error of 2^-53 at most. -/
theorem double_round_quotient (m : Nat) (hm1 : 1 ≤ m) (hm2 : m < 2 ^ 24) :
    ∃ (N : Nat) (t : Int), 2 ^ 52 ≤ N ∧ N ≤ 2 ^ 53 ∧ -9 ≤ t ∧ t ≤ 15
      ∧ double.round ((65535 : Rat) / m) = double.finite ((N : Rat) * 2 ^ (t - 52))
      ∧ |(N : Rat) * 2 ^ (t - 52) - 65535 / m| ≤ 65535 / m / 2 ^ 53 := by
  have hmpos : (0 : Rat) < m := by exact_mod_cast hm1
  have hx : (0 : Rat) < 65535 / m := div_pos (by norm_num) hmpos
  have hlo : (2 : Rat) ^ (-9 : Int) ≤ 65535 / m := by
    rw [le_div_iff₀ hmpos]
    have hm3 : m ≤ 16777216 := by norm_num at hm2; omega
    have : (m : Rat) ≤ 16777216 := by exact_mod_cast hm3
    norm_num
    linarith
  have hhi : (65535 : Rat) / m < 2 ^ (16 : Int) := by
    rw [div_lt_iff₀ hmpos]
    have : (1 : Rat) ≤ m := by exact_mod_cast hm1
    norm_num
    linarith
  have h1 : (2 : Rat) ^ Int.log 2 ((65535 : Rat) / m) ≤ 65535 / m := by
    have := Int.zpow_log_le_self (b := 2) (by norm_num) hx
    exact_mod_cast this
  have h2 : (65535 : Rat) / m < 2 ^ (Int.log 2 ((65535 : Rat) / m) + 1) := by
    have := Int.lt_zpow_succ_log_self (b := 2) (by norm_num) ((65535 : Rat) / m)
    exact_mod_cast this
  have ht1 : -9 ≤ Int.log 2 ((65535 : Rat) / m) :=
    (Int.zpow_le_iff_le_log (by norm_num) hx).1 (by exact_mod_cast hlo)
  have ht2 : Int.log 2 ((65535 : Rat) / m) < 16 :=
    (Int.lt_zpow_iff_log_lt (by norm_num) hx).1 (by exact_mod_cast hhi)
  obtain ⟨hr, hn1, hn2, herr⟩ := double_round_normal ((65535 : Rat) / m)
    (Int.log 2 ((65535 : Rat) / m)) h1 h2 (by omega) (by omega)
  generalize Int.log 2 ((65535 : Rat) / m) = t at *
  generalize round_half_even ((65535 : Rat) / m / 2 ^ (t - 52)) = n at *
  have hn0 : 0 ≤ n := le_trans (by norm_num) hn1
  have hcast : ((n.toNat : Nat) : Rat) = (n : Rat) := by
    have : ((n.toNat : Nat) : Int) = n := Int.toNat_of_nonneg hn0
    exact_mod_cast this
  refine ⟨n.toNat, t, ?_, ?_, ht1, by omega, ?_, ?_⟩
  · have : ((2 ^ 52 : Nat) : Int) ≤ n := by exact_mod_cast hn1
    omega
  · have : n ≤ ((2 ^ 53 : Nat) : Int) := by exact_mod_cast hn2
    omega
  · rw [hcast]; exact hr
  · rw [hcast]
    refine le_trans herr ?_
    rw [show t - 53 = t + (-53) by ring, zpow_add₀ (by norm_num)]
    have h53 : (2 : Rat) ^ (-53 : Int) = 1 / 2 ^ 53 := by
      rw [zpow_neg]; norm_num
    rw [h53, mul_one_div]
    exact div_le_div_of_nonneg_right h1 (by norm_num)

theorem zpow_256 (j : Int) : (256 : Rat) ^ j = 2 ^ (8 * j) := by
  rw [zpow_mul, show (2 : Rat) ^ (8 : Int) = 256 by norm_num]

/-- The value of `GetDifficulty` for a block index whose mantissa is not zero and whose
exponent byte is 155 at most: the `double` that the quotient `65535 / m` is rounded to,
scaled by the power of 256, without further rounding. -/
theorem GetDifficulty_of_exact (index : CBlockIndex)
    (hm : index.nBits &&& 0x00ffffff ≠ 0) (hs : (index.nBits >>> 24) &&& 0xff ≤ 155) :
    ∃ q : Rat,
      double.round ((65535 : Rat) / ((index.nBits &&& 0x00ffffff : Nat) : Rat))
        = double.finite q
      ∧ |q - (65535 : Rat) / ((index.nBits &&& 0x00ffffff : Nat) : Rat)|
          ≤ (65535 : Rat) / ((index.nBits &&& 0x00ffffff : Nat) : Rat) / 2 ^ 53
      ∧ GetDifficulty.of index
          = double.finite
              (q * (256 : Rat) ^ ((29 : Int) - (((index.nBits >>> 24) &&& 0xff : Nat) : Int))) := by
  have hm2 : index.nBits &&& 0x00ffffff < 2 ^ 24 :=
    lt_of_le_of_lt Nat.and_le_right (by norm_num)
  obtain ⟨N, t, hN1, hN2, ht1, ht2, hround, herr⟩ :=
    double_round_quotient (index.nBits &&& 0x00ffffff) (Nat.pos_of_ne_zero hm) hm2
  refine ⟨(N : Rat) * 2 ^ (t - 52), hround, herr, ?_⟩
  have hmne : ((index.nBits &&& 0x00ffffff : Nat) : Rat) ≠ 0 := by exact_mod_cast hm
  have hdiv : double.div (double.finite ((0x0000ffff : Nat) : Rat))
      (double.finite ((index.nBits &&& 0x00ffffff : Nat) : Rat))
      = double.finite ((N : Rat) * 2 ^ (t - 52)) := by
    simp only [double.div]
    rw [if_neg hmne, show (((0x0000ffff : Nat) : Rat)) = 65535 by norm_num]
    exact hround
  unfold GetDifficulty.of
  simp only
  rw [hdiv]
  generalize hsdef : (index.nBits >>> 24) &&& 0xff = s at *
  by_cases hle : s ≤ 29
  · have hk : ((s : Int)) + ((29 - s : Nat) : Int) = 29 := by omega
    rw [GetDifficulty_raise_exact (29 - s) N (t - 52) s hN1 hN2 (by omega) (by omega) hk]
    simp only
    rw [GetDifficulty.lower, if_neg (by omega)]
    simp only
    rw [zpow_256, mul_assoc, ← zpow_add₀ (by norm_num)]
    congr 3
    omega
  · have hk : (s : Int) = 29 + ((s - 29 : Nat) : Int) := by omega
    rw [GetDifficulty.raise, if_neg (by omega)]
    simp only
    rw [GetDifficulty_lower_exact (s - 29) N (t - 52) s hN1 hN2 (by omega) (by omega) hk]
    simp only
    rw [zpow_256, mul_assoc, ← zpow_add₀ (by norm_num)]
    congr 3
    omega

theorem double_round_one : double.round 1 = double.finite 1 := by
  have h := double_round_exact (2 ^ 52) (-52) (le_refl _) (by norm_num) (by norm_num)
    (by norm_num)
  have h1 : ((2 ^ 52 : Nat) : Rat) * 2 ^ (-52 : Int) = 1 := by
    rw [zpow_neg]
    norm_num
  rw [h1] at h
  exact h

/-- The quotient `65535 / 263371` is rounded to `8965099470472465 / 2^55`. -/
theorem double_round_example :
    double.round ((65535 : Rat) / 263371)
      = double.finite ((8965099470472465 : Rat) * 2 ^ (-55 : Int)) := by
  obtain ⟨hr, -, -, -⟩ := double_round_normal ((65535 : Rat) / 263371) (-3)
    (by rw [zpow_neg]; norm_num) (by rw [show (-3 : Int) + 1 = -2 by norm_num, zpow_neg]; norm_num)
    (by norm_num) (by norm_num)
  rw [hr, show (-3 : Int) - 52 = -55 by norm_num]
  have hn : round_half_even ((65535 : Rat) / 263371 / 2 ^ (-55 : Int)) = 8965099470472465 := by
    apply round_half_even_eq
    rw [zpow_neg, abs_lt]
    constructor <;> norm_num
  rw [hn]
  norm_num

/-- C34, counterexample: for the compact target `0x1b0404cb`, with the mantissa 263371 and
the exponent byte 27, `GetDifficulty` returns the `double` `8965099470472465 / 2^39`
(16307.420938523983), which is not the rational `65535 / 263371 * 256^(29 - 27)`. -/
theorem C34_quotient_is_rounded :
    exampleRoundedIndex.deref 7
        = some { phashBlock := "00ff", pprev := none, nHeight := 0, nBits := 0x1b0404cb }
    ∧ (0x1b0404cb &&& 0x00ffffff : Nat) = 263371
    ∧ ((0x1b0404cb >>> 24) &&& 0xff : Nat) = 27
    ∧ GetDifficulty exampleRoundedIndex none (fun _ _ => none) (some 7)
        = some (double.finite (8965099470472465 / 549755813888))
    ∧ GetDifficulty exampleRoundedIndex none (fun _ _ => none) (some 7)
        ≠ some (double.finite ((65535 : Rat) / 263371 * (256 : Rat) ^ ((29 : Int) - 27))) := by
  have hm : (0x1b0404cb &&& 0x00ffffff : Nat) = 263371 := by decide
  have hs : ((0x1b0404cb >>> 24) &&& 0xff : Nat) = 27 := by decide
  have hvalue : GetDifficulty exampleRoundedIndex none (fun _ _ => none) (some 7)
      = some (double.finite (8965099470472465 / 549755813888)) := by
    obtain ⟨q, hq, -, hof⟩ := GetDifficulty_of_exact
      { phashBlock := "00ff", pprev := none, nHeight := 0, nBits := 0x1b0404cb }
      (by decide) (by decide)
    have hq2 : double.round ((65535 : Rat) / ((0x1b0404cb &&& 0x00ffffff : Nat) : Rat))
        = double.finite q := hq
    rw [hm] at hq2
    have hq3 : double.round ((65535 : Rat) / 263371) = double.finite q := by
      simpa using hq2
    rw [double_round_example] at hq3
    have hq4 := double.finite.inj hq3
    have hof2 : GetDifficulty.of
        { phashBlock := "00ff", pprev := none, nHeight := 0, nBits := 0x1b0404cb }
        = double.finite
            (q * (256 : Rat) ^ ((29 : Int) - (((0x1b0404cb >>> 24) &&& 0xff : Nat) : Int))) :=
      hof
    rw [hs, ← hq4] at hof2
    show some (GetDifficulty.of
      { phashBlock := "00ff", pprev := none, nHeight := 0, nBits := 0x1b0404cb }) = _
    rw [hof2]
    congr 2
    rw [zpow_neg]
    norm_num
  refine ⟨rfl, hm, hs, hvalue, ?_⟩
  rw [hvalue]
  intro h
  have h2 := double.finite.inj (Option.some.inj h)
  norm_num at h2

/-- C34, amended: for every block index whose `nBits` has a non-zero mantissa
`m = nBits & 0x00ffffff` and the exponent byte `s = (nBits >> 24) & 0xff`, `GetDifficulty`
returns, and its two loops end: the body of the first runs `29 - s` times when `s < 29`
and never otherwise, the body of the second runs `s - 29` times when `s > 29` and never
otherwise, which makes `|29 - s|` iterations together. When `s` is 155 at most, the result
is `q * 256^(29 - s)`, where `q` is the `double` that the quotient `65535 / m` is rounded
to (to nearest, ties to even), each scaling by 256 being exact; it lies within the
relative error 2^-53 of `65535 / m * 256^(29 - s)`. For `nBits = 0x1d00ffff` the result is
1, and `GetDifficulty` called with a null block index when `pindexBest` is null
returns 1. -/
theorem C34_GetDifficulty (E : BlockIndex) (pindexBest : Option Nat)
    (GetLastBlockIndex : Nat → Bool → Option Nat) (blockindex : Nat) (index : CBlockIndex)
    (hderef : E.deref blockindex = some index)
    (hmantissa : index.nBits &&& 0x00ffffff ≠ 0) :
    (∃ dDiff, GetDifficulty E pindexBest GetLastBlockIndex (some blockindex) = some dDiff)
    ∧ (GetDifficulty.raise
          (double.div (double.finite ((0x0000ffff : Nat) : Rat))
            (double.finite ((index.nBits &&& 0x00ffffff : Nat) : Rat)))
          (((index.nBits >>> 24) &&& 0xff : Nat) : Int)).2.2
        = ((29 : Int) - (((index.nBits >>> 24) &&& 0xff : Nat) : Int)).toNat
    ∧ (GetDifficulty.lower
          (GetDifficulty.raise
            (double.div (double.finite ((0x0000ffff : Nat) : Rat))
              (double.finite ((index.nBits &&& 0x00ffffff : Nat) : Rat)))
            (((index.nBits >>> 24) &&& 0xff : Nat) : Int)).1
          (GetDifficulty.raise
            (double.div (double.finite ((0x0000ffff : Nat) : Rat))
              (double.finite ((index.nBits &&& 0x00ffffff : Nat) : Rat)))
            (((index.nBits >>> 24) &&& 0xff : Nat) : Int)).2.1).2.2
        = ((((index.nBits >>> 24) &&& 0xff : Nat) : Int) - 29).toNat
    ∧ ((29 : Int) - (((index.nBits >>> 24) &&& 0xff : Nat) : Int)).toNat
        + ((((index.nBits >>> 24) &&& 0xff : Nat) : Int) - 29).toNat
        = ((29 : Int) - (((index.nBits >>> 24) &&& 0xff : Nat) : Int)).natAbs
    ∧ ((index.nBits >>> 24) &&& 0xff ≤ 155 →
        ∃ q : Rat,
          double.round ((65535 : Rat) / ((index.nBits &&& 0x00ffffff : Nat) : Rat))
            = double.finite q
          ∧ |q - (65535 : Rat) / ((index.nBits &&& 0x00ffffff : Nat) : Rat)|
              ≤ (65535 : Rat) / ((index.nBits &&& 0x00ffffff : Nat) : Rat) / 2 ^ 53
          ∧ GetDifficulty E pindexBest GetLastBlockIndex (some blockindex)
              = some (double.finite
                  (q * (256 : Rat)
                    ^ ((29 : Int) - (((index.nBits >>> 24) &&& 0xff : Nat) : Int))))
          ∧ |q * (256 : Rat) ^ ((29 : Int) - (((index.nBits >>> 24) &&& 0xff : Nat) : Int))
                - (65535 : Rat) / ((index.nBits &&& 0x00ffffff : Nat) : Rat)
                  * (256 : Rat)
                    ^ ((29 : Int) - (((index.nBits >>> 24) &&& 0xff : Nat) : Int))|
              ≤ (65535 : Rat) / ((index.nBits &&& 0x00ffffff : Nat) : Rat)
                  * (256 : Rat) ^ ((29 : Int) - (((index.nBits >>> 24) &&& 0xff : Nat) : Int))
                  / 2 ^ 53)
    ∧ (index.nBits = 0x1d00ffff →
        GetDifficulty E pindexBest GetLastBlockIndex (some blockindex)
          = some (double.finite 1))
    ∧ GetDifficulty E none GetLastBlockIndex none = some (double.finite 1) := by
  have hret : GetDifficulty E pindexBest GetLastBlockIndex (some blockindex)
      = some (GetDifficulty.of index) := by
    simp only [GetDifficulty, hderef, Option.map_some']
  have hraise := GetDifficulty_raise_count
    (double.div (double.finite ((0x0000ffff : Nat) : Rat))
      (double.finite ((index.nBits &&& 0x00ffffff : Nat) : Rat)))
    (((index.nBits >>> 24) &&& 0xff : Nat) : Int)
  have hlower := GetDifficulty_lower_count
    (GetDifficulty.raise
      (double.div (double.finite ((0x0000ffff : Nat) : Rat))
        (double.finite ((index.nBits &&& 0x00ffffff : Nat) : Rat)))
      (((index.nBits >>> 24) &&& 0xff : Nat) : Int)).1
    (GetDifficulty.raise
      (double.div (double.finite ((0x0000ffff : Nat) : Rat))
        (double.finite ((index.nBits &&& 0x00ffffff : Nat) : Rat)))
      (((index.nBits >>> 24) &&& 0xff : Nat) : Int)).2.1
  refine ⟨⟨_, hret⟩, hraise.2, ?_, by omega, ?_, ?_, rfl⟩
  · rw [hlower, hraise.1]
    omega
  · intro hs
    obtain ⟨q, hq, herr, hof⟩ := GetDifficulty_of_exact index hmantissa hs
    refine ⟨q, hq, herr, by rw [hret, hof], ?_⟩
    have hpos : (0 : Rat)
        < (256 : Rat) ^ ((29 : Int) - (((index.nBits >>> 24) &&& 0xff : Nat) : Int)) :=
      zpow_pos (by norm_num) _
    rw [← sub_mul, abs_mul, abs_of_pos hpos, ← div_mul_eq_mul_div]
    exact mul_le_mul_of_nonneg_right herr hpos.le
  · intro hbits
    obtain ⟨q, hq, -, hof⟩ := GetDifficulty_of_exact index hmantissa
      (by rw [hbits]; decide)
    rw [hret, hof]
    rw [hbits] at hq ⊢
    have hm : (0x1d00ffff &&& 0x00ffffff : Nat) = 65535 := by decide
    have hs : ((0x1d00ffff >>> 24) &&& 0xff : Nat) = 29 := by decide
    rw [hm] at hq
    rw [hs]
    have hq2 : double.round 1 = double.finite q := by
      have : (65535 : Rat) / ((65535 : Nat) : Rat) = 1 := by norm_num
      rw [this] at hq
      exact hq
    rw [double_round_one] at hq2
    rw [← double.finite.inj hq2]
    norm_num

/-- Witness for C34: the compact target `0x1c00ffff` has the mantissa 65535 and the
exponent byte 28; the body of the first loop runs once and the difficulty is 256. -/
theorem C34_GetDifficulty_witness :
    exampleTargetIndex.deref 7
        = some { phashBlock := "00ee", pprev := none, nHeight := 0, nBits := 0x1c00ffff }
    ∧ (0x1c00ffff &&& 0x00ffffff : Nat) ≠ 0
    ∧ (GetDifficulty.raise
          (double.div (double.finite ((0x0000ffff : Nat) : Rat))
            (double.finite ((0x1c00ffff &&& 0x00ffffff : Nat) : Rat)))
          (((0x1c00ffff >>> 24) &&& 0xff : Nat) : Int)).2.2 = 1
    ∧ ∃ q : Rat,
        double.round ((65535 : Rat) / ((0x1c00ffff &&& 0x00ffffff : Nat) : Rat))
          = double.finite q
        ∧ GetDifficulty exampleTargetIndex none (fun _ _ => none) (some 7)
            = some (double.finite
                (q * (256 : Rat) ^ ((29 : Int) - (((0x1c00ffff >>> 24) &&& 0xff : Nat) : Int)))) :=
  ⟨rfl, by decide,
    (C34_GetDifficulty exampleTargetIndex none (fun _ _ => none) 7
      { phashBlock := "00ee", pprev := none, nHeight := 0, nBits := 0x1c00ffff } rfl
      (by decide)).2.1.trans (by
        show ((29 : Int) - (((0x1c00ffff >>> 24) &&& 0xff : Nat) : Int)).toNat = 1
        rw [show ((0x1c00ffff >>> 24) &&& 0xff : Nat) = 28 from by decide]
        rfl),
    match (C34_GetDifficulty exampleTargetIndex none (fun _ _ => none) 7
      { phashBlock := "00ee", pprev := none, nHeight := 0, nBits := 0x1c00ffff } rfl
      (by decide)).2.2.2.2.1 (by decide) with
    | ⟨q, hq, _, hvalue, _⟩ => ⟨q, hq, hvalue⟩⟩
